import Mathlib

/-!
# ghserver: session registry, admission queue and lobby services

A shallow embedding of `src/mode/dbmgr/service/login_server.go` (the
`PlayerManager` with its three indices, the `QueueManager`, and the `Login`,
`Reconnect`, `KickPlayer` and `GetQueueInfo` handlers of `LoginServer`) and of
the managers of `src/mode/lobby/service`: `TaskManager`, `ShopManager`,
`MailManager` and `RankingManager`.

Modelling conventions.

* `*Player` values are addresses into an explicit heap (`List Player`); a fresh
  `&Player{...}` is appended to the heap and its address is the old length.
  The three indices store addresses, so "the identical Session object" is
  equality of addresses.
* `map[string]*Player` is a `GoMap`: an association list read through
  `GoMap.get` (first match), written through `GoMap.set`/`GoMap.delete`.
* Go `int` is a 64-bit two's-complement integer (`GoInt`); `int32(x)` is
  `toInt32`.
* `time.Now()` and `rand.Intn` are inputs of the call that consumes them.
* `log.*` calls have no effect on the state and are omitted.
* A handler runs from its first statement to its return as one step, except
  in the section on concurrent `Login` calls, where `Login` is split at its
  capacity test and the parts of different calls are interleaved.
-/

namespace GhServer

/-! ## Go runtime values -/

/-- Two's-complement wrap-around of a mathematical integer to 64 bits. -/
def wrapInt64 (x : Int) : Int := (x + 2 ^ 63) % 2 ^ 64 - 2 ^ 63

/-- The Go conversion `int32(x)`. -/
def toInt32 (x : Int) : Int := (x + 2 ^ 31) % 2 ^ 32 - 2 ^ 31

/-- The Go type `int` on a 64-bit platform. -/
abbrev GoInt := {x : Int // -(2 : Int) ^ 63 ≤ x ∧ x < (2 : Int) ^ 63}

/-- The zero value of a Go `int`. -/
def GoInt.zero : GoInt := ⟨0, by decide⟩

/-- The Go statement `x++`. -/
def GoInt.inc (x : GoInt) : GoInt :=
  ⟨wrapInt64 (x.val + 1), by unfold wrapInt64; constructor <;> omega⟩

/-- The Go statement `x--`. -/
def GoInt.dec (x : GoInt) : GoInt :=
  ⟨wrapInt64 (x.val - 1), by unfold wrapInt64; constructor <;> omega⟩

/-- An instant (`time.Time`), as nanoseconds relative to the Unix epoch. -/
abbrev Time := Int

/-- The zero value `time.Time{}` (January 1, year 1, 00:00:00 UTC). -/
def Time.zero : Time := -62135596800000000000

/-- The method `Time.UnixNano()`, an `int64`. -/
def Time.UnixNano (t : Time) : Int := wrapInt64 t

/-- Address of a heap-allocated object. -/
abbrev Ptr := Nat

/-- A Go `map[K]V`. -/
structure GoMap (K V : Type) where
  entries : List (K × V)
deriving DecidableEq, Repr

namespace GoMap

variable {K V : Type} [DecidableEq K]

/-- The value of `make(map[K]V)`. -/
def empty : GoMap K V := ⟨[]⟩

/-- Lookup in an association list: the first entry with the key. -/
def lookup (k : K) : List (K × V) → Option V
  | [] => none
  | e :: es => if e.1 = k then some e.2 else lookup k es

/-- The Go expression `v, ok := m[k]`. -/
def get (m : GoMap K V) (k : K) : Option V := lookup k m.entries

/-- The Go statement `delete(m, k)`. -/
def delete (m : GoMap K V) (k : K) : GoMap K V :=
  ⟨m.entries.filter (fun e => !decide (e.1 = k))⟩

/-- The Go statement `m[k] = v`. -/
def set (m : GoMap K V) (k : K) (v : V) : GoMap K V :=
  ⟨(k, v) :: (m.delete k).entries⟩

/-- The Go expression `len(m)`: the number of distinct keys. -/
def len (m : GoMap K V) : Nat := (m.entries.map Prod.fst).dedup.length

end GoMap

/-! ## Status codes

`codes.OK`, `codes.Unknown`, ... come from the external `due/v2/codes`
package; the model keeps them symbolic. -/

/-- The status codes of package `codes` used by the login server. -/
inductive codes where
  | OK
  | Unknown
  | InvalidArgument
  | NotFound
  | Unauthorized
deriving DecidableEq, Repr

/-! ## Protocol messages (package `pb`) -/

structure PlayerInfo where
  Id : String
  Nickname : String
  Level : Int
  Exp : Int
  VipLevel : Int
  Items : List Int
deriving DecidableEq, Repr

structure LoginRequest where
  Account : String
  Password : String
  DeviceId : String
deriving DecidableEq, Repr

structure LoginResponse where
  Code : codes
  Message : String
  Token : String := ""
  Player : Option PlayerInfo := none
  QueuePosition : Int := 0
deriving DecidableEq, Repr

structure ReconnectRequest where
  Token : String
  DeviceId : String
deriving DecidableEq, Repr

structure KickPlayerRequest where
  PlayerId : String
  Reason : String
deriving DecidableEq, Repr

structure CommonResponse where
  Code : codes
  Message : String
deriving DecidableEq, Repr

structure QueueInfoRequest where
  Token : String
deriving DecidableEq, Repr

structure QueueInfoResponse where
  Code : codes
  Message : String
  Position : Int := 0
  Total : Int := 0
  EstimatedTime : Int := 0
deriving DecidableEq, Repr

/-! ## Player and PlayerManager -/

/-- The struct `Player`. -/
structure Player where
  Account : String
  PlayerID : String
  Token : String
  DeviceID : String
  LoginTime : Time
  ReconnectTime : Time := Time.zero
  IsOnline : Bool := false
deriving DecidableEq, Repr

instance : Inhabited Player := ⟨{ Account := "", PlayerID := "", Token := "", DeviceID := "", LoginTime := Time.zero }⟩

/-- The objects allocated so far; the address of an object is its index. -/
abbrev Heap := List Player

/-- Dereference `*p`. -/
def Heap.deref (h : Heap) (p : Ptr) : Player := h.getD p default

/-- The struct `PlayerManager`. -/
structure PlayerManager where
  playersByAccount : GoMap String Ptr
  playersByToken : GoMap String Ptr
  playersByID : GoMap String Ptr
  onlineCount : GoInt
deriving DecidableEq

/-- The constructor `NewPlayerManager`. -/
def NewPlayerManager : PlayerManager :=
  { playersByAccount := GoMap.empty
    playersByToken := GoMap.empty
    playersByID := GoMap.empty
    onlineCount := GoInt.zero }

namespace PlayerManager

/-- The method `AddPlayer`; `h` is the heap in which `player` is read. -/
def AddPlayer (pm : PlayerManager) (h : Heap) (player : Ptr) : PlayerManager :=
  { playersByAccount := pm.playersByAccount.set (h.deref player).Account player
    playersByToken := pm.playersByToken.set (h.deref player).Token player
    playersByID := pm.playersByID.set (h.deref player).PlayerID player
    onlineCount := pm.onlineCount.inc }

/-- The method `RemovePlayer`. -/
def RemovePlayer (pm : PlayerManager) (h : Heap) (account : String) : PlayerManager :=
  match pm.playersByAccount.get account with
  | none => pm
  | some player =>
    { playersByAccount := pm.playersByAccount.delete account
      playersByToken := pm.playersByToken.delete (h.deref player).Token
      playersByID := pm.playersByID.delete (h.deref player).PlayerID
      onlineCount := pm.onlineCount.dec }

/-- The method `GetPlayerByAccount`; `none` is the nil pointer. -/
def GetPlayerByAccount (pm : PlayerManager) (account : String) : Option Ptr :=
  pm.playersByAccount.get account

/-- The method `GetPlayerByToken`. -/
def GetPlayerByToken (pm : PlayerManager) (token : String) : Option Ptr :=
  pm.playersByToken.get token

/-- The method `GetPlayerByID`. -/
def GetPlayerByID (pm : PlayerManager) (playerID : String) : Option Ptr :=
  pm.playersByID.get playerID

/-- The method `IsOnline`. -/
def IsOnline (pm : PlayerManager) (account : String) : Bool :=
  (pm.playersByAccount.get account).isSome

/-- The method `GetOnlineCount`. -/
def GetOnlineCount (pm : PlayerManager) : GoInt := pm.onlineCount

end PlayerManager

/-! ## QueueManager -/

/-- The struct `QueueItem`. -/
structure QueueItem where
  Account : String
  PlayerInfo : PlayerInfo
  JoinTime : Time
deriving DecidableEq, Repr

/-- The struct `QueueManager`. -/
structure QueueManager where
  queue : List QueueItem
deriving DecidableEq, Repr

/-- The constructor `NewQueueManager`. -/
def NewQueueManager : QueueManager := { queue := [] }

namespace QueueManager

/-- The method `AddToQueue`; `now` is the reading of `time.Now()`. -/
def AddToQueue (qm : QueueManager) (account : String) (playerInfo : PlayerInfo) (now : Time) :
    Int × QueueManager :=
  let item : QueueItem := { Account := account, PlayerInfo := playerInfo, JoinTime := now }
  let queue := qm.queue ++ [item]
  ((queue.length : Int), { queue := queue })

/-- The loop `for i, item := range qm.queue` of `GetQueueInfo`, from index `i`:
the position `i + 1` of the first entry with the account. -/
def findPosition (account : String) : List QueueItem → Nat → Option Int
  | [], _ => none
  | item :: rest, i =>
    if item.Account = account then some ((i : Int) + 1) else findPosition account rest (i + 1)

/-- The method `GetQueueInfo`: `(position, total, err)`, `err` being `true` for
the error "player not in queue". -/
def GetQueueInfo (qm : QueueManager) (account : String) : Int × Int × Bool :=
  let total : Int := qm.queue.length
  match findPosition account qm.queue 0 with
  | some position => (position, total, false)
  | none => (0, total, true)

/-- The loop of `RemoveFromQueue`: delete the first entry with the account. -/
def removeFirst (account : String) : List QueueItem → List QueueItem
  | [] => []
  | item :: rest => if item.Account = account then rest else item :: removeFirst account rest

/-- The method `RemoveFromQueue`. -/
def RemoveFromQueue (qm : QueueManager) (account : String) : QueueManager :=
  { queue := removeFirst account qm.queue }

end QueueManager

/-! ## LoginServer -/

/-- The struct `LoginServer` (its registry and queue) together with the heap
holding the `Player` objects. -/
structure LoginServer where
  heap : Heap
  playerManager : PlayerManager
  queueManager : QueueManager
deriving DecidableEq

/-- The constructor `NewLoginServer`. -/
def NewLoginServer : LoginServer :=
  { heap := [], playerManager := NewPlayerManager, queueManager := NewQueueManager }

/-- The constant `charset` of `generateToken`. -/
def charset : List Char :=
  "abcdefghijklmnopqrstuvwxyzABCDEFGHIJKLMNOPQRSTUVWXYZ0123456789".toList

/-- The 8 random characters of `generateToken`; `picks i` is the result of the
`i`-th call `rand.Intn(len(charset))`. -/
def randomStr (picks : Fin 8 → Fin 62) : String :=
  String.mk ((List.finRange 8).map (fun i => charset.getD (picks i).val 'a'))

/-- The method `generateToken`: `fmt.Sprintf("%s_%s_%d", ...)`. -/
def generateToken (account : String) (picks : Fin 8 → Fin 62) (now : Time) : String :=
  account ++ "_" ++ randomStr picks ++ "_" ++ toString (Time.UnixNano now)

/-- What a `Login` call reads from its environment: the random draws and the
first and second reading of `time.Now()`. -/
structure LoginEnv where
  picks : Fin 8 → Fin 62
  now1 : Time
  now2 : Time

namespace LoginServer

/-- The handler `Login`. -/
def Login (s : LoginServer) (req : LoginRequest) (env : LoginEnv) : LoginResponse × LoginServer :=
  if req.Account = "" ∨ req.Password = "" then
    ({ Code := codes.InvalidArgument, Message := "账号或密码不能为空" }, s)
  else
    -- `if s.playerManager.IsOnline(req.Account) { ... }` only writes a log line
    let playerInfo : PlayerInfo :=
      { Id := "player_" ++ req.Account
        Nickname := "Player_" ++ req.Account
        Level := 1
        Exp := 0
        VipLevel := 0
        Items := [1001, 1002] }
    if 100 ≤ s.playerManager.GetOnlineCount.val then
      let r := s.queueManager.AddToQueue req.Account playerInfo env.now1
      ({ Code := codes.OK, Message := "您已进入排队队列", QueuePosition := toInt32 r.1 },
        { s with queueManager := r.2 })
    else
      let token := generateToken req.Account env.picks env.now1
      let player : Ptr := s.heap.length
      let heap : Heap := s.heap ++
        [{ Account := req.Account
           PlayerID := playerInfo.Id
           Token := token
           DeviceID := req.DeviceId
           LoginTime := env.now2 }]
      ({ Code := codes.OK, Message := "登录成功", Token := token, Player := some playerInfo },
        { s with heap := heap, playerManager := s.playerManager.AddPlayer heap player })

/-- The handler `Reconnect`; `now` is the reading of `time.Now()`. -/
def Reconnect (s : LoginServer) (req : ReconnectRequest) (now : Time) :
    LoginResponse × LoginServer :=
  match s.playerManager.GetPlayerByToken req.Token with
  | none => ({ Code := codes.Unauthorized, Message := "token无效，请重新登录" }, s)
  | some player =>
    if (s.heap.deref player).DeviceID ≠ req.DeviceId then
      ({ Code := codes.Unknown, Message := "设备不匹配，请使用原设备登录" }, s)
    else
      let playerInfo : PlayerInfo :=
        { Id := (s.heap.deref player).PlayerID
          Nickname := "Player_" ++ (s.heap.deref player).Account
          Level := 1
          Exp := 0
          VipLevel := 0
          Items := [1001, 1002] }
      let heap : Heap := s.heap.set player { s.heap.deref player with ReconnectTime := now }
      ({ Code := codes.OK, Message := "重连成功", Token := (heap.deref player).Token,
         Player := some playerInfo },
        { s with heap := heap })

/-- The handler `KickPlayer`. -/
def KickPlayer (s : LoginServer) (req : KickPlayerRequest) : CommonResponse × LoginServer :=
  match s.playerManager.GetPlayerByID req.PlayerId with
  | none => ({ Code := codes.NotFound, Message := "玩家不存在" }, s)
  | some player =>
    ({ Code := codes.OK, Message := "踢出成功" },
      { s with playerManager := s.playerManager.RemovePlayer s.heap (s.heap.deref player).Account })

/-- The handler `GetQueueInfo`. -/
def GetQueueInfo (s : LoginServer) (req : QueueInfoRequest) : QueueInfoResponse × LoginServer :=
  match s.playerManager.GetPlayerByToken req.Token with
  | none => ({ Code := codes.Unauthorized, Message := "token无效" }, s)
  | some player =>
    let r := s.queueManager.GetQueueInfo (s.heap.deref player).Account
    if r.2.2 then
      ({ Code := codes.NotFound, Message := "您不在排队队列中" }, s)
    else
      let estimatedTime := wrapInt64 (r.1 * 5)
      ({ Code := codes.OK, Message := "查询成功", Position := toInt32 r.1,
         Total := toInt32 r.2.1, EstimatedTime := toInt32 estimatedTime }, s)

end LoginServer

/-! ## Call sequences -/

/-- One call of a handler of the login service, with what it reads from its
environment. -/
inductive Call where
  | Login (req : LoginRequest) (env : LoginEnv)
  | Reconnect (req : ReconnectRequest) (now : Time)
  | KickPlayer (req : KickPlayerRequest)
  | GetQueueInfo (req : QueueInfoRequest)

/-- The state after a call. -/
def step (s : LoginServer) : Call → LoginServer
  | .Login req env => (s.Login req env).2
  | .Reconnect req now => (s.Reconnect req now).2
  | .KickPlayer req => (s.KickPlayer req).2
  | .GetQueueInfo req => (s.GetQueueInfo req).2

/-- The state after a sequence of calls, served one after the other. -/
def run (s : LoginServer) (calls : List Call) : LoginServer := calls.foldl step s

/-- States reachable from a freshly constructed server. -/
def Reachable (s : LoginServer) : Prop := ∃ calls : List Call, run NewLoginServer calls = s

/-- Whether the admission queue holds an entry for the account. -/
def inQueue (s : LoginServer) (account : String) : Bool :=
  s.queueManager.queue.any (fun item => decide (item.Account = account))

/-! ## Properties named by the specification -/

/-- The Session at address `S` is stored in at least one of the three indices. -/
def Stored (s : LoginServer) (S : Ptr) : Prop :=
  (∃ k, s.playerManager.GetPlayerByAccount k = some S) ∨
  (∃ k, s.playerManager.GetPlayerByToken k = some S) ∨
  (∃ k, s.playerManager.GetPlayerByID k = some S)

/-- Index coherence at the Session `S`: the lookups by its account, its token
and its player id all return `S` itself. -/
def Coherent (s : LoginServer) (S : Ptr) : Prop :=
  s.playerManager.GetPlayerByAccount (s.heap.deref S).Account = some S ∧
  s.playerManager.GetPlayerByToken (s.heap.deref S).Token = some S ∧
  s.playerManager.GetPlayerByID (s.heap.deref S).PlayerID = some S

/-- Mutual exclusivity: no account is both online and in the admission queue. -/
def Exclusive (s : LoginServer) : Prop :=
  ∀ account : String, ¬ (s.playerManager.IsOnline account = true ∧ inQueue s account = true)

/-- The online count is at least the number of entries of the account index
and at most the capacity. -/
def CountInv (pm : PlayerManager) : Prop :=
  (pm.playersByAccount.entries.length : Int) ≤ pm.onlineCount.val ∧ pm.onlineCount.val ≤ 100

/-- Every entry `k ↦ p` of the index `m` points to an allocated `Player` whose
key field (`Account`, `Token` or `PlayerID`) is `k`. -/
def IndexInv (h : Heap) (m : GoMap String Ptr) (key : Player → String) : Prop :=
  ∀ (k : String) (p : Ptr), m.get k = some p → p < h.length ∧ key (h.deref p) = k

/-- Each of the three indices files its Sessions under their own key field. -/
def HeapInv (s : LoginServer) : Prop :=
  IndexInv s.heap s.playerManager.playersByAccount Player.Account ∧
  IndexInv s.heap s.playerManager.playersByToken Player.Token ∧
  IndexInv s.heap s.playerManager.playersByID Player.PlayerID

/-- Every allocated `Player` has the player id derived from its account, and
every Session of the player-id index is filed in the account index under its
account. -/
def SyncInv (s : LoginServer) : Prop :=
  (∀ x ∈ s.heap, x.PlayerID = "player_" ++ x.Account) ∧
  (∀ (k : String) (p : Ptr), s.playerManager.playersByID.get k = some p →
    s.playerManager.playersByAccount.get (s.heap.deref p).Account = some p)

/-- Every allocated `Player` carries a token generated for its own account, and
every Session of the account index is filed in the token index under its own
token. -/
def TokenInv (s : LoginServer) : Prop :=
  (∀ x ∈ s.heap, ∃ (picks : Fin 8 → Fin 62) (now : Time),
    x.Token = generateToken x.Account picks now) ∧
  (∀ (a : String) (S : Ptr), s.playerManager.playersByAccount.get a = some S →
    s.playerManager.playersByToken.get (s.heap.deref S).Token = some S)

/-! ## Reading tokens -/

/-- The number written by a list of decimal digits. -/
def decimalValue (cs : List Char) : Nat :=
  cs.foldl (fun acc c => acc * 10 + (c.toNat - 48)) 0

/-! ## The background goroutine -/

/-- One iteration of the loop of the goroutine started by `QueueManager.Start`:
`time.Sleep(500 * time.Millisecond)` and nothing else (the body holds only the
comment that the queue processing can be implemented there). -/
def QueueManager.tick (qm : QueueManager) : QueueManager := qm

/-- The server after one iteration of the goroutine of its queue manager. -/
def LoginServer.tick (s : LoginServer) : LoginServer :=
  { s with queueManager := s.queueManager.tick }

/-! ## Sequences of queue calls -/

/-- One call of a method of the admission queue; `now` is the reading of
`time.Now()` made by `AddToQueue`. -/
inductive QueueOp where
  | AddToQueue (account : String) (playerInfo : PlayerInfo) (now : Time)
  | RemoveFromQueue (account : String)

/-- The queue after a call. -/
def QueueManager.apply (qm : QueueManager) : QueueOp → QueueManager
  | .AddToQueue account playerInfo now => (qm.AddToQueue account playerInfo now).2
  | .RemoveFromQueue account => qm.RemoveFromQueue account

/-- The queue after a sequence of calls. -/
def runQueue (qm : QueueManager) (ops : List QueueOp) : QueueManager :=
  ops.foldl QueueManager.apply qm

/-- The clock readings made by a sequence of queue calls, in the order of the
calls. -/
def clockReadings (ops : List QueueOp) : List Time :=
  ops.filterMap (fun op =>
    match op with
    | .AddToQueue _ _ now => some now
    | .RemoveFromQueue _ => none)

/-- The clock never goes back during the sequence of calls. -/
def ClockNonDecreasing (ops : List QueueOp) : Prop :=
  (clockReadings ops).Pairwise (fun t u => t ≤ u)

/-! ## Concrete requests used in the examples -/

/-- A login request of account `a` from device `d1`. -/
def reqA : LoginRequest := { Account := "a", Password := "p", DeviceId := "d1" }

/-- An environment whose random draws are all 0 and whose clock reads `n`. -/
def envAt (n : Int) : LoginEnv := { picks := fun _ => 0, now1 := n, now2 := n }

/-- Two successive logins of account `a`. -/
def twoLogins : List Call := [.Login reqA (envAt 1), .Login reqA (envAt 2)]

/-- A login request of account `b` from device `d2`. -/
def reqB : LoginRequest := { Account := "b", Password := "p", DeviceId := "d2" }

/-- The login request of the `i`-th of a family of distinct accounts `u0`, `u1`, ... -/
def reqU (i : Nat) : LoginRequest :=
  { Account := "u" ++ toString i, Password := "p", DeviceId := "d" }

/-- One hundred logins, of the distinct accounts `u0`, ..., `u99`: they fill the
registry. -/
def fillCalls : List Call := (List.range 100).map (fun i => Call.Login (reqU i) (envAt i))

/-- The registry is filled and then `2^31 - 1` further accounts log in. -/
def longQueueCalls : List Call :=
  fillCalls ++ (List.range 2147483647).map (fun i => Call.Login (reqU (100 + i)) (envAt (100 + i)))

/-- The registry is filled by `u0`, ..., `u99`, and then `u0`, still online,
logs in once more. -/
def reloginAtCapacity : List Call := fillCalls ++ [Call.Login (reqU 0) (envAt 100)]

/-- A reconnect request with the token of the first login of `a` and its device. -/
def reqSameDevice : ReconnectRequest := { Token := "a_aaaaaaaa_1", DeviceId := "d1" }

/-- A reconnect request with the token of the first login of `a` and another device. -/
def reqOtherDevice : ReconnectRequest := { Token := "a_aaaaaaaa_1", DeviceId := "d2" }

/-- A kick request for the player id of account `a`. -/
def reqKickA : KickPlayerRequest := { PlayerId := "player_a", Reason := "r" }

/-- The profile snapshot `Login` builds for account `a`. -/
def infoA : PlayerInfo :=
  { Id := "player_a", Nickname := "Player_a", Level := 1, Exp := 0, VipLevel := 0,
    Items := [1001, 1002] }

/-- The profile snapshot `Login` builds for account `b`. -/
def infoB : PlayerInfo :=
  { Id := "player_b", Nickname := "Player_b", Level := 1, Exp := 0, VipLevel := 0,
    Items := [1001, 1002] }

/-- A queue holding `a` (joined at 1) and then `b` (joined at 2). -/
def queueAB : QueueManager :=
  { queue := [{ Account := "a", PlayerInfo := infoA, JoinTime := 1 },
              { Account := "b", PlayerInfo := infoB, JoinTime := 2 }] }

/-- A kick request for the player id of account `u0`. -/
def reqKickU0 : KickPlayerRequest := { PlayerId := "player_u0", Reason := "r" }

/-- The registry is filled by `u0`, ..., `u99`, then `b` logs in and is queued,
then `u0` is kicked. -/
def queuedThenKick : List Call :=
  fillCalls ++ [Call.Login reqB (envAt 100), Call.KickPlayer reqKickU0]

/-- The registry is filled by `u0`, ..., `u99`, then `b` logs in `429496729`
times, then `u0`, still online, logs in once more. -/
def longPollCalls : List Call :=
  fillCalls ++ (List.replicate 429496729 (Call.Login reqB (envAt 100)) ++
    [Call.Login (reqU 0) (envAt 101)])

/-- The queue entry `Login` builds for account `b` at clock reading 100. -/
def itemB : QueueItem := { Account := "b", PlayerInfo := infoB, JoinTime := 100 }

/-- The queue entry `Login` builds for account `u0` at clock reading 101. -/
def itemU0 : QueueItem :=
  { Account := "u0"
    PlayerInfo := { Id := "player_u0", Nickname := "Player_u0", Level := 1, Exp := 0,
                    VipLevel := 0, Items := [1001, 1002] }
    JoinTime := 101 }

/-- The queue-info request carrying the token minted at the login of `u0`. -/
def reqPollU0 : QueueInfoRequest := { Token := "u0_aaaaaaaa_0" }

/-- A `Login` call whose account and password are both non-empty. -/
def Call.isValidLogin : Call → Prop
  | .Login req _ => req.Account ≠ "" ∧ req.Password ≠ ""
  | _ => False

/-! ## Concurrent `Login` calls

The handlers run in goroutines of their own and neither `LoginServer` nor
`PlayerManager` holds a lock. `Login` is split at the point between its
capacity test and the creation of the Session; a concurrent execution
interleaves these two atomic parts of different calls. -/

/-- How the first part of `Login` ends: the call has returned (invalid
request, or queued), or the capacity test found room and the call goes on to
create the Session. -/
inductive LoginCheck where
  | returned (resp : LoginResponse)
  | admitted (playerInfo : PlayerInfo)

namespace LoginServer

/-- The handler `Login` up to and including the test
`s.playerManager.GetOnlineCount() >= 100` with its queue branch. -/
def loginCheck (s : LoginServer) (req : LoginRequest) (env : LoginEnv) :
    LoginCheck × LoginServer :=
  if req.Account = "" ∨ req.Password = "" then
    (.returned { Code := codes.InvalidArgument, Message := "账号或密码不能为空" }, s)
  else
    let playerInfo : PlayerInfo :=
      { Id := "player_" ++ req.Account
        Nickname := "Player_" ++ req.Account
        Level := 1
        Exp := 0
        VipLevel := 0
        Items := [1001, 1002] }
    if 100 ≤ s.playerManager.GetOnlineCount.val then
      let r := s.queueManager.AddToQueue req.Account playerInfo env.now1
      (.returned
        { Code := codes.OK, Message := "您已进入排队队列", QueuePosition := toInt32 r.1 },
        { s with queueManager := r.2 })
    else (.admitted playerInfo, s)

/-- The handler `Login` after the capacity test has found room: the token is
generated, the `Player` is allocated and `AddPlayer` is called. -/
def loginCreate (s : LoginServer) (req : LoginRequest) (env : LoginEnv)
    (playerInfo : PlayerInfo) : LoginResponse × LoginServer :=
  let token := generateToken req.Account env.picks env.now1
  let player : Ptr := s.heap.length
  let heap : Heap := s.heap ++
    [{ Account := req.Account
       PlayerID := playerInfo.Id
       Token := token
       DeviceID := req.DeviceId
       LoginTime := env.now2 }]
  ({ Code := codes.OK, Message := "登录成功", Token := token, Player := some playerInfo },
    { s with heap := heap, playerManager := s.playerManager.AddPlayer heap player })

end LoginServer

/-- One atomic part of one of several concurrent `Login` calls; `id` names the
call. -/
inductive LoginStep where
  | check (id : Nat) (req : LoginRequest) (env : LoginEnv)
  | create (id : Nat)

/-- The server together with the calls that have passed the capacity test and
have not yet created their Session. -/
structure ConcurrentServer where
  server : LoginServer
  pending : GoMap Nat (LoginRequest × LoginEnv × PlayerInfo)

/-- The state after one atomic part of a call. -/
def stepConcurrent (c : ConcurrentServer) : LoginStep → ConcurrentServer
  | .check id req env =>
    match c.server.loginCheck req env with
    | (.returned _, s1) => { c with server := s1 }
    | (.admitted playerInfo, s1) =>
      { server := s1, pending := c.pending.set id (req, env, playerInfo) }
  | .create id =>
    match c.pending.get id with
    | none => c
    | some (req, env, playerInfo) =>
      { server := (c.server.loginCreate req env playerInfo).2, pending := c.pending.delete id }

/-- The state after a schedule: a sequence of atomic parts of concurrent
calls. -/
def runConcurrent (c : ConcurrentServer) (schedule : List LoginStep) : ConcurrentServer :=
  schedule.foldl stepConcurrent c

/-- The schedule that executes the two parts of every call back to back, as
one critical section. -/
def criticalSections : List (Nat × LoginRequest × LoginEnv) → List LoginStep
  | [] => []
  | (id, req, env) :: rest => .check id req env :: .create id :: criticalSections rest

/-- A login request of a third account. -/
def reqC : LoginRequest := { Account := "c", Password := "p", DeviceId := "d3" }

/-- Ninety-nine logins, of the distinct accounts `u0`, ..., `u98`. -/
def fill99Calls : List Call := (List.range 99).map (fun i => Call.Login (reqU i) (envAt i))

/-- Two concurrent logins, of `a` and of `c`: both pass the capacity test
before either creates its Session. -/
def raceSchedule : List LoginStep :=
  [.check 1 reqA (envAt 200), .check 2 reqC (envAt 201), .create 1, .create 2]

/-- The same two logins executed one after the other. -/
def serialLogins : List (Nat × LoginRequest × LoginEnv) :=
  [(1, reqA, envAt 200), (2, reqC, envAt 201)]

/-- Account `b` joins the queue at time 1, `a` at time 2 and `b` once more at
time 3. -/
def opsBAB : List QueueOp :=
  [.AddToQueue "b" infoB 1, .AddToQueue "a" infoA 2, .AddToQueue "b" infoB 3]

/-! ## Tasks

A shallow embedding of `src/mode/lobby/service/task_api.go`. The
`map[string]int` values of a `Task` are references: they are addresses into
the list `maps` of allocated map objects. The order in which `range` visits
`globalTasks` is not fixed by Go and is an input (`order`) of every method
that may initialise a player. Errors are their messages. -/

/-- The struct `TaskReward`; `RewardType` is the field `Type`. -/
structure TaskReward where
  RewardType : Int
  ItemID : Int
  Count : Int
deriving DecidableEq, Repr

/-- The struct `Task`; `TaskType` is the field `Type`. -/
structure Task where
  ID : Int
  TaskType : Int
  Name : String
  Description : String
  Status : Int
  Targets : Ptr
  ProgressMap : Ptr
  Progress : Int
  Target : Int
  Rewards : List TaskReward
  AcceptLevel : Int
  NextTaskID : Int
deriving DecidableEq, Repr

/-- The allocated `map[string]int` objects; the address of a map is its index. -/
abbrev MapHeap := List (GoMap String Int)

/-- The map object at address `p`. -/
def MapHeap.deref (maps : MapHeap) (p : Ptr) : GoMap String Int := maps.getD p GoMap.empty

/-- The struct `TaskManager`, with the map objects its tasks refer to. -/
structure TaskManager where
  maps : MapHeap
  playerTasks : GoMap String (List Task)
  globalTasks : GoMap Int Task
deriving DecidableEq

/-- The templates built by `initGlobalTasks`, with the addresses of their maps. -/
def template1001 : Task :=
  { ID := 1001, TaskType := 1, Name := "初入江湖", Description := "与村长对话，了解村庄的情况",
    Status := 1, Targets := 0, ProgressMap := 1, Progress := 0, Target := 1,
    Rewards := [{ RewardType := 1, ItemID := 0, Count := 100 },
                { RewardType := 2, ItemID := 0, Count := 1000 }],
    AcceptLevel := 1, NextTaskID := 1002 }

/-- The template of task 1002, initially locked. -/
def template1002 : Task :=
  { ID := 1002, TaskType := 1, Name := "除掉山贼", Description := "消灭10个山贼，保护村庄安全",
    Status := 0, Targets := 2, ProgressMap := 3, Progress := 0, Target := 10,
    Rewards := [{ RewardType := 1, ItemID := 0, Count := 200 },
                { RewardType := 2, ItemID := 0, Count := 2000 },
                { RewardType := 3, ItemID := 2001, Count := 1 }],
    AcceptLevel := 2, NextTaskID := 0 }

/-- The template of task 2001. -/
def template2001 : Task :=
  { ID := 2001, TaskType := 2, Name := "收集药材", Description := "帮郎中收集5株草药",
    Status := 1, Targets := 4, ProgressMap := 5, Progress := 0, Target := 5,
    Rewards := [{ RewardType := 1, ItemID := 0, Count := 50 },
                { RewardType := 2, ItemID := 0, Count := 500 }],
    AcceptLevel := 1, NextTaskID := 0 }

/-- The template of task 3001. -/
def template3001 : Task :=
  { ID := 3001, TaskType := 3, Name := "日常巡逻", Description := "在村庄周围巡逻1次",
    Status := 1, Targets := 6, ProgressMap := 7, Progress := 0, Target := 1,
    Rewards := [{ RewardType := 1, ItemID := 0, Count := 30 },
                { RewardType := 2, ItemID := 0, Count := 300 }],
    AcceptLevel := 1, NextTaskID := 0 }

/-- The constructor `NewTaskManager`, `initGlobalTasks` included: the eight map
literals are allocated in source order and the four templates are stored under
their ids. -/
def NewTaskManager : TaskManager :=
  { maps := [⟨[("talk_npc", 1)]⟩, ⟨[("talk_npc", 0)]⟩,
             ⟨[("kill_monster", 10)]⟩, ⟨[("kill_monster", 0)]⟩,
             ⟨[("collect_herb", 5)]⟩, ⟨[("collect_herb", 0)]⟩,
             ⟨[("patrol", 1)]⟩, ⟨[("patrol", 0)]⟩]
    playerTasks := GoMap.empty
    globalTasks := (((GoMap.empty.set 1001 template1001).set 1002 template1002).set 2001
      template2001).set 3001 template3001 }

/-- The first loop of `initPlayerTasks`: for every template, in the order of
the `range`, a copy of the struct whose `Targets` and `ProgressMap` are freshly
allocated maps with the entries of the template's maps and whose `Rewards` is a
copy of the template's. -/
def copyTemplates (maps : MapHeap) : List (Int × Task) → MapHeap × List Task
  | [] => (maps, [])
  | (_, taskTemplate) :: rest =>
    let targets : Ptr := maps.length
    let maps1 := maps ++ [maps.deref taskTemplate.Targets]
    let progressMap : Ptr := maps1.length
    let maps2 := maps1 ++ [maps1.deref taskTemplate.ProgressMap]
    let task : Task :=
      { taskTemplate with
        Targets := targets, ProgressMap := progressMap, Rewards := taskTemplate.Rewards }
    let r := copyTemplates maps2 rest
    (r.1, task :: r.2)

/-- The second loop of `initPlayerTasks`: task 1001 is marked completed and
task 2001 in progress. -/
def markSamples (maps : MapHeap) : List Task → MapHeap × List Task
  | [] => (maps, [])
  | t :: rest =>
    let r1 : MapHeap × Task :=
      if t.ID = 1001 then
        (maps.set t.ProgressMap ((maps.deref t.ProgressMap).set "talk_npc" 1),
         { t with Progress := 100, Status := 3 })
      else (maps, t)
    let r2 : MapHeap × Task :=
      if r1.2.ID = 2001 then
        (r1.1.set r1.2.ProgressMap ((r1.1.deref r1.2.ProgressMap).set "collect_herb" 3),
         { r1.2 with Progress := 60, Status := 2 })
      else r1
    let r := markSamples r2.1 rest
    (r.1, r2.2 :: r.2)

/-- The loop `for i := range tasks { if tasks[i].ID == taskID ... }` shared by
the methods: the first index whose task has the id, with that task. -/
def findTask (taskID : Int) : List Task → Option (Nat × Task)
  | [] => none
  | t :: rest =>
    if t.ID = taskID then some (0, t)
    else (findTask taskID rest).map (fun r => (r.1 + 1, r.2))

namespace TaskManager

/-- The method `initPlayerTasks`; `order` is the sequence of entries the
`range` over `globalTasks` delivers. -/
def initPlayerTasks (m : TaskManager) (playerID : String) (order : List (Int × Task)) :
    TaskManager :=
  let r1 := copyTemplates m.maps order
  let r2 := markSamples r1.1 r1.2
  { m with maps := r2.1, playerTasks := m.playerTasks.set playerID r2.2 }

/-- The prologue of every method:
`if _, exists := m.playerTasks[playerID]; !exists { m.initPlayerTasks(playerID) }`. -/
def initIfAbsent (m : TaskManager) (playerID : String) (order : List (Int × Task)) :
    TaskManager :=
  match m.playerTasks.get playerID with
  | some _ => m
  | none => m.initPlayerTasks playerID order

/-- The slice `m.playerTasks[playerID]` (nil when the player has none). -/
def tasksOf (m : TaskManager) (playerID : String) : List Task :=
  (m.playerTasks.get playerID).getD []

/-- The method `GetTaskList`. -/
def GetTaskList (m : TaskManager) (playerID : String) (taskType : Int)
    (order : List (Int × Task)) : List Task × TaskManager :=
  let m1 := m.initIfAbsent playerID order
  ((m1.tasksOf playerID).filter (fun t => decide (taskType = 0 ∨ t.TaskType = taskType)), m1)

/-- The method `GetTaskDetail`: the task, or the error. -/
def GetTaskDetail (m : TaskManager) (playerID : String) (taskID : Int)
    (order : List (Int × Task)) : Except String Task × TaskManager :=
  let m1 := m.initIfAbsent playerID order
  match findTask taskID (m1.tasksOf playerID) with
  | some r => (.ok r.2, m1)
  | none => (.error "任务不存在", m1)

/-- The method `AcceptTask`: the error (`none` is nil) and the state after. -/
def AcceptTask (m : TaskManager) (playerID : String) (taskID : Int)
    (order : List (Int × Task)) : Option String × TaskManager :=
  let m1 := m.initIfAbsent playerID order
  match findTask taskID (m1.tasksOf playerID) with
  | some r =>
    if r.2.Status ≠ 1 then (some "任务已接取或已完成", m1)
    else if 1 < r.2.AcceptLevel then (some "等级不足", m1)
    else
      (none,
       { m1 with
         playerTasks := m1.playerTasks.set playerID
           ((m1.tasksOf playerID).set r.1 { r.2 with Status := 2 }) })
  | none => (some "任务不存在", m1)

/-- The method `SubmitTask`: the rewards or the error, and the state after. -/
def SubmitTask (m : TaskManager) (playerID : String) (taskID : Int)
    (order : List (Int × Task)) : Except String (List TaskReward) × TaskManager :=
  let m1 := m.initIfAbsent playerID order
  match findTask taskID (m1.tasksOf playerID) with
  | some r =>
    if r.2.Status ≠ 3 then (.error "任务未完成，无法提交", m1)
    else
      let rewards := r.2.Rewards
      let tasks1 := (m1.tasksOf playerID).set r.1 { r.2 with Status := 4 }
      let tasks2 :=
        if 0 < r.2.NextTaskID then
          match findTask r.2.NextTaskID tasks1 with
          | some n => tasks1.set n.1 { n.2 with Status := 1 }
          | none => tasks1
        else tasks1
      (.ok rewards, { m1 with playerTasks := m1.playerTasks.set playerID tasks2 })
  | none => (.error "任务不存在", m1)

/-- The method `GiveUpTask`: the error (`none` is nil) and the state after. -/
def GiveUpTask (m : TaskManager) (playerID : String) (taskID : Int)
    (order : List (Int × Task)) : Option String × TaskManager :=
  let m1 := m.initIfAbsent playerID order
  match findTask taskID (m1.tasksOf playerID) with
  | some r =>
    if r.2.Status ≠ 2 then (some "只能放弃进行中的任务", m1)
    else
      (none,
       { m1 with
         maps := m1.maps.set r.2.ProgressMap
           ⟨(m1.maps.deref r.2.ProgressMap).entries.map (fun e => (e.1, (0 : Int)))⟩
         playerTasks := m1.playerTasks.set playerID
           ((m1.tasksOf playerID).set r.1 { r.2 with Status := 1, Progress := 0 }) })
  | none => (some "任务不存在", m1)

end TaskManager

/-- One call of a method of the task manager. -/
inductive TaskCall where
  | GetTaskList (playerID : String) (taskType : Int) (order : List (Int × Task))
  | GetTaskDetail (playerID : String) (taskID : Int) (order : List (Int × Task))
  | AcceptTask (playerID : String) (taskID : Int) (order : List (Int × Task))
  | SubmitTask (playerID : String) (taskID : Int) (order : List (Int × Task))
  | GiveUpTask (playerID : String) (taskID : Int) (order : List (Int × Task))

/-- The iteration order a call supplies to `initPlayerTasks`. -/
def TaskCall.order : TaskCall → List (Int × Task)
  | .GetTaskList _ _ order => order
  | .GetTaskDetail _ _ order => order
  | .AcceptTask _ _ order => order
  | .SubmitTask _ _ order => order
  | .GiveUpTask _ _ order => order

/-- The task manager after a call. -/
def stepTask (m : TaskManager) : TaskCall → TaskManager
  | .GetTaskList playerID taskType order => (m.GetTaskList playerID taskType order).2
  | .GetTaskDetail playerID taskID order => (m.GetTaskDetail playerID taskID order).2
  | .AcceptTask playerID taskID order => (m.AcceptTask playerID taskID order).2
  | .SubmitTask playerID taskID order => (m.SubmitTask playerID taskID order).2
  | .GiveUpTask playerID taskID order => (m.GiveUpTask playerID taskID order).2

/-- The task manager after a sequence of calls. -/
def runTasks (m : TaskManager) (calls : List TaskCall) : TaskManager := calls.foldl stepTask m

/-- Every call ranges over `globalTasks` in an order that visits each template
of the fresh manager exactly once. -/
def ValidOrders (calls : List TaskCall) : Prop :=
  ∀ c ∈ calls, c.order.Perm NewTaskManager.globalTasks.entries

/-- Whether the call is a `SubmitTask` of the player, for a task id satisfying
`sel`, that succeeds in state `m`. -/
def isSuccessfulSubmit (m : TaskManager) (playerID : String) (sel : Int → Bool) :
    TaskCall → Bool
  | .SubmitTask p taskID order =>
    decide (p = playerID) && sel taskID &&
      (match (m.SubmitTask p taskID order).1 with
       | .ok _ => true
       | .error _ => false)
  | _ => false

/-- The number of successful `SubmitTask` calls of the player, for task ids
satisfying `sel`, in a sequence of calls started in state `m`. -/
def successfulSubmits (playerID : String) (sel : Int → Bool) :
    TaskManager → List TaskCall → Nat
  | _, [] => 0
  | m, c :: cs =>
    (if isSuccessfulSubmit m playerID sel c then 1 else 0) +
      successfulSubmits playerID sel (stepTask m c) cs

/-- The facts about one task of a player that every call preserves. -/
def TaskOK (t : Task) : Prop :=
  (t.ID = 1001 ∧ (t.Status = 3 ∨ t.Status = 4) ∧ t.NextTaskID = 1002) ∨
  (t.ID = 1002 ∧ (t.Status = 0 ∨ t.Status = 1) ∧ t.AcceptLevel = 2 ∧ t.NextTaskID = 0) ∨
  (t.ID = 2001 ∧ (t.Status = 1 ∨ t.Status = 2) ∧ t.NextTaskID = 0) ∨
  (t.ID = 3001 ∧ (t.Status = 1 ∨ t.Status = 2) ∧ t.NextTaskID = 0)

/-- Every task list of the manager holds the four tasks, each in a state
allowed by `TaskOK`. -/
def TasksInv (m : TaskManager) : Prop :=
  ∀ (playerID : String) (tasks : List Task), m.playerTasks.get playerID = some tasks →
    (tasks.map Task.ID).Perm [3001, 2001, 1002, 1001] ∧ ∀ t ∈ tasks, TaskOK t

/-- The iteration order that visits the templates by ascending id. -/
def orderAscending : List (Int × Task) :=
  [(1001, template1001), (1002, template1002), (2001, template2001), (3001, template3001)]

/-- The player has a task list and none of its tasks has `Status` 3. -/
def NoneCompleted (m : TaskManager) (playerID : String) : Prop :=
  ∃ tasks, m.playerTasks.get playerID = some tasks ∧ ∀ t ∈ tasks, t.Status ≠ 3

/-- A player who accepts 3001, submits 1001 twice, tries to accept the
unlocked 1002 and gives up 2001, next to a second player who lists tasks. -/
def sampleTaskCalls : List TaskCall :=
  [.AcceptTask "p" 3001 orderAscending,
   .SubmitTask "p" 1001 orderAscending,
   .GetTaskList "q" 0 orderAscending,
   .SubmitTask "p" 1001 orderAscending,
   .AcceptTask "p" 1002 orderAscending,
   .GiveUpTask "p" 2001 orderAscending]

/-- The player a call is made for. -/
def TaskCall.playerID : TaskCall → String
  | .GetTaskList playerID _ _ => playerID
  | .GetTaskDetail playerID _ _ => playerID
  | .AcceptTask playerID _ _ => playerID
  | .SubmitTask playerID _ _ => playerID
  | .GiveUpTask playerID _ _ => playerID

/-- No map object is shared between players or with the templates: the heap
holds the eight template maps, the maps of every task of a player lie behind
them and inside the heap, and the `ProgressMap` of a task of one player is
neither map of any task of another player. -/
def MapsInv (m : TaskManager) : Prop :=
  8 ≤ m.maps.length ∧
  (∀ (p : String) (tasks : List Task), m.playerTasks.get p = some tasks → ∀ t ∈ tasks,
    8 ≤ t.Targets ∧ t.Targets < m.maps.length ∧
    8 ≤ t.ProgressMap ∧ t.ProgressMap < m.maps.length) ∧
  (∀ (p q : String) (tp tq : List Task), p ≠ q →
    m.playerTasks.get p = some tp → m.playerTasks.get q = some tq →
    ∀ t ∈ tp, ∀ u ∈ tq, t.ProgressMap ≠ u.Targets ∧ t.ProgressMap ≠ u.ProgressMap)

/-- Two players list their tasks, which creates both task lists. -/
def isolationCalls : List TaskCall :=
  [.GetTaskList "p" 0 orderAscending,
   .GetTaskList "q" 0 orderAscending]

/-! ## The shop (`lobby/service/shop_api.go`)

`ShopManager` holds its items behind pointers that are created once, by
`initShopItems`, and never copied into a second place of the state, and one
`PlayerCurrency` object per player; the model keeps both by value and writes
an updated object back where the pointer was read. Go `int` arithmetic is
wrapped with `wrapInt64`. -/

/-- The type `float32`. Floating-point arithmetic is not modelled: a value is
kept as the decimal literal of the source (`mantissa * 10 ^ exponent`), and the
one expression that computes with it, `int(float32(p) * rate)`, is a parameter
of the methods that evaluate it. -/
structure Float32 where
  mantissa : Int
  exponent : Int
deriving DecidableEq, Repr

/-- The struct `ShopItem`. -/
structure ShopItem where
  ItemID : Int
  OriginalPrice : Int
  CurrentPrice : Int
  CurrencyType : Int
  Stock : Int
  MaxBuyCount : Int
  BoughtCount : Int
  ExpireTime : Int
  IsDiscount : Bool
  DiscountRate : Float32
deriving DecidableEq, Repr

/-- The struct `Item` (a bag item); `ItemID` and `Count` are `int32`. -/
structure Item where
  ID : String
  ItemID : Int
  Count : Int
  CreateTime : Int
  Attrs : GoMap String String
deriving DecidableEq, Repr

/-- The struct `PlayerCurrency`. -/
structure PlayerCurrency where
  Coins : Int
  Gems : Int
deriving DecidableEq, Repr

/-- The struct `ShopManager`. -/
structure ShopManager where
  shopItems : GoMap Int (List ShopItem)
  playerBuys : GoMap String (GoMap Int Int)
  playerCurrency : GoMap String PlayerCurrency
deriving DecidableEq, Repr

/-- The constructor `NewShopManager`, `initShopItems` included; `now` is the
reading of `time.Now().Unix()` in `initShopItems`. -/
def NewShopManager (now : Int) : ShopManager :=
  let weekLater := wrapInt64 (now + 7 * 86400)
  { shopItems :=
      ((GoMap.empty.set 1
        [{ ItemID := 1001, OriginalPrice := 100, CurrentPrice := 100, CurrencyType := 1,
           Stock := 999, MaxBuyCount := 0, BoughtCount := 0, ExpireTime := 0,
           IsDiscount := false, DiscountRate := ⟨10, -1⟩ },
         { ItemID := 1002, OriginalPrice := 200, CurrentPrice := 200, CurrencyType := 1,
           Stock := 999, MaxBuyCount := 0, BoughtCount := 0, ExpireTime := 0,
           IsDiscount := false, DiscountRate := ⟨10, -1⟩ },
         { ItemID := 2001, OriginalPrice := 1000, CurrentPrice := 900, CurrencyType := 1,
           Stock := 50, MaxBuyCount := 0, BoughtCount := 0, ExpireTime := 0,
           IsDiscount := true, DiscountRate := ⟨9, -1⟩ }]).set 2
        [{ ItemID := 2005, OriginalPrice := 5000, CurrentPrice := 3500, CurrencyType := 1,
           Stock := 10, MaxBuyCount := 1, BoughtCount := 0, ExpireTime := weekLater,
           IsDiscount := true, DiscountRate := ⟨7, -1⟩ },
         { ItemID := 3001, OriginalPrice := 100, CurrentPrice := 80, CurrencyType := 2,
           Stock := 20, MaxBuyCount := 5, BoughtCount := 0, ExpireTime := weekLater,
           IsDiscount := true, DiscountRate := ⟨8, -1⟩ }]).set 3
        [{ ItemID := 4001, OriginalPrice := 1000, CurrentPrice := 1000, CurrencyType := 2,
           Stock := 99, MaxBuyCount := 0, BoughtCount := 0, ExpireTime := 0,
           IsDiscount := false, DiscountRate := ⟨10, -1⟩ }]
    playerBuys := GoMap.empty
    playerCurrency := GoMap.empty }

/-- The inner loop of the item search of `BuyItem`: the first index of the
slice whose item has the id, with that item. -/
def findInShop (itemID : Int) : List ShopItem → Option (Nat × ShopItem)
  | [] => none
  | item :: rest =>
    if item.ItemID = itemID then some (0, item)
    else (findInShop itemID rest).map (fun r => (r.1 + 1, r.2))

/-- The item search of `BuyItem`; `order` is the sequence of shop types the
`range` over `shopItems` delivers. The result is the shop type, the index in
its slice and the item found first. -/
def findItem (shopItems : GoMap Int (List ShopItem)) (itemID : Int) :
    List Int → Option (Int × Nat × ShopItem)
  | [] => none
  | shopType :: rest =>
    match findInShop itemID ((shopItems.get shopType).getD []) with
    | some r => some (shopType, r.1, r.2)
    | none => findItem shopItems itemID rest

/-- What a call of `BuyItem` consumes from outside: the reading of
`time.Now().Unix()`, the readings of `time.Now().UnixNano()` in the iterations
of the last loop, and the order of the `range` over `shopItems`. -/
structure ShopEnv where
  now : Int
  nanos : Nat → Int
  order : List Int

/-- How a call of `BuyItem` ends: with the bought items, the total price and
the currency type; with an error; or in the run-time panic of
`make([]Item, 0, count)` for a `count` that is negative or too large. -/
inductive BuyResult where
  | ok (boughtItems : List Item) (totalPrice : Int) (currencyType : Int)
  | error (msg : String)
  | panic
deriving DecidableEq, Repr

/-- The size in bytes of an `Item` on a 64-bit platform: a string header (16),
two `int32` (4 each), an `int64` (8) and a map pointer (8). -/
def itemSize : Int := 40

/-- The bound `maxAlloc` of the Go run-time on a 64-bit platform with 48 heap
address bits. -/
def maxAlloc : Int := 2 ^ 48

/-- Whether `make([]Item, 0, count)` panics (`runtime.makeslice`: "cap out of
range"): the capacity is negative or its size in bytes exceeds `maxAlloc`. An
allocation within the bound is taken to succeed; running out of memory ends
the process and is not modelled. -/
def makeItemsPanics (count : Int) : Prop := count < 0 ∨ maxAlloc < itemSize * count

instance (count : Int) : Decidable (makeItemsPanics count) := by
  unfold makeItemsPanics
  infer_instance

namespace ShopManager

/-- The prologue of `GetShopList` and `BuyItem`: the records of a player who
has none are created. -/
def initPlayer (m : ShopManager) (playerID : String) : ShopManager :=
  let m1 : ShopManager :=
    match m.playerBuys.get playerID with
    | some _ => m
    | none => { m with playerBuys := m.playerBuys.set playerID GoMap.empty }
  match m1.playerCurrency.get playerID with
  | some _ => m1
  | none =>
    { m1 with playerCurrency := m1.playerCurrency.set playerID { Coins := 10000, Gems := 1000 } }

/-- The Go expression `m.playerBuys[playerID][itemID]`. -/
def boughtCount (m : ShopManager) (playerID : String) (itemID : Int) : Int :=
  (((m.playerBuys.get playerID).getD GoMap.empty).get itemID).getD 0

/-- The object `m.playerCurrency[playerID]` points to. -/
def currencyOf (m : ShopManager) (playerID : String) : PlayerCurrency :=
  (m.playerCurrency.get playerID).getD { Coins := 0, Gems := 0 }

/-- The method `GetShopList`: the cloned items and the state after. -/
def GetShopList (f32mul : Int → Float32 → Int) (m : ShopManager) (playerID : String)
    (shopType : Int) (now : Int) : List ShopItem × ShopManager :=
  let m1 := m.initPlayer playerID
  match m1.shopItems.get shopType with
  | none => ([], m1)
  | some items =>
    (items.map (fun item =>
      let r1 : ShopItem := { item with BoughtCount := m1.boughtCount playerID item.ItemID }
      let r2 : ShopItem :=
        if 0 < item.ExpireTime ∧ item.ExpireTime < now then { r1 with Stock := 0 } else r1
      if item.IsDiscount = true ∧ now < item.ExpireTime then
        { r2 with CurrentPrice := f32mul item.OriginalPrice item.DiscountRate }
      else { r2 with CurrentPrice := item.OriginalPrice, IsDiscount := false }), m1)

/-- The tail of `BuyItem` after the currency has been charged: the purchase
record and the stock are updated and the bought items are created. The writes
come first, so they stand when `make([]Item, 0, count)` panics. -/
def deliver (m : ShopManager) (playerID : String) (itemID count : Int) (env : ShopEnv)
    (shopType : Int) (index : Nat) (targetItem : ShopItem) (totalPrice : Int) :
    BuyResult × ShopManager :=
  let m2 : ShopManager :=
    { m with
      playerBuys := m.playerBuys.set playerID
        (((m.playerBuys.get playerID).getD GoMap.empty).set itemID
          (wrapInt64 (m.boughtCount playerID itemID + count))) }
  let m3 : ShopManager :=
    if 0 < targetItem.Stock then
      { m2 with
        shopItems := m2.shopItems.set shopType
          (((m2.shopItems.get shopType).getD []).set index
            { targetItem with Stock := wrapInt64 (targetItem.Stock - count) }) }
    else m2
  if makeItemsPanics count then (.panic, m3)
  else
    (.ok ((List.range count.toNat).map (fun i =>
        { ID := playerID ++ "_item_" ++ toString itemID ++ "_" ++
            toString (wrapInt64 (env.nanos i + (i : Int))),
          ItemID := toInt32 itemID, Count := 1, CreateTime := env.now,
          Attrs := GoMap.empty.set "source" "shop" }))
      totalPrice targetItem.CurrencyType, m3)

/-- The method `BuyItem`: how the call ends and the state it leaves. -/
def BuyItem (f32mul : Int → Float32 → Int) (m : ShopManager) (playerID : String)
    (itemID count : Int) (env : ShopEnv) : BuyResult × ShopManager :=
  let m1 := m.initPlayer playerID
  match findItem m1.shopItems itemID env.order with
  | none => (.error "物品不存在", m1)
  | some (shopType, index, targetItem) =>
    if 0 < targetItem.ExpireTime ∧ targetItem.ExpireTime < env.now then
      (.error "物品已过期", m1)
    else if 0 < targetItem.Stock ∧ targetItem.Stock < count then (.error "库存不足", m1)
    else if 0 < targetItem.MaxBuyCount ∧
        targetItem.MaxBuyCount < wrapInt64 (m1.boughtCount playerID itemID + count) then
      (.error "超出购买限制", m1)
    else
      let price :=
        if targetItem.IsDiscount = true ∧ env.now < targetItem.ExpireTime then
          f32mul targetItem.OriginalPrice targetItem.DiscountRate
        else targetItem.CurrentPrice
      let totalPrice := wrapInt64 (price * count)
      let currency := m1.currencyOf playerID
      if targetItem.CurrencyType = 1 then
        if currency.Coins < totalPrice then (.error "金币不足", m1)
        else
          deliver
            { m1 with
              playerCurrency := m1.playerCurrency.set playerID
                { currency with Coins := wrapInt64 (currency.Coins - totalPrice) } }
            playerID itemID count env shopType index targetItem totalPrice
      else
        if currency.Gems < totalPrice then (.error "钻石不足", m1)
        else
          deliver
            { m1 with
              playerCurrency := m1.playerCurrency.set playerID
                { currency with Gems := wrapInt64 (currency.Gems - totalPrice) } }
            playerID itemID count env shopType index targetItem totalPrice

end ShopManager

/-- One call of a method of the shop manager. -/
inductive ShopCall where
  | GetShopList (playerID : String) (shopType : Int) (now : Int)
  | BuyItem (playerID : String) (itemID count : Int) (env : ShopEnv)

/-- The shop manager after a call; a call that panics leaves the writes it
made before the panic. -/
def stepShop (f32mul : Int → Float32 → Int) (m : ShopManager) : ShopCall → ShopManager
  | .GetShopList playerID shopType now => (m.GetShopList f32mul playerID shopType now).2
  | .BuyItem playerID itemID count env => (m.BuyItem f32mul playerID itemID count env).2

/-- The shop manager after a sequence of calls. -/
def runShop (f32mul : Int → Float32 → Int) (m : ShopManager) (calls : List ShopCall) :
    ShopManager :=
  calls.foldl (stepShop f32mul) m

/-- The units a call sells of the item: `count` when it is a `BuyItem` of the
item that returns without error, otherwise none. -/
def unitsOfCall (f32mul : Int → Float32 → Int) (m : ShopManager) (itemID : Int) :
    ShopCall → Int
  | .BuyItem playerID i count env =>
    if i = itemID then
      match (m.BuyItem f32mul playerID i count env).1 with
      | .ok _ _ _ => count
      | _ => 0
    else 0
  | _ => 0

/-- The total number of units of the item sold by a sequence of calls started
in state `m`. -/
def unitsSold (f32mul : Int → Float32 → Int) (itemID : Int) :
    ShopManager → List ShopCall → Int
  | _, [] => 0
  | m, c :: cs =>
    unitsOfCall f32mul m itemID c + unitsSold f32mul itemID (stepShop f32mul m c) cs

/-- The environment of the sample calls: clock reading 1, the shops visited
by ascending type. -/
def sampleShopEnv : ShopEnv := { now := 1, nanos := fun _ => 1000000000, order := [1, 2, 3] }

/-- Five players buy ten units each of item 2001, whose stock is 50, and a
sixth player buys one more. -/
def oversellCalls : List ShopCall :=
  [.BuyItem "p1" 2001 10 sampleShopEnv, .BuyItem "p2" 2001 10 sampleShopEnv,
   .BuyItem "p3" 2001 10 sampleShopEnv, .BuyItem "p4" 2001 10 sampleShopEnv,
   .BuyItem "p5" 2001 10 sampleShopEnv, .BuyItem "p6" 2001 1 sampleShopEnv]

/-- A conversion for evaluating the model on examples: the exact decimal
product, truncated towards zero. It stands in for `int(float32(p) * rate)`; no
theorem relies on it being float32 arithmetic. -/
def sampleF32mul (p : Int) (rate : Float32) : Int :=
  if 0 ≤ rate.exponent then p * rate.mantissa * 10 ^ rate.exponent.toNat
  else Int.tdiv (p * rate.mantissa) (10 ^ (-rate.exponent).toNat)

/-- A player buys five units of item 3001, whose `MaxBuyCount` is 5, and then
asks for one more. -/
def limitCalls : List ShopCall :=
  [.BuyItem "p" 3001 5 sampleShopEnv, .BuyItem "p" 3001 1 sampleShopEnv]

/-- Player `p` buys one unit of item 1001. -/
def firstPurchase : List ShopCall := [.BuyItem "p" 1001 1 sampleShopEnv]

/-- What the theorems on prices assume of the floating-point expression
`int(float32(OriginalPrice) * DiscountRate)`: for the three discounted
templates (price 1000 at rate 0.9, 5000 at 0.7, 100 at 0.8) its value lies
between 0 and the price. -/
def DiscountSane (f32mul : Int → Float32 → Int) : Prop :=
  (0 ≤ f32mul 1000 ⟨9, -1⟩ ∧ f32mul 1000 ⟨9, -1⟩ ≤ 1000) ∧
  (0 ≤ f32mul 5000 ⟨7, -1⟩ ∧ f32mul 5000 ⟨7, -1⟩ ≤ 5000) ∧
  (0 ≤ f32mul 100 ⟨8, -1⟩ ∧ f32mul 100 ⟨8, -1⟩ ≤ 100)

/-- Prices and balances are as the code leaves them: every item carries a
`CurrentPrice` between 0 and 5000 and, when discounted, the price and rate of
one of the three discounted templates; every balance is a Go `int`. -/
def ShopInv (m : ShopManager) : Prop :=
  (∀ (k : Int) (items : List ShopItem) (it : ShopItem),
    m.shopItems.get k = some items → it ∈ items →
    0 ≤ it.CurrentPrice ∧ it.CurrentPrice ≤ 5000 ∧
    (it.IsDiscount = true →
      (it.OriginalPrice = 1000 ∧ it.DiscountRate = ⟨9, -1⟩) ∨
      (it.OriginalPrice = 5000 ∧ it.DiscountRate = ⟨7, -1⟩) ∨
      (it.OriginalPrice = 100 ∧ it.DiscountRate = ⟨8, -1⟩))) ∧
  (∀ (playerID : String) (cur : PlayerCurrency), m.playerCurrency.get playerID = some cur →
    (-(2 : Int) ^ 63 ≤ cur.Coins ∧ cur.Coins < (2 : Int) ^ 63) ∧
    (-(2 : Int) ^ 63 ≤ cur.Gems ∧ cur.Gems < (2 : Int) ^ 63))

/-- The purchase limits are respected: items with the same id carry the same
`MaxBuyCount`, and no recorded bought count of an item with a positive
`MaxBuyCount` exceeds it. -/
def LimitInv (m : ShopManager) : Prop :=
  (∀ (k1 k2 : Int) (items1 items2 : List ShopItem) (it1 it2 : ShopItem),
    m.shopItems.get k1 = some items1 → it1 ∈ items1 →
    m.shopItems.get k2 = some items2 → it2 ∈ items2 →
    it1.ItemID = it2.ItemID → it1.MaxBuyCount = it2.MaxBuyCount) ∧
  (∀ (playerID : String) (k : Int) (items : List ShopItem) (it : ShopItem),
    m.shopItems.get k = some items → it ∈ items → 0 < it.MaxBuyCount →
    m.boughtCount playerID it.ItemID ≤ it.MaxBuyCount)

/-! ## Mail (`lobby/service/mail_api.go`)

`MailManager.mails` maps a player to a map of `*Mail`; every `Mail` object is
reachable through exactly one map entry, so the model keeps the objects by
value and writes an updated object back into its entry. -/

/-- The struct `MailAttachment` (`AttachType` is the field `Type`). -/
structure MailAttachment where
  AttachType : Int
  ItemID : Int
  Count : Int
deriving DecidableEq, Repr

/-- The struct `Mail`. -/
structure Mail where
  ID : String
  Title : String
  Content : String
  SendTime : Int
  ExpireTime : Int
  IsRead : Bool
  IsReceived : Bool
  Attachments : List MailAttachment
deriving DecidableEq, Repr

/-- The struct `MailManager`. -/
structure MailManager where
  mails : GoMap String (GoMap String Mail)
deriving DecidableEq, Repr

/-- The constructor `NewMailManager`. -/
def NewMailManager : MailManager := { mails := GoMap.empty }

/-- The Go slice expression `s[lo:hi]`: `none` is the run-time panic for
bounds that are out of range. The bounds are checked against the length; at
the one use `hi` is at most the length, hence at most the capacity. -/
def sliceOf {α : Type} (s : List α) (lo hi : Int) : Option (List α) :=
  if 0 ≤ lo ∧ lo ≤ hi ∧ hi ≤ (s.length : Int) then
    some ((s.drop lo.toNat).take (hi - lo).toNat)
  else none

/-- What a call of `GetMailList` consumes from outside: the clock reading of
`generateExampleMails`, the clock reading of `GetMailList` itself, and the
order in which the `range` over the player's mails delivers the mail ids. -/
structure MailEnv where
  genNow : Int
  now : Int
  order : List String
deriving DecidableEq, Repr

namespace MailManager

/-- The method `generateExampleMails`; `now` is its reading of
`time.Now().Unix()`. -/
def generateExampleMails (m : MailManager) (playerID : String) (now : Int) : MailManager :=
  let weekLater := wrapInt64 (now + 7 * 24 * 3600)
  { mails := m.mails.set playerID
      (((GoMap.empty.set "1"
        { ID := "1", Title := "欢迎加入游戏",
          Content := "亲爱的玩家，欢迎加入我们的游戏！这里是你的新手礼包，请查收。",
          SendTime := now, ExpireTime := weekLater, IsRead := false, IsReceived := false,
          Attachments := [{ AttachType := 1, ItemID := 1001, Count := 10 },
                          { AttachType := 2, ItemID := 2001, Count := 1 }] }).set "2"
        { ID := "2", Title := "每日签到奖励",
          Content := "恭喜你完成每日签到，这是你的奖励。",
          SendTime := wrapInt64 (now - 86400), ExpireTime := weekLater, IsRead := false,
          IsReceived := false,
          Attachments := [{ AttachType := 1, ItemID := 1002, Count := 5 }] }).set "3"
        { ID := "3", Title := "系统通知",
          Content := "系统将于明天凌晨2点进行维护，请提前下线。",
          SendTime := wrapInt64 (now - 172800), ExpireTime := wrapInt64 (now + 86400),
          IsRead := false, IsReceived := true, Attachments := [] }) }

/-- The filter loop of `GetMailList`: the player's mails, in the order of the
`range`, that are not expired (`ExpireTime > now`). -/
def validMails (m : MailManager) (playerID : String) (env : MailEnv) : List Mail :=
  let playerMails := (m.mails.get playerID).getD GoMap.empty
  (env.order.filterMap (fun mailID => playerMails.get mailID)).filter
    (fun mail => decide (env.now < mail.ExpireTime))

/-- The method `GetMailList`: the page and the number of valid mails (`none`
is a run-time panic), and the state after. -/
def GetMailList (m : MailManager) (playerID : String) (page pageSize : Int) (env : MailEnv) :
    Option (List Mail × Int) × MailManager :=
  let m1 : MailManager :=
    match m.mails.get playerID with
    | some _ => m
    | none => m.generateExampleMails playerID env.genNow
  let validMails := m1.validMails playerID env
  let start := wrapInt64 (wrapInt64 (page - 1) * pageSize)
  let stop := wrapInt64 (start + pageSize)
  if (validMails.length : Int) < start then (some ([], (validMails.length : Int)), m1)
  else
    let stop1 := if (validMails.length : Int) < stop then (validMails.length : Int) else stop
    ((sliceOf validMails start stop1).map (fun s => (s, (validMails.length : Int))), m1)

/-- The method `GetMailDetail`; `now` is its reading of `time.Now().Unix()`. -/
def GetMailDetail (m : MailManager) (playerID mailID : String) (now : Int) :
    Except String Mail :=
  match m.mails.get playerID with
  | none => .error "玩家不存在"
  | some playerMails =>
    match playerMails.get mailID with
    | none => .error "邮件不存在"
    | some mail => if mail.ExpireTime < now then .error "邮件已过期" else .ok mail

/-- The method `MarkAsRead`. -/
def MarkAsRead (m : MailManager) (playerID mailID : String) : MailManager :=
  match m.mails.get playerID with
  | none => m
  | some playerMails =>
    match playerMails.get mailID with
    | none => m
    | some mail =>
      { mails := m.mails.set playerID (playerMails.set mailID { mail with IsRead := true }) }

/-- The method `ReceiveAttachment`: the attachments or the error, and the state
after. -/
def ReceiveAttachment (m : MailManager) (playerID mailID : String) (now : Int) :
    Except String (List MailAttachment) × MailManager :=
  match m.GetMailDetail playerID mailID now with
  | .error err => (.error err, m)
  | .ok mail =>
    if mail.IsReceived = true then (.error "附件已领取", m)
    else if mail.Attachments.length = 0 then (.error "邮件没有附件", m)
    else
      (.ok mail.Attachments,
       { mails := m.mails.set playerID
           (((m.mails.get playerID).getD GoMap.empty).set mailID
             { mail with IsReceived := true }) })

/-- The method `DeleteMail`: the error (`none` is nil) and the state after. -/
def DeleteMail (m : MailManager) (playerID : String) (mailIDs : List String) :
    Option String × MailManager :=
  match m.mails.get playerID with
  | none => (some "玩家不存在", m)
  | some playerMails =>
    (none, { mails := m.mails.set playerID (mailIDs.foldl (fun pm mailID => pm.delete mailID)
      playerMails) })

end MailManager

/-- One call of a method of the mail manager. -/
inductive MailCall where
  | GetMailList (playerID : String) (page pageSize : Int) (env : MailEnv)
  | GetMailDetail (playerID mailID : String) (now : Int)
  | MarkAsRead (playerID mailID : String)
  | ReceiveAttachment (playerID mailID : String) (now : Int)
  | DeleteMail (playerID : String) (mailIDs : List String)

/-- The mail manager after a call. -/
def stepMail (m : MailManager) : MailCall → MailManager
  | .GetMailList playerID page pageSize env => (m.GetMailList playerID page pageSize env).2
  | .GetMailDetail _ _ _ => m
  | .MarkAsRead playerID mailID => m.MarkAsRead playerID mailID
  | .ReceiveAttachment playerID mailID now => (m.ReceiveAttachment playerID mailID now).2
  | .DeleteMail playerID mailIDs => (m.DeleteMail playerID mailIDs).2

/-- The mail manager after a sequence of calls. -/
def runMail (m : MailManager) (calls : List MailCall) : MailManager := calls.foldl stepMail m

/-- Whether the call is a `ReceiveAttachment` of the mail of the player that
returns the attachments in state `m`. -/
def isSuccessfulReceive (m : MailManager) (playerID mailID : String) : MailCall → Bool
  | .ReceiveAttachment p i now =>
    decide (p = playerID) && decide (i = mailID) &&
      (match (m.ReceiveAttachment p i now).1 with
       | .ok _ => true
       | .error _ => false)
  | _ => false

/-- The number of calls of a sequence, started in state `m`, that return the
attachments of the mail of the player. -/
def successfulReceives (playerID mailID : String) : MailManager → List MailCall → Nat
  | _, [] => 0
  | m, c :: cs =>
    (if isSuccessfulReceive m playerID mailID c then 1 else 0) +
      successfulReceives playerID mailID (stepMail m c) cs

/-- The attachments of the mail of the player were handed out or the mail is
gone: the player has a mail map, and the mail is absent from it or has
`IsReceived` set. -/
def Claimed (m : MailManager) (playerID mailID : String) : Prop :=
  ∃ playerMails, m.mails.get playerID = some playerMails ∧
    ∀ mail, playerMails.get mailID = some mail → mail.IsReceived = true

/-- The environment of the sample mail calls. -/
def sampleMailEnv : MailEnv := { genNow := 0, now := 0, order := ["1", "2", "3"] }

/-! ## Ranking (`lobby/service/ranking_api.go`)

`RankingList.Items` and `RankingList.Players` hold pointers to the same
`RankingItem` objects, so the objects live on a heap and the two indices store
addresses. The mutexes are not modelled: calls run one after the other. -/

/-- The struct `RankingItem`. -/
structure RankingItem where
  PlayerID : String
  Nickname : String
  Rank : Int
  Score : Int
  Level : Int
  Avatar : String
  UpdateTime : Int
deriving DecidableEq, Repr

/-- The struct `RankingList` (`ListType` is the field `Type`, an `int32`). -/
structure RankingList where
  ListType : Int
  Items : List Ptr
  Players : GoMap String Ptr
deriving DecidableEq, Repr

/-- The struct `RankingManager`, with the heap of its `RankingItem` objects. -/
structure RankingManager where
  heap : List RankingItem
  rankings : GoMap Int RankingList
deriving DecidableEq, Repr

/-- The object at an address of the ranking heap. -/
def RankingManager.deref (m : RankingManager) (p : Ptr) : RankingItem :=
  m.heap.getD p
    { PlayerID := "", Nickname := "", Rank := 0, Score := 0, Level := 0, Avatar := "",
      UpdateTime := 0 }

/-- Insertion of an address into a sequence of addresses ordered by
descending score. -/
def insertByScore (heap : List RankingItem) (score : Int) (p : Ptr) : List Ptr → List Ptr
  | [] => [p]
  | q :: rest =>
    if (heap.getD q ⟨"", "", 0, 0, 0, "", 0⟩).Score < score then p :: q :: rest
    else q :: insertByScore heap score p rest

/-- The call `sort.Slice(items, less)` with `less(i, j) = items[i].Score >
items[j].Score`. `sort.Slice` is not stable; the model returns the stable
order, which is the only order when the scores are pairwise distinct. -/
def sortByScore (heap : List RankingItem) (items : List Ptr) : List Ptr :=
  items.foldl (fun sorted p =>
    insertByScore heap (heap.getD p ⟨"", "", 0, 0, 0, "", 0⟩).Score p sorted) []

/-- The loop of `sortRankingList` that writes `Rank = i + 1` into the item at
index `i`. -/
def assignRanks (heap : List RankingItem) : List Ptr → Int → List RankingItem
  | [], _ => heap
  | p :: rest, i =>
    assignRanks
      (heap.set p { heap.getD p ⟨"", "", 0, 0, 0, "", 0⟩ with Rank := wrapInt64 (i + 1) })
      rest (i + 1)

/-- One block of `initRankings`: the items are allocated, appended to `Items`
and filed in `Players`, the list is stored under its type and
`sortRankingList` is run on it. -/
def addRanking (m : RankingManager) (rankingType : Int) (players : List RankingItem) :
    RankingManager :=
  let ptrs := (List.range players.length).map (fun i => m.heap.length + i)
  let heap1 := m.heap ++ players
  let sorted := sortByScore heap1 ptrs
  { heap := assignRanks heap1 sorted 0
    rankings := m.rankings.set rankingType
      { ListType := rankingType, Items := sorted,
        Players := (players.zip ptrs).foldl (fun idx e => idx.set e.1.PlayerID e.2)
          GoMap.empty } }

/-- The constructor `NewRankingManager`, `initRankings` included; `now` is the
reading of `time.Now().Unix()` in `initRankings`. -/
def NewRankingManager (now : Int) : RankingManager :=
  let item (playerID nickname : String) (level score : Int) (avatar : String) : RankingItem :=
    { PlayerID := playerID, Nickname := nickname, Rank := 0, Score := score, Level := level,
      Avatar := avatar, UpdateTime := now }
  let m0 : RankingManager := { heap := [], rankings := GoMap.empty }
  let m1 := addRanking m0 1
    [item "player101" "战神" 100 100 "avatar1", item "player102" "法神" 98 98 "avatar2",
     item "player103" "道士" 97 97 "avatar3", item "player104" "猎手" 95 95 "avatar4",
     item "player105" "刺客" 93 93 "avatar5", item "player106" "战士" 92 92 "avatar6",
     item "player107" "法师" 90 90 "avatar7", item "player108" "牧师" 88 88 "avatar8",
     item "player109" "德鲁伊" 85 85 "avatar9", item "player110" "盗贼" 82 82 "avatar10"]
  let m2 := addRanking m1 2
    [item "player201" "无敌战神" 95 25000 "avatar11",
     item "player202" "力量之王" 94 24500 "avatar12",
     item "player203" "魔法大师" 93 24000 "avatar13",
     item "player204" "敏捷猎手" 92 23500 "avatar14",
     item "player205" "暗影刺客" 91 23000 "avatar15",
     item "player206" "光明使者" 90 22500 "avatar16",
     item "player207" "自然守护者" 89 22000 "avatar17",
     item "player208" "元素使" 88 21500 "avatar18",
     item "player209" "死亡骑士" 87 21000 "avatar19",
     item "player210" "圣骑士" 86 20500 "avatar20"]
  let m3 := addRanking m2 3
    [item "player301" "富翁" 85 500000 "avatar21", item "player302" "富豪" 80 450000 "avatar22",
     item "player303" "财主" 75 400000 "avatar23", item "player304" "商人" 70 350000 "avatar24",
     item "player305" "理财师" 65 300000 "avatar25"]
  addRanking m3 4
    [item "player401" "杀人王" 90 5000 "avatar26", item "player402" "刽子手" 88 4500 "avatar27",
     item "player403" "狙击手" 85 4000 "avatar28", item "player404" "终结者" 82 3500 "avatar29",
     item "player405" "屠夫" 80 3000 "avatar30"]

/-- The loop `for i := start; i < end && i < total; i++ { result =
append(result, items[i]) }` of `GetRankingList`: `none` is the run-time panic of
an index out of range. The counter cannot overflow: it stays below `total`. -/
def pageLoop (items : List Ptr) (stop total : Int) (i : Int) (result : List Ptr) :
    Option (List Ptr) :=
  if i < stop ∧ i < total then
    if 0 ≤ i ∧ i < (items.length : Int) then
      pageLoop items stop total (i + 1) (result ++ [items.getD i.toNat 0])
    else none
  else some result
termination_by (total - i).toNat
decreasing_by omega

/-- The method `GetRankingList`: the addresses of the items of the page and the
total (`none` is a run-time panic). -/
def RankingManager.GetRankingList (m : RankingManager) (rankingType : Int)
    (page pageSize : Int) : Option (List Ptr × Int) :=
  match m.rankings.get rankingType with
  | none => some ([], 0)
  | some rankingList =>
    let total : Int := rankingList.Items.length
    let start := wrapInt64 (wrapInt64 (page - 1) * pageSize)
    let stop := wrapInt64 (start + pageSize)
    let start1 := if total < start then total else start
    let stop1 := if total < stop then total else stop
    (pageLoop rankingList.Items stop1 total start1 []).map (fun result => (result, total))

end GhServer

namespace GhServer

/-! ## Lemmas on machine integers -/

theorem wrapInt64_range (x : Int) :
    -(2 : Int) ^ 63 ≤ wrapInt64 x ∧ wrapInt64 x < (2 : Int) ^ 63 := by
  unfold wrapInt64
  constructor <;> omega

theorem wrapInt64_of_range (x : Int) (h1 : -(2 : Int) ^ 63 ≤ x) (h2 : x < (2 : Int) ^ 63) :
    wrapInt64 x = x := by
  unfold wrapInt64
  omega

/-! ## Lemmas on maps -/

namespace GoMap

variable {K V : Type} [DecidableEq K]

theorem lookup_filter (k k' : K) (es : List (K × V)) :
    lookup k (es.filter (fun e => !decide (e.1 = k'))) = if k = k' then none else lookup k es := by
  induction es with
  | nil => simp [lookup]
  | cons e es ih =>
    by_cases h : e.1 = k'
    · have hf : (e :: es).filter (fun e => !decide (e.1 = k')) =
          es.filter (fun e => !decide (e.1 = k')) := by simp [List.filter, h]
      rw [hf, ih]
      by_cases hk : k = k'
      · simp [hk]
      · have hne : ¬ e.1 = k := fun h2 => hk (h2.symm.trans h)
        simp [hk, lookup, hne]
    · have hf : (e :: es).filter (fun e => !decide (e.1 = k')) =
          e :: es.filter (fun e => !decide (e.1 = k')) := by simp [List.filter, h]
      rw [hf]
      simp only [lookup]
      rw [ih]
      by_cases hk : k = k'
      · subst hk
        simp [h]
      · simp [hk]

theorem get_delete_same (m : GoMap K V) (k : K) : (m.delete k).get k = none := by
  simp [get, delete, lookup_filter]

theorem get_delete_ne (m : GoMap K V) {k k' : K} (h : k' ≠ k) :
    (m.delete k).get k' = m.get k' := by
  simp [get, delete, lookup_filter, h]

theorem get_set_same (m : GoMap K V) (k : K) (v : V) : (m.set k v).get k = some v := by
  simp [get, set, lookup]

theorem get_set_ne (m : GoMap K V) {k k' : K} (v : V) (h : k' ≠ k) :
    (m.set k v).get k' = m.get k' := by
  have h2 : ¬ k = k' := fun e => h e.symm
  simp [get, set, lookup, h2, delete, lookup_filter, h]

theorem length_delete_le (m : GoMap K V) (k : K) :
    (m.delete k).entries.length ≤ m.entries.length := by
  simp only [delete]
  exact List.length_filter_le _ _

theorem lookup_mem {k : K} {v : V} {es : List (K × V)} (h : lookup k es = some v) :
    (k, v) ∈ es := by
  induction es with
  | nil => simp [lookup] at h
  | cons e es ih =>
    simp only [lookup] at h
    split_ifs at h with hk
    · cases e
      simp only [Option.some.injEq] at h
      simp_all
    · exact List.mem_cons_of_mem _ (ih h)

theorem length_delete_lt (m : GoMap K V) {k : K} {v : V} (h : m.get k = some v) :
    (m.delete k).entries.length < m.entries.length := by
  simp only [delete]
  apply List.length_filter_lt_length_iff_exists.mpr
  exact ⟨(k, v), lookup_mem h, by simp⟩

theorem length_set_le (m : GoMap K V) (k : K) (v : V) :
    (m.set k v).entries.length ≤ m.entries.length + 1 := by
  simp only [set, List.length_cons]
  exact Nat.succ_le_succ (length_delete_le m k)

end GoMap


/-! ## The registry invariant behind the capacity bound -/

theorem countInv_new : CountInv NewPlayerManager := by
  simp [CountInv, NewPlayerManager, GoMap.empty, GoInt.zero]

theorem countInv_addPlayer (pm : PlayerManager) (h : Heap) (p : Ptr)
    (hinv : CountInv pm) (hlt : pm.onlineCount.val < 100) : CountInv (pm.AddPlayer h p) := by
  obtain ⟨h1, h2⟩ := hinv
  have hlen := GoMap.length_set_le pm.playersByAccount (h.deref p).Account p
  have hw : wrapInt64 (pm.onlineCount.val + 1) = pm.onlineCount.val + 1 :=
    wrapInt64_of_range _ (by omega) (by omega)
  simp only [CountInv, PlayerManager.AddPlayer, GoInt.inc, hw]
  constructor <;> omega

theorem countInv_removePlayer (pm : PlayerManager) (h : Heap) (account : String)
    (hinv : CountInv pm) : CountInv (pm.RemovePlayer h account) := by
  unfold PlayerManager.RemovePlayer
  cases hg : pm.playersByAccount.get account with
  | none => simpa using hinv
  | some player =>
    obtain ⟨h1, h2⟩ := hinv
    have hlen := GoMap.length_delete_lt pm.playersByAccount hg
    have hw : wrapInt64 (pm.onlineCount.val - 1) = pm.onlineCount.val - 1 :=
      wrapInt64_of_range _ (by omega) (by omega)
    simp only [CountInv, GoInt.dec, hw]
    constructor <;> omega

theorem countInv_step (s : LoginServer) (c : Call) (hinv : CountInv s.playerManager) :
    CountInv (step s c).playerManager := by
  cases c with
  | Login req env =>
    simp only [step, LoginServer.Login]
    split_ifs with h1 h2
    · exact hinv
    · exact hinv
    · exact countInv_addPlayer _ _ _ hinv (by
        simp only [PlayerManager.GetOnlineCount] at h2
        omega)
  | Reconnect req now =>
    simp only [step, LoginServer.Reconnect]
    split
    · exact hinv
    · split_ifs
      · exact hinv
      · exact hinv
  | KickPlayer req =>
    simp only [step, LoginServer.KickPlayer]
    split
    · exact hinv
    · exact countInv_removePlayer _ _ _ hinv
  | GetQueueInfo req =>
    simp only [step, LoginServer.GetQueueInfo]
    split
    · exact hinv
    · split_ifs
      · exact hinv
      · exact hinv

theorem countInv_run (calls : List Call) :
    ∀ s : LoginServer, CountInv s.playerManager → CountInv (run s calls).playerManager := by
  induction calls with
  | nil => intro s h; exact h
  | cons c cs ih => intro s h; exact ih (step s c) (countInv_step s c h)

/-! ## Claims -/

/-- C1 (index coherence), evaluated where it fails: after two logins of account
`a` the first Session (address 0) is still stored in the token index under the
first token, its account is `a`, but the account index and the player-id index
return the second Session (address 1), so the first Session is stored and not
coherent. -/
theorem relogin_breaks_index_coherence :
    (run NewLoginServer twoLogins).playerManager.GetPlayerByToken "a_aaaaaaaa_1" = some 0 ∧
    ((run NewLoginServer twoLogins).heap.deref 0).Account = "a" ∧
    (run NewLoginServer twoLogins).playerManager.GetPlayerByAccount "a" = some 1 ∧
    (run NewLoginServer twoLogins).playerManager.GetPlayerByID "player_a" = some 1 ∧
    Stored (run NewLoginServer twoLogins) 0 ∧
    ¬ Coherent (run NewLoginServer twoLogins) 0 := by
  refine ⟨by decide, by decide, by decide, by decide, Or.inr (Or.inl ⟨"a_aaaaaaaa_1", by decide⟩), ?_⟩
  unfold Coherent
  decide

/-- C2 (capacity invariant): after any sequence of calls served one after the
other by a fresh server, `GetOnlineCount()` is at most 100. -/
theorem online_count_le_capacity (calls : List Call) :
    (run NewLoginServer calls).playerManager.GetOnlineCount.val ≤ 100 :=
  (countInv_run calls NewLoginServer countInv_new).2

/-- C3 (occupancy equals the number of online accounts), evaluated where it
fails: after two logins of account `a` the online count is 2 while `a` is the
only account that is online. -/
theorem relogin_breaks_occupancy :
    (run NewLoginServer twoLogins).playerManager.GetOnlineCount.val = 2 ∧
    (run NewLoginServer twoLogins).playerManager.playersByAccount.len = 1 ∧
    (∀ account : String,
      (run NewLoginServer twoLogins).playerManager.IsOnline account = true ↔ account = "a") := by
  refine ⟨by decide, by decide, ?_⟩
  have h : (run NewLoginServer twoLogins).playerManager.playersByAccount = ⟨[("a", 1)]⟩ := by
    decide
  intro account
  unfold PlayerManager.IsOnline
  rw [h]
  simp only [GoMap.get, GoMap.lookup]
  by_cases ha : "a" = account
  · simp [ha]
  · have : ¬ account = "a" := fun e => ha e.symm
    simp [ha, this]


/-! ## Lemmas on the heap and on tokens -/

theorem deref_append_new (h : Heap) (x : Player) : Heap.deref (h ++ [x]) h.length = x := by
  simp [Heap.deref, List.getD_eq_getElem?_getD]

theorem deref_append_old (h : Heap) (x : Player) {p : Ptr} (hp : p < h.length) :
    Heap.deref (h ++ [x]) p = Heap.deref h p := by
  simp [Heap.deref, List.getD_eq_getElem?_getD, List.getElem?_append_left hp]

theorem deref_set_same (h : Heap) (x : Player) {p : Ptr} (hp : p < h.length) :
    Heap.deref (h.set p x) p = x := by
  simp [Heap.deref, List.getD_eq_getElem?_getD, hp]

theorem deref_set_ne (h : Heap) (x : Player) {p q : Ptr} (hq : q ≠ p) :
    Heap.deref (h.set p x) q = Heap.deref h q := by
  have hq2 : p ≠ q := fun e => hq e.symm
  simp [Heap.deref, List.getD_eq_getElem?_getD, List.getElem?_set_ne hq2]

theorem generateToken_ne_empty (account : String) (picks : Fin 8 → Fin 62) (now : Time) :
    generateToken account picks now ≠ "" := by
  intro h
  have hl := congrArg String.length h
  simp only [generateToken, String.length_append] at hl
  have h1 : "_".length = 1 := by decide
  have h0 : "".length = 0 := by decide
  omega

/-- The state and response of a `Login` that is admitted. -/
theorem login_admitted (s : LoginServer) (req : LoginRequest) (env : LoginEnv)
    (ha : req.Account ≠ "") (hp : req.Password ≠ "")
    (hc : s.playerManager.GetOnlineCount.val < 100) :
    s.Login req env =
      ({ Code := codes.OK, Message := "登录成功",
         Token := generateToken req.Account env.picks env.now1,
         Player := some { Id := "player_" ++ req.Account, Nickname := "Player_" ++ req.Account,
                          Level := 1, Exp := 0, VipLevel := 0, Items := [1001, 1002] } },
       { s with
         heap := s.heap ++ [{ Account := req.Account, PlayerID := "player_" ++ req.Account,
                              Token := generateToken req.Account env.picks env.now1,
                              DeviceID := req.DeviceId, LoginTime := env.now2 }]
         playerManager :=
           { playersByAccount := s.playerManager.playersByAccount.set req.Account s.heap.length
             playersByToken := s.playerManager.playersByToken.set
               (generateToken req.Account env.picks env.now1) s.heap.length
             playersByID := s.playerManager.playersByID.set ("player_" ++ req.Account) s.heap.length
             onlineCount := s.playerManager.onlineCount.inc } }) := by
  have hc2 : ¬ 100 ≤ s.playerManager.GetOnlineCount.val := by omega
  simp only [LoginServer.Login, ha, hp, or_self, if_false, hc2, PlayerManager.AddPlayer,
    deref_append_new]

/-- The state and response of a `Login` that is queued. -/
theorem login_queued (s : LoginServer) (req : LoginRequest) (env : LoginEnv)
    (ha : req.Account ≠ "") (hp : req.Password ≠ "")
    (hc : 100 ≤ s.playerManager.GetOnlineCount.val) :
    s.Login req env =
      ({ Code := codes.OK, Message := "您已进入排队队列",
         QueuePosition := toInt32 ((s.queueManager.queue.length : Int) + 1) },
       { s with
         queueManager :=
           { queue := s.queueManager.queue ++
               [{ Account := req.Account
                  PlayerInfo := { Id := "player_" ++ req.Account,
                                  Nickname := "Player_" ++ req.Account,
                                  Level := 1, Exp := 0, VipLevel := 0, Items := [1001, 1002] }
                  JoinTime := env.now1 }] } }) := by
  simp [LoginServer.Login, ha, hp, hc, QueueManager.AddToQueue]


/-! ## The indices file every Session under its own keys -/

theorem indexInv_empty (h : Heap) (key : Player → String) : IndexInv h GoMap.empty key := by
  intro k p hk
  simp [GoMap.get, GoMap.empty, GoMap.lookup] at hk

theorem indexInv_set_append {h : Heap} {m : GoMap String Ptr} {key : Player → String}
    (hinv : IndexInv h m key) (x : Player) :
    IndexInv (h ++ [x]) (m.set (key x) h.length) key := by
  intro k p hk
  by_cases hkey : k = key x
  · subst hkey
    rw [GoMap.get_set_same] at hk
    cases hk
    exact ⟨by simp, by rw [deref_append_new]⟩
  · rw [GoMap.get_set_ne _ _ hkey] at hk
    obtain ⟨h1, h2⟩ := hinv k p hk
    exact ⟨by rw [List.length_append]; exact Nat.lt_add_right _ h1, by rw [deref_append_old h x h1]; exact h2⟩

theorem indexInv_delete {h : Heap} {m : GoMap String Ptr} {key : Player → String}
    (hinv : IndexInv h m key) (k0 : String) : IndexInv h (m.delete k0) key := by
  intro k p hk
  by_cases hkey : k = k0
  · subst hkey
    rw [GoMap.get_delete_same] at hk
    cases hk
  · rw [GoMap.get_delete_ne _ hkey] at hk
    exact hinv k p hk

theorem indexInv_heap_set {h : Heap} {m : GoMap String Ptr} {key : Player → String}
    (hinv : IndexInv h m key) (p0 : Ptr) (x : Player) (hx : key x = key (h.deref p0)) :
    IndexInv (h.set p0 x) m key := by
  intro k p hk
  obtain ⟨h1, h2⟩ := hinv k p hk
  refine ⟨by simpa using h1, ?_⟩
  by_cases hp : p = p0
  · subst hp
    rw [deref_set_same h x h1, hx]
    exact h2
  · rw [deref_set_ne h x hp]
    exact h2

theorem heapInv_new : HeapInv NewLoginServer :=
  ⟨indexInv_empty _ _, indexInv_empty _ _, indexInv_empty _ _⟩

theorem heapInv_step (s : LoginServer) (c : Call) (hinv : HeapInv s) : HeapInv (step s c) := by
  obtain ⟨hA, hT, hI⟩ := hinv
  cases c with
  | Login req env =>
    by_cases hv : req.Account = "" ∨ req.Password = ""
    · simp only [step, LoginServer.Login, hv, if_true]
      exact ⟨hA, hT, hI⟩
    · have ha : req.Account ≠ "" := fun e => hv (Or.inl e)
      have hp : req.Password ≠ "" := fun e => hv (Or.inr e)
      by_cases hc : 100 ≤ s.playerManager.GetOnlineCount.val
      · simp only [step, login_queued s req env ha hp hc]
        exact ⟨hA, hT, hI⟩
      · simp only [step, login_admitted s req env ha hp (by omega)]
        exact ⟨indexInv_set_append hA _, indexInv_set_append hT _, indexInv_set_append hI _⟩
  | Reconnect req now =>
    simp only [step, LoginServer.Reconnect]
    split
    · exact ⟨hA, hT, hI⟩
    · split_ifs
      · exact ⟨hA, hT, hI⟩
      · exact ⟨indexInv_heap_set hA _ _ rfl, indexInv_heap_set hT _ _ rfl,
          indexInv_heap_set hI _ _ rfl⟩
  | KickPlayer req =>
    simp only [step, LoginServer.KickPlayer]
    split
    · exact ⟨hA, hT, hI⟩
    · simp only [PlayerManager.RemovePlayer]
      split
      · exact ⟨hA, hT, hI⟩
      · exact ⟨indexInv_delete hA _, indexInv_delete hT _, indexInv_delete hI _⟩
  | GetQueueInfo req =>
    simp only [step, LoginServer.GetQueueInfo]
    split
    · exact ⟨hA, hT, hI⟩
    · split_ifs
      · exact ⟨hA, hT, hI⟩
      · exact ⟨hA, hT, hI⟩

theorem heapInv_run (calls : List Call) :
    ∀ s : LoginServer, HeapInv s → HeapInv (run s calls) := by
  induction calls with
  | nil => intro s h; exact h
  | cons c cs ih => intro s h; exact ih (step s c) (heapInv_step s c h)


/-- C4, as stated, fails: a second `Login` of account `a`, issued while `a` is
online and not kicked, returns OK with a newly minted token and registers a
second Session (the account index moves from address 0 to address 1), so the
registry is not left unchanged. -/
theorem second_login_not_rejected :
    (step NewLoginServer (.Login reqA (envAt 1))).playerManager.IsOnline "a" = true ∧
    ((step NewLoginServer (.Login reqA (envAt 1))).Login reqA (envAt 2)).1.Code = codes.OK ∧
    ((step NewLoginServer (.Login reqA (envAt 1))).Login reqA (envAt 2)).1.Token = "a_aaaaaaaa_2" ∧
    (step NewLoginServer (.Login reqA (envAt 1))).playerManager.GetPlayerByAccount "a" = some 0 ∧
    ((step NewLoginServer (.Login reqA (envAt 1))).Login reqA (envAt 2)).2.playerManager.GetPlayerByAccount "a"
      = some 1 ∧
    ((step NewLoginServer (.Login reqA (envAt 1))).Login reqA (envAt 2)).2.playerManager ≠
      (step NewLoginServer (.Login reqA (envAt 1))).playerManager := by
  decide

/-- C4, amended: a `Login` for an account that already has an active Session is
not rejected. In every reachable state with the online count below 100 it
returns OK with a newly minted token and creates a new Session, different from
the one the account had: the lookup by account then returns the new Session,
which carries the new token and the device id of the request. -/
theorem login_while_online_admitted (s : LoginServer) (req : LoginRequest) (env : LoginEnv)
    (hr : Reachable s) (honline : s.playerManager.IsOnline req.Account = true)
    (ha : req.Account ≠ "") (hp : req.Password ≠ "")
    (hc : s.playerManager.GetOnlineCount.val < 100) :
    (s.Login req env).1.Code = codes.OK ∧
    (s.Login req env).1.Token = generateToken req.Account env.picks env.now1 ∧
    ∃ old new : Ptr,
      s.playerManager.GetPlayerByAccount req.Account = some old ∧
      (s.Login req env).2.playerManager.GetPlayerByAccount req.Account = some new ∧
      new ≠ old ∧
      ((s.Login req env).2.heap.deref new).Token = (s.Login req env).1.Token ∧
      ((s.Login req env).2.heap.deref new).DeviceID = req.DeviceId := by
  obtain ⟨calls, rfl⟩ := hr
  have hinv := heapInv_run calls NewLoginServer heapInv_new
  rw [login_admitted _ req env ha hp hc]
  refine ⟨rfl, rfl, ?_⟩
  simp only [PlayerManager.IsOnline, Option.isSome_iff_exists] at honline
  obtain ⟨old, hold⟩ := honline
  have hlt := (hinv.1 _ _ hold).1
  refine ⟨old, (run NewLoginServer calls).heap.length, hold, ?_, ?_, ?_, ?_⟩
  · simp [PlayerManager.GetPlayerByAccount, GoMap.get_set_same]
  · exact Nat.ne_of_gt hlt
  · simp [deref_append_new]
  · simp [deref_append_new]

/-- The amended C4 at a concrete state: account `a` is online after its first
login and logs in again. -/
theorem login_while_online_admitted_witness :
    ((step NewLoginServer (.Login reqA (envAt 1))).Login reqA (envAt 2)).1.Code = codes.OK ∧
    ((step NewLoginServer (.Login reqA (envAt 1))).Login reqA (envAt 2)).1.Token =
      generateToken reqA.Account (envAt 2).picks (envAt 2).now1 ∧
    ∃ old new : Ptr,
      (step NewLoginServer (.Login reqA (envAt 1))).playerManager.GetPlayerByAccount reqA.Account
        = some old ∧
      ((step NewLoginServer (.Login reqA (envAt 1))).Login reqA (envAt 2)).2.playerManager.GetPlayerByAccount
        reqA.Account = some new ∧
      new ≠ old ∧
      (((step NewLoginServer (.Login reqA (envAt 1))).Login reqA (envAt 2)).2.heap.deref new).Token =
        ((step NewLoginServer (.Login reqA (envAt 1))).Login reqA (envAt 2)).1.Token ∧
      (((step NewLoginServer (.Login reqA (envAt 1))).Login reqA (envAt 2)).2.heap.deref new).DeviceID =
        reqA.DeviceId :=
  login_while_online_admitted (step NewLoginServer (.Login reqA (envAt 1))) reqA (envAt 2)
    ⟨[.Login reqA (envAt 1)], rfl⟩ (by decide) (by decide) (by decide) (by decide)

/-- C5 (admission below capacity): in every state with `GetOnlineCount() < 100`,
a `Login` with non-empty account and password returns OK with a non-empty token
and the profile id `"player_" + account`; afterwards the lookups by that
account, by the returned token and by that player id return one and the same
Session, whose `DeviceID` is the device id of the request; the online count has
grown by exactly one and the admission queue is unchanged. -/
theorem login_admits_below_capacity (s : LoginServer) (req : LoginRequest) (env : LoginEnv)
    (ha : req.Account ≠ "") (hp : req.Password ≠ "")
    (hc : s.playerManager.GetOnlineCount.val < 100) :
    (s.Login req env).1.Code = codes.OK ∧
    (s.Login req env).1.Token ≠ "" ∧
    (s.Login req env).1.Player.map PlayerInfo.Id = some ("player_" ++ req.Account) ∧
    (∃ S : Ptr,
      (s.Login req env).2.playerManager.GetPlayerByAccount req.Account = some S ∧
      (s.Login req env).2.playerManager.GetPlayerByToken (s.Login req env).1.Token = some S ∧
      (s.Login req env).2.playerManager.GetPlayerByID ("player_" ++ req.Account) = some S ∧
      ((s.Login req env).2.heap.deref S).DeviceID = req.DeviceId) ∧
    (s.Login req env).2.playerManager.GetOnlineCount.val =
      s.playerManager.GetOnlineCount.val + 1 ∧
    (s.Login req env).2.queueManager = s.queueManager := by
  rw [login_admitted s req env ha hp hc]
  have hlo := s.playerManager.onlineCount.property.1
  have hc2 : s.playerManager.onlineCount.val < 100 := hc
  have hw : wrapInt64 (s.playerManager.onlineCount.val + 1) = s.playerManager.onlineCount.val + 1 :=
    wrapInt64_of_range _ (by omega) (by omega)
  refine ⟨rfl, generateToken_ne_empty _ _ _, rfl, ⟨s.heap.length, ?_, ?_, ?_, ?_⟩, ?_, rfl⟩
  · simp [PlayerManager.GetPlayerByAccount, GoMap.get_set_same]
  · simp [PlayerManager.GetPlayerByToken, GoMap.get_set_same]
  · simp [PlayerManager.GetPlayerByID, GoMap.get_set_same]
  · simp [deref_append_new]
  · simp only [PlayerManager.GetOnlineCount, GoInt.inc, hw]

/-- C5 at a concrete state: the first login on a fresh server. -/
theorem login_admits_below_capacity_witness :
    (NewLoginServer.Login reqA (envAt 1)).1.Code = codes.OK ∧
    (NewLoginServer.Login reqA (envAt 1)).1.Token ≠ "" ∧
    (NewLoginServer.Login reqA (envAt 1)).1.Player.map PlayerInfo.Id =
      some ("player_" ++ reqA.Account) ∧
    (∃ S : Ptr,
      (NewLoginServer.Login reqA (envAt 1)).2.playerManager.GetPlayerByAccount reqA.Account = some S ∧
      (NewLoginServer.Login reqA (envAt 1)).2.playerManager.GetPlayerByToken
        (NewLoginServer.Login reqA (envAt 1)).1.Token = some S ∧
      (NewLoginServer.Login reqA (envAt 1)).2.playerManager.GetPlayerByID
        ("player_" ++ reqA.Account) = some S ∧
      ((NewLoginServer.Login reqA (envAt 1)).2.heap.deref S).DeviceID = reqA.DeviceId) ∧
    (NewLoginServer.Login reqA (envAt 1)).2.playerManager.GetOnlineCount.val =
      NewLoginServer.playerManager.GetOnlineCount.val + 1 ∧
    (NewLoginServer.Login reqA (envAt 1)).2.queueManager = NewLoginServer.queueManager :=
  login_admits_below_capacity NewLoginServer reqA (envAt 1) (by decide) (by decide) (by decide)


/-! ## Logins at capacity -/

theorem run_append (s : LoginServer) (cs ds : List Call) :
    run s (cs ++ ds) = run (run s cs) ds := by
  simp [run, List.foldl_append]

theorem run_queued_logins (cs : List Call) :
    ∀ s : LoginServer, (∀ c ∈ cs, c.isValidLogin) → 100 ≤ s.playerManager.GetOnlineCount.val →
      (run s cs).playerManager = s.playerManager ∧
      (run s cs).queueManager.queue.length = s.queueManager.queue.length + cs.length := by
  induction cs with
  | nil => intro s _ _; exact ⟨rfl, rfl⟩
  | cons c cs ih =>
    intro s hv hc
    have hvc := hv c (List.mem_cons_self _ _)
    cases c with
    | Login req env =>
      obtain ⟨ha, hp⟩ := hvc
      have hstep : step s (.Login req env) = (s.Login req env).2 := rfl
      have hrun : run s (Call.Login req env :: cs) = run (step s (.Login req env)) cs := rfl
      have hq := login_queued s req env ha hp hc
      obtain ⟨h1, h2⟩ := ih (s.Login req env).2 (fun c hc => hv c (List.mem_cons_of_mem _ hc))
        (by rw [hq]; exact hc)
      rw [hrun, hstep]
      rw [hq] at h1 h2
      rw [hq]
      refine ⟨h1, ?_⟩
      rw [h2]
      simp only [List.length_append, List.length_cons, List.length_nil]
      omega
    | Reconnect req now => exact absurd hvc (by simp [Call.isValidLogin])
    | KickPlayer req => exact absurd hvc (by simp [Call.isValidLogin])
    | GetQueueInfo req => exact absurd hvc (by simp [Call.isValidLogin])

theorem reqU_valid (i : Nat) (env : LoginEnv) : (Call.Login (reqU i) env).isValidLogin := by
  constructor
  · intro h
    have hl := congrArg String.length h
    simp only [reqU, String.length_append] at hl
    have h1 : "u".length = 1 := by decide
    have h0 : "".length = 0 := by decide
    omega
  · show "p" ≠ ""
    decide

set_option maxRecDepth 100000 in
theorem fillCalls_state :
    (run NewLoginServer fillCalls).playerManager.GetOnlineCount.val = 100 ∧
    (run NewLoginServer fillCalls).queueManager.queue = [] := by
  decide

theorem longQueue_state :
    (run NewLoginServer longQueueCalls).playerManager.GetOnlineCount.val = 100 ∧
    (run NewLoginServer longQueueCalls).queueManager.queue.length = 2147483647 := by
  have hfill := fillCalls_state
  have hq := run_queued_logins
    ((List.range 2147483647).map (fun i => Call.Login (reqU (100 + i)) (envAt (100 + i))))
    (run NewLoginServer fillCalls)
    (by
      intro c hc
      rw [List.mem_map] at hc
      obtain ⟨i, _, rfl⟩ := hc
      exact reqU_valid _ _)
    (by rw [hfill.1])
  unfold longQueueCalls
  rewrite [run_append]
  constructor
  · rewrite [hq.1]
    exact hfill.1
  · rewrite [hq.2, hfill.2, List.length_map, List.length_range, List.length_nil]
    exact Nat.zero_add _

/-- C6, as stated, fails: in the state reached by filling the registry and then
queueing `2^31 - 1` logins, the online count is 100 and the queue holds
`2147483647` entries; the next `Login` is appended at position `2147483648`,
but the `int32` field `QueuePosition` of its response is `-2147483648`, not
the previous queue length plus one. -/
theorem queue_position_wraps_int32 :
    100 ≤ (run NewLoginServer longQueueCalls).playerManager.GetOnlineCount.val ∧
    (run NewLoginServer longQueueCalls).queueManager.queue.length = 2147483647 ∧
    ((run NewLoginServer longQueueCalls).Login reqB (envAt 0)).1.QueuePosition = -2147483648 ∧
    ((run NewLoginServer longQueueCalls).Login reqB (envAt 0)).1.QueuePosition ≠
      ((run NewLoginServer longQueueCalls).queueManager.queue.length : Int) + 1 := by
  obtain ⟨h1, h2⟩ := longQueue_state
  have hc : 100 ≤ (run NewLoginServer longQueueCalls).playerManager.GetOnlineCount.val := by
    rw [h1]
  have hpos : ((run NewLoginServer longQueueCalls).Login reqB (envAt 0)).1.QueuePosition =
      -2147483648 := by
    rw [login_queued _ reqB (envAt 0) (by decide) (by decide) hc]
    simp only [h2]
    decide
  refine ⟨hc, h2, hpos, ?_⟩
  rw [hpos, h2]
  decide

/-- C6, amended: in every state with `GetOnlineCount() >= 100` whose queue is
shorter than `2^31 - 1`, a `Login` with non-empty account and password returns
no token and no profile, reports `QueuePosition` equal to the previous queue
length plus one, appends exactly one entry, for that account, at the back of
the queue, and leaves the heap of Sessions, the three indices and the online
count unchanged. -/
theorem login_queues_at_capacity (s : LoginServer) (req : LoginRequest) (env : LoginEnv)
    (ha : req.Account ≠ "") (hp : req.Password ≠ "")
    (hc : 100 ≤ s.playerManager.GetOnlineCount.val)
    (hlen : s.queueManager.queue.length < 2147483647) :
    (s.Login req env).1.Token = "" ∧
    (s.Login req env).1.Player = none ∧
    (s.Login req env).1.QueuePosition = (s.queueManager.queue.length : Int) + 1 ∧
    (∃ item : QueueItem, item.Account = req.Account ∧
      (s.Login req env).2.queueManager.queue = s.queueManager.queue ++ [item]) ∧
    (s.Login req env).2.playerManager = s.playerManager ∧
    (s.Login req env).2.heap = s.heap := by
  rw [login_queued s req env ha hp hc]
  refine ⟨rfl, rfl, ?_, ⟨_, rfl, rfl⟩, rfl, rfl⟩
  simp only [toInt32]
  omega

/-- The amended C6 with the registry full and the queue empty: the next login
is queued at position 1. -/
theorem login_queues_at_capacity_witness :
    ((run NewLoginServer fillCalls).Login reqB (envAt 100)).1.Token = "" ∧
    ((run NewLoginServer fillCalls).Login reqB (envAt 100)).1.Player = none ∧
    ((run NewLoginServer fillCalls).Login reqB (envAt 100)).1.QueuePosition =
      ((run NewLoginServer fillCalls).queueManager.queue.length : Int) + 1 ∧
    (∃ item : QueueItem, item.Account = reqB.Account ∧
      ((run NewLoginServer fillCalls).Login reqB (envAt 100)).2.queueManager.queue =
        (run NewLoginServer fillCalls).queueManager.queue ++ [item]) ∧
    ((run NewLoginServer fillCalls).Login reqB (envAt 100)).2.playerManager =
      (run NewLoginServer fillCalls).playerManager ∧
    ((run NewLoginServer fillCalls).Login reqB (envAt 100)).2.heap =
      (run NewLoginServer fillCalls).heap :=
  login_queues_at_capacity (run NewLoginServer fillCalls) reqB (envAt 100)
    (by decide) (by decide) (by rw [fillCalls_state.1]) (by rw [fillCalls_state.2]; decide)


/-! ## Mutual exclusivity of registry and queue -/

theorem GoMap.get_delete_some {K V : Type} [DecidableEq K] (m : GoMap K V) {k k' : K} {v : V}
    (h : (m.delete k).get k' = some v) : m.get k' = some v := by
  by_cases hk : k' = k
  · subst hk
    rw [GoMap.get_delete_same] at h
    cases h
  · rwa [GoMap.get_delete_ne _ hk] at h

theorem isOnline_removePlayer (pm : PlayerManager) (h : Heap) (account x : String)
    (hx : (pm.RemovePlayer h account).IsOnline x = true) : pm.IsOnline x = true := by
  unfold PlayerManager.RemovePlayer at hx
  cases hg : pm.playersByAccount.get account with
  | none => simpa [hg] using hx
  | some player =>
    simp only [hg, PlayerManager.IsOnline, Option.isSome_iff_exists] at hx
    obtain ⟨v, hv⟩ := hx
    simp only [PlayerManager.IsOnline, Option.isSome_iff_exists]
    exact ⟨v, GoMap.get_delete_some _ hv⟩

set_option maxRecDepth 100000 in
theorem reloginAtCapacity_state :
    (run NewLoginServer reloginAtCapacity).playerManager.IsOnline "u0" = true ∧
    inQueue (run NewLoginServer reloginAtCapacity) "u0" = true := by
  decide

/-- C7 (mutual exclusivity), evaluated where it fails: after the registry has
been filled by the logins of `u0`, ..., `u99`, a further `Login` of `u0` finds
`u0` online, where the code logs "kicking old connection" and removes nothing,
then finds the online count at 100 and queues `u0`; `u0` is then online and in
the admission queue at the same time. -/
theorem online_account_gets_queued :
    (run NewLoginServer reloginAtCapacity).playerManager.IsOnline "u0" = true ∧
    inQueue (run NewLoginServer reloginAtCapacity) "u0" = true ∧
    ¬ Exclusive (run NewLoginServer reloginAtCapacity) :=
  ⟨reloginAtCapacity_state.1, reloginAtCapacity_state.2,
    fun hex => hex "u0" reloginAtCapacity_state⟩

/-- Mutual exclusivity is preserved by every `Reconnect`, `KickPlayer` and
`GetQueueInfo` call, and by every `Login` call except one that queues an
account that is online (online count at least 100) or admits an account that
is in the queue (online count below 100). -/
theorem exclusive_preserved (s : LoginServer) (c : Call) (hex : Exclusive s)
    (hlogin : ∀ req env, c = Call.Login req env →
      (100 ≤ s.playerManager.GetOnlineCount.val → s.playerManager.IsOnline req.Account = false) ∧
      (s.playerManager.GetOnlineCount.val < 100 → inQueue s req.Account = false)) :
    Exclusive (step s c) := by
  cases c with
  | Login req env =>
    obtain ⟨hq, hadm⟩ := hlogin req env rfl
    by_cases hv : req.Account = "" ∨ req.Password = ""
    · simp only [step, LoginServer.Login, hv, if_true]
      exact hex
    · have ha : req.Account ≠ "" := fun e => hv (Or.inl e)
      have hp : req.Password ≠ "" := fun e => hv (Or.inr e)
      by_cases hc : 100 ≤ s.playerManager.GetOnlineCount.val
      · simp only [step, login_queued s req env ha hp hc]
        intro x hx
        obtain ⟨hx1, hx2⟩ := hx
        simp only [inQueue, List.any_append, List.any_cons, List.any_nil, Bool.or_false,
          Bool.or_eq_true, decide_eq_true_eq] at hx2
        rcases hx2 with hx2 | hx2
        · exact hex x ⟨hx1, hx2⟩
        · subst hx2
          have := hq hc
          simp only at hx1
          rw [this] at hx1
          cases hx1
      · have hc2 : s.playerManager.GetOnlineCount.val < 100 := by omega
        simp only [step, login_admitted s req env ha hp hc2]
        intro x hx
        obtain ⟨hx1, hx2⟩ := hx
        have hx2' : inQueue s x = true := hx2
        by_cases hxa : x = req.Account
        · subst hxa
          rw [hadm hc2] at hx2'
          cases hx2'
        · apply hex x
          refine ⟨?_, hx2'⟩
          simp only [PlayerManager.IsOnline] at hx1 ⊢
          rwa [GoMap.get_set_ne _ _ hxa] at hx1
  | Reconnect req now =>
    simp only [step, LoginServer.Reconnect]
    split
    · exact hex
    · split_ifs
      · exact hex
      · exact hex
  | KickPlayer req =>
    simp only [step, LoginServer.KickPlayer]
    split
    · exact hex
    · intro x hx
      exact hex x ⟨isOnline_removePlayer _ _ _ _ hx.1, hx.2⟩
  | GetQueueInfo req =>
    simp only [step, LoginServer.GetQueueInfo]
    split
    · exact hex
    · split_ifs
      · exact hex
      · exact hex

theorem exclusive_new : Exclusive NewLoginServer := by
  intro x hx
  have h := hx.2
  simp [inQueue, NewLoginServer, NewQueueManager] at h

/-! ## Reconnect -/

/-- C8 (device binding): `Reconnect` returns OK exactly when the token index
holds a Session for the presented token whose `DeviceID` equals the presented
device id; it returns Unauthorized exactly when no Session owns the token; and
exactly in the remaining case (token owned, device different) it returns the
code `Unknown`, which differs from both OK and Unauthorized. -/
theorem reconnect_device_binding (s : LoginServer) (req : ReconnectRequest) (now : Time) :
    ((s.Reconnect req now).1.Code = codes.OK ↔
      ∃ S : Ptr, s.playerManager.GetPlayerByToken req.Token = some S ∧
        (s.heap.deref S).DeviceID = req.DeviceId) ∧
    ((s.Reconnect req now).1.Code = codes.Unauthorized ↔
      s.playerManager.GetPlayerByToken req.Token = none) ∧
    ((s.Reconnect req now).1.Code = codes.Unknown ↔
      ∃ S : Ptr, s.playerManager.GetPlayerByToken req.Token = some S ∧
        (s.heap.deref S).DeviceID ≠ req.DeviceId) ∧
    codes.Unknown ≠ codes.OK ∧ codes.Unknown ≠ codes.Unauthorized := by
  unfold LoginServer.Reconnect
  cases hg : s.playerManager.GetPlayerByToken req.Token with
  | none => simp
  | some player =>
    by_cases hd : (s.heap.deref player).DeviceID = req.DeviceId
    · simp [hd]
    · simp [hd]

/-- C9 (a failed `Reconnect` changes nothing): whenever `Reconnect` returns a
code other than OK, the whole server state (the heap of Sessions with their
`ReconnectTime`, the three indices, the online count and the queue) is the same
after the call as before. -/
theorem reconnect_failure_changes_nothing (s : LoginServer) (req : ReconnectRequest) (now : Time)
    (hfail : (s.Reconnect req now).1.Code ≠ codes.OK) :
    (s.Reconnect req now).2 = s := by
  unfold LoginServer.Reconnect at hfail ⊢
  cases hg : s.playerManager.GetPlayerByToken req.Token with
  | none => simp
  | some player =>
    by_cases hd : (s.heap.deref player).DeviceID = req.DeviceId
    · simp [hg, hd] at hfail
    · simp [hd]

/-- C9 at a concrete state: account `a` is online from device `d1` and a
reconnect presents its token from device `d2`. -/
theorem reconnect_failure_changes_nothing_witness :
    ((step NewLoginServer (Call.Login reqA (envAt 1))).Reconnect reqOtherDevice 5).1.Code ≠ codes.OK ∧
    ((step NewLoginServer (Call.Login reqA (envAt 1))).Reconnect reqOtherDevice 5).2 =
      step NewLoginServer (Call.Login reqA (envAt 1)) :=
  ⟨by decide,
   reconnect_failure_changes_nothing (step NewLoginServer (Call.Login reqA (envAt 1)))
    reqOtherDevice 5 (by decide)⟩

/-- C10 (a successful `Reconnect` never re-mints a token): in every reachable
state, when `Reconnect` returns OK the token of the response is the presented
token and the returned player id is the `PlayerID` of the Session `S` owning
the token; the heap after the call is the heap before with `S.ReconnectTime`
set to the clock reading, so `Account`, `PlayerID`, `Token`, `DeviceID`,
`LoginTime` of `S` and every other Session are as before, and the three
indices, the online count and the queue are unchanged. -/
theorem reconnect_success_keeps_token (s : LoginServer) (req : ReconnectRequest) (now : Time)
    (hr : Reachable s) (hok : (s.Reconnect req now).1.Code = codes.OK) :
    (s.Reconnect req now).1.Token = req.Token ∧
    ∃ S : Ptr, s.playerManager.GetPlayerByToken req.Token = some S ∧
      (s.Reconnect req now).1.Player.map PlayerInfo.Id = some (s.heap.deref S).PlayerID ∧
      (s.Reconnect req now).2.heap =
        s.heap.set S { s.heap.deref S with ReconnectTime := now } ∧
      ((s.Reconnect req now).2.heap.deref S).Account = (s.heap.deref S).Account ∧
      ((s.Reconnect req now).2.heap.deref S).PlayerID = (s.heap.deref S).PlayerID ∧
      ((s.Reconnect req now).2.heap.deref S).Token = (s.heap.deref S).Token ∧
      ((s.Reconnect req now).2.heap.deref S).DeviceID = (s.heap.deref S).DeviceID ∧
      ((s.Reconnect req now).2.heap.deref S).LoginTime = (s.heap.deref S).LoginTime ∧
      ((s.Reconnect req now).2.heap.deref S).ReconnectTime = now ∧
      (∀ p : Ptr, p ≠ S → (s.Reconnect req now).2.heap.deref p = s.heap.deref p) ∧
      (s.Reconnect req now).2.playerManager = s.playerManager ∧
      (s.Reconnect req now).2.queueManager = s.queueManager := by
  obtain ⟨calls, rfl⟩ := hr
  have hinv := heapInv_run calls NewLoginServer heapInv_new
  generalize run NewLoginServer calls = s at hinv hok ⊢
  unfold LoginServer.Reconnect at hok ⊢
  cases hg : s.playerManager.GetPlayerByToken req.Token with
  | none => simp [hg] at hok
  | some S =>
    by_cases hd : (s.heap.deref S).DeviceID = req.DeviceId
    · obtain ⟨hlt, htok⟩ := hinv.2.1 req.Token S hg
      have hnew : ∀ x : Player, Heap.deref (s.heap.set S x) S = x :=
        fun x => deref_set_same _ x hlt
      have hcond : ¬ ((s.heap.deref S).DeviceID ≠ req.DeviceId) := not_not.mpr hd
      dsimp only
      rw [if_neg hcond]
      refine ⟨?_, S, rfl, rfl, rfl, ?_, ?_, ?_, ?_, ?_, ?_, ?_, rfl, rfl⟩
      · rw [hnew]
        exact htok
      · rw [hnew]
      · rw [hnew]
      · rw [hnew]
      · rw [hnew]
      · rw [hnew]
      · rw [hnew]
      · intro p hp
        exact deref_set_ne _ _ hp
    · simp [hg, hd] at hok

/-- C10 at a concrete state: account `a` is online from device `d1` and
reconnects with its token from the same device. -/
theorem reconnect_success_keeps_token_witness :
    ((step NewLoginServer (Call.Login reqA (envAt 1))).Reconnect reqSameDevice 7).1.Token =
      reqSameDevice.Token ∧
    ∃ S : Ptr,
      (step NewLoginServer (Call.Login reqA (envAt 1))).playerManager.GetPlayerByToken
        reqSameDevice.Token = some S ∧
      ((step NewLoginServer (Call.Login reqA (envAt 1))).Reconnect reqSameDevice 7).1.Player.map
        PlayerInfo.Id = some ((step NewLoginServer (Call.Login reqA (envAt 1))).heap.deref S).PlayerID ∧
      ((step NewLoginServer (Call.Login reqA (envAt 1))).Reconnect reqSameDevice 7).2.heap =
        (step NewLoginServer (Call.Login reqA (envAt 1))).heap.set S
          { (step NewLoginServer (Call.Login reqA (envAt 1))).heap.deref S with ReconnectTime := 7 } ∧
      (((step NewLoginServer (Call.Login reqA (envAt 1))).Reconnect reqSameDevice 7).2.heap.deref S).Account =
        ((step NewLoginServer (Call.Login reqA (envAt 1))).heap.deref S).Account ∧
      (((step NewLoginServer (Call.Login reqA (envAt 1))).Reconnect reqSameDevice 7).2.heap.deref S).PlayerID =
        ((step NewLoginServer (Call.Login reqA (envAt 1))).heap.deref S).PlayerID ∧
      (((step NewLoginServer (Call.Login reqA (envAt 1))).Reconnect reqSameDevice 7).2.heap.deref S).Token =
        ((step NewLoginServer (Call.Login reqA (envAt 1))).heap.deref S).Token ∧
      (((step NewLoginServer (Call.Login reqA (envAt 1))).Reconnect reqSameDevice 7).2.heap.deref S).DeviceID =
        ((step NewLoginServer (Call.Login reqA (envAt 1))).heap.deref S).DeviceID ∧
      (((step NewLoginServer (Call.Login reqA (envAt 1))).Reconnect reqSameDevice 7).2.heap.deref S).LoginTime =
        ((step NewLoginServer (Call.Login reqA (envAt 1))).heap.deref S).LoginTime ∧
      (((step NewLoginServer (Call.Login reqA (envAt 1))).Reconnect reqSameDevice 7).2.heap.deref S).ReconnectTime =
        7 ∧
      (∀ p : Ptr, p ≠ S →
        ((step NewLoginServer (Call.Login reqA (envAt 1))).Reconnect reqSameDevice 7).2.heap.deref p =
          (step NewLoginServer (Call.Login reqA (envAt 1))).heap.deref p) ∧
      ((step NewLoginServer (Call.Login reqA (envAt 1))).Reconnect reqSameDevice 7).2.playerManager =
        (step NewLoginServer (Call.Login reqA (envAt 1))).playerManager ∧
      ((step NewLoginServer (Call.Login reqA (envAt 1))).Reconnect reqSameDevice 7).2.queueManager =
        (step NewLoginServer (Call.Login reqA (envAt 1))).queueManager :=
  reconnect_success_keeps_token (step NewLoginServer (Call.Login reqA (envAt 1))) reqSameDevice 7
    ⟨[Call.Login reqA (envAt 1)], rfl⟩ (by decide)


/-! ## The player-id index follows the account index -/

theorem deref_mem (h : Heap) {p : Ptr} (hp : p < h.length) : h.deref p ∈ h := by
  have : h.deref p = h[p] := by
    simp [Heap.deref, List.getD_eq_getElem?_getD, List.getElem?_eq_getElem hp]
  rw [this]
  exact List.getElem_mem hp

theorem syncInv_new : SyncInv NewLoginServer := by
  constructor
  · intro x hx
    simp [NewLoginServer] at hx
  · intro k p hk
    simp [NewLoginServer, NewPlayerManager, GoMap.get, GoMap.empty, GoMap.lookup] at hk

theorem syncInv_step (s : LoginServer) (c : Call) (hheap : HeapInv s) (hsync : SyncInv s) :
    SyncInv (step s c) := by
  obtain ⟨hobj, hid⟩ := hsync
  obtain ⟨_, hT, hI⟩ := hheap
  cases c with
  | Login req env =>
    by_cases hv : req.Account = "" ∨ req.Password = ""
    · simp only [step, LoginServer.Login, hv, if_true]
      exact ⟨hobj, hid⟩
    · have ha : req.Account ≠ "" := fun e => hv (Or.inl e)
      have hp : req.Password ≠ "" := fun e => hv (Or.inr e)
      by_cases hc : 100 ≤ s.playerManager.GetOnlineCount.val
      · simp only [step, login_queued s req env ha hp hc]
        exact ⟨hobj, hid⟩
      · simp only [step, login_admitted s req env ha hp (by omega)]
        constructor
        · intro x hx
          rw [List.mem_append] at hx
          rcases hx with hx | hx
          · exact hobj x hx
          · rw [List.mem_singleton] at hx
            rw [hx]
        · intro k p hk
          by_cases hkey : k = "player_" ++ req.Account
          · subst hkey
            rw [GoMap.get_set_same] at hk
            cases hk
            rw [deref_append_new]
            exact GoMap.get_set_same _ _ _
          · rw [GoMap.get_set_ne _ _ hkey] at hk
            obtain ⟨hlt, hpid⟩ := hI k p hk
            rw [deref_append_old _ _ hlt]
            have hne : (s.heap.deref p).Account ≠ req.Account := by
              intro e
              apply hkey
              rw [← hpid, hobj _ (deref_mem _ hlt), e]
            rw [GoMap.get_set_ne _ _ hne]
            exact hid k p hk
  | Reconnect req now =>
    simp only [step, LoginServer.Reconnect]
    cases hg : s.playerManager.GetPlayerByToken req.Token with
    | none => exact ⟨hobj, hid⟩
    | some player =>
      have hlt : player < s.heap.length := (hT req.Token player hg).1
      dsimp only
      split_ifs
      · exact ⟨hobj, hid⟩
      · constructor
        · intro x hx
          rcases List.mem_or_eq_of_mem_set hx with hx | hx
          · exact hobj x hx
          · rw [hx]
            exact hobj (s.heap.deref player) (deref_mem _ hlt)
        · intro k p hk
          obtain ⟨hlt2, _⟩ := hI k p hk
          have hacc : (Heap.deref (s.heap.set player
              { s.heap.deref player with ReconnectTime := now }) p).Account =
              (s.heap.deref p).Account := by
            by_cases hpp : p = player
            · subst hpp
              rw [deref_set_same _ _ hlt2]
            · rw [deref_set_ne _ _ hpp]
          rw [hacc]
          exact hid k p hk
  | KickPlayer req =>
    simp only [step, LoginServer.KickPlayer]
    cases hg : s.playerManager.GetPlayerByID req.PlayerId with
    | none => exact ⟨hobj, hid⟩
    | some player =>
      dsimp only
      unfold PlayerManager.RemovePlayer
      cases hacct : s.playerManager.playersByAccount.get (s.heap.deref player).Account with
      | none => exact ⟨hobj, hid⟩
      | some acctPlayer =>
        refine ⟨hobj, ?_⟩
        intro k p hk
        have hk' : (s.playerManager.playersByID.delete (s.heap.deref acctPlayer).PlayerID).get k
            = some p := hk
        have hk0 := GoMap.get_delete_some _ hk'
        have hkne : k ≠ (s.heap.deref acctPlayer).PlayerID := by
          intro e
          rw [e, GoMap.get_delete_same] at hk'
          cases hk'
        have hold := hid k p hk0
        have hne : (s.heap.deref p).Account ≠ (s.heap.deref player).Account := by
          intro e
          rw [e, hacct] at hold
          have hp : acctPlayer = p := Option.some.inj hold
          rw [hp] at hkne
          exact hkne (hI k p hk0).2.symm
        show (s.playerManager.playersByAccount.delete (s.heap.deref player).Account).get
          (s.heap.deref p).Account = some p
        rw [GoMap.get_delete_ne _ hne]
        exact hold
  | GetQueueInfo req =>
    simp only [step, LoginServer.GetQueueInfo]
    split
    · exact ⟨hobj, hid⟩
    · split_ifs
      · exact ⟨hobj, hid⟩
      · exact ⟨hobj, hid⟩


theorem registryInv_run (calls : List Call) :
    ∀ s : LoginServer, HeapInv s → SyncInv s →
      HeapInv (run s calls) ∧ SyncInv (run s calls) := by
  induction calls with
  | nil => intro s h1 h2; exact ⟨h1, h2⟩
  | cons c cs ih =>
    intro s h1 h2
    exact ih (step s c) (heapInv_step s c h1) (syncInv_step s c h1 h2)

/-! ## KickPlayer and RemovePlayer -/

/-- C11 (removal completeness): in every reachable state, when `playerId`
resolves to a Session `S`, `KickPlayer(playerId)` returns OK, afterwards the
lookups by `S.Account`, by `S.Token` and by `S.PlayerID` all return absent, and
`GetOnlineCount()` has decreased by exactly one. -/
theorem kick_removes_session (s : LoginServer) (req : KickPlayerRequest) (S : Ptr)
    (hr : Reachable s) (hS : s.playerManager.GetPlayerByID req.PlayerId = some S) :
    (s.KickPlayer req).1.Code = codes.OK ∧
    (s.KickPlayer req).2.playerManager.GetPlayerByAccount (s.heap.deref S).Account = none ∧
    (s.KickPlayer req).2.playerManager.GetPlayerByToken (s.heap.deref S).Token = none ∧
    (s.KickPlayer req).2.playerManager.GetPlayerByID (s.heap.deref S).PlayerID = none ∧
    (s.KickPlayer req).2.playerManager.GetOnlineCount.val =
      s.playerManager.GetOnlineCount.val - 1 := by
  obtain ⟨calls, rfl⟩ := hr
  have hsync := (registryInv_run calls NewLoginServer heapInv_new syncInv_new).2
  have hcount := countInv_run calls NewLoginServer countInv_new
  generalize run NewLoginServer calls = s at hsync hcount hS ⊢
  have hacct : s.playerManager.playersByAccount.get (s.heap.deref S).Account = some S :=
    hsync.2 req.PlayerId S hS
  have hlen := GoMap.length_delete_lt _ hacct
  have hlo := s.playerManager.onlineCount.property.2
  have hw : wrapInt64 (s.playerManager.onlineCount.val - 1) = s.playerManager.onlineCount.val - 1 :=
    wrapInt64_of_range _ (by have := hcount.1; omega) (by omega)
  have hS' : s.playerManager.playersByID.get req.PlayerId = some S := hS
  simp only [LoginServer.KickPlayer, PlayerManager.GetPlayerByID, hS',
    PlayerManager.RemovePlayer, hacct,
    PlayerManager.GetPlayerByAccount, PlayerManager.GetPlayerByToken,
    PlayerManager.GetOnlineCount, GoMap.get_delete_same, GoInt.dec, hw, and_self]

/-- C11 at a concrete state: account `a` is online and `player_a` is kicked. -/
theorem kick_removes_session_witness :
    ((step NewLoginServer (Call.Login reqA (envAt 1))).KickPlayer reqKickA).1.Code = codes.OK ∧
    ((step NewLoginServer (Call.Login reqA (envAt 1))).KickPlayer reqKickA).2.playerManager.GetPlayerByAccount
      ((step NewLoginServer (Call.Login reqA (envAt 1))).heap.deref 0).Account = none ∧
    ((step NewLoginServer (Call.Login reqA (envAt 1))).KickPlayer reqKickA).2.playerManager.GetPlayerByToken
      ((step NewLoginServer (Call.Login reqA (envAt 1))).heap.deref 0).Token = none ∧
    ((step NewLoginServer (Call.Login reqA (envAt 1))).KickPlayer reqKickA).2.playerManager.GetPlayerByID
      ((step NewLoginServer (Call.Login reqA (envAt 1))).heap.deref 0).PlayerID = none ∧
    ((step NewLoginServer (Call.Login reqA (envAt 1))).KickPlayer reqKickA).2.playerManager.GetOnlineCount.val =
      (step NewLoginServer (Call.Login reqA (envAt 1))).playerManager.GetOnlineCount.val - 1 :=
  kick_removes_session (step NewLoginServer (Call.Login reqA (envAt 1))) reqKickA 0
    ⟨[Call.Login reqA (envAt 1)], rfl⟩ (by decide)

/-- C12: `KickPlayer(playerId)` returns NotFound exactly when no Session is
indexed under `playerId`; in that case the whole state, registry and queue
included, is unchanged; otherwise it returns OK. -/
theorem kick_not_found_iff (s : LoginServer) (req : KickPlayerRequest) :
    ((s.KickPlayer req).1.Code = codes.NotFound ↔
      s.playerManager.GetPlayerByID req.PlayerId = none) ∧
    (s.playerManager.GetPlayerByID req.PlayerId = none → (s.KickPlayer req).2 = s) ∧
    (s.playerManager.GetPlayerByID req.PlayerId ≠ none →
      (s.KickPlayer req).1.Code = codes.OK) := by
  unfold LoginServer.KickPlayer
  cases hg : s.playerManager.GetPlayerByID req.PlayerId with
  | none => simp
  | some player => simp

/-- C13 (idempotent removal): for every registry and every account,
`RemovePlayer(account)` applied twice yields the same registry as applying it
once, and `RemovePlayer` for an account that is not online leaves the three
indices and the online count unchanged. -/
theorem removePlayer_idempotent (pm : PlayerManager) (h : Heap) (account : String) :
    (pm.RemovePlayer h account).RemovePlayer h account = pm.RemovePlayer h account ∧
    (pm.IsOnline account = false → pm.RemovePlayer h account = pm) := by
  constructor
  · cases hg : pm.playersByAccount.get account with
    | none => simp [PlayerManager.RemovePlayer, hg]
    | some player =>
      have h1 : pm.RemovePlayer h account =
          { playersByAccount := pm.playersByAccount.delete account
            playersByToken := pm.playersByToken.delete (h.deref player).Token
            playersByID := pm.playersByID.delete (h.deref player).PlayerID
            onlineCount := pm.onlineCount.dec } := by
        simp [PlayerManager.RemovePlayer, hg]
      rw [h1]
      simp [PlayerManager.RemovePlayer, GoMap.get_delete_same]
  · intro hoff
    cases hg : pm.playersByAccount.get account with
    | none => simp [PlayerManager.RemovePlayer, hg]
    | some player => simp [PlayerManager.IsOnline, hg] at hoff

/-- C14: `Login` returns InvalidArgument exactly when the account or the
password of the request is empty; in that case the response carries no token
and no profile and the whole state (heap of Sessions, registry, queue) is
unchanged. -/
theorem login_invalid_argument_iff (s : LoginServer) (req : LoginRequest) (env : LoginEnv) :
    ((s.Login req env).1.Code = codes.InvalidArgument ↔
      (req.Account = "" ∨ req.Password = "")) ∧
    ((req.Account = "" ∨ req.Password = "") →
      (s.Login req env).1.Token = "" ∧ (s.Login req env).1.Player = none ∧
      (s.Login req env).2 = s) := by
  by_cases hv : req.Account = "" ∨ req.Password = ""
  · simp [LoginServer.Login, hv]
  · have ha : req.Account ≠ "" := fun e => hv (Or.inl e)
    have hp : req.Password ≠ "" := fun e => hv (Or.inr e)
    by_cases hc : 100 ≤ s.playerManager.GetOnlineCount.val
    · rw [login_queued s req env ha hp hc]
      simp [hv]
    · rw [login_admitted s req env ha hp (by omega)]
      simp [hv]


/-! ## The admission queue -/

theorem findPosition_none_iff (account : String) (l : List QueueItem) (i : Nat) :
    QueueManager.findPosition account l i = none ↔ ∀ item ∈ l, item.Account ≠ account := by
  induction l generalizing i with
  | nil => simp [QueueManager.findPosition]
  | cons x l ih =>
    simp only [QueueManager.findPosition]
    by_cases hx : x.Account = account
    · simp [hx]
    · simp [hx, ih]

theorem findPosition_some (account : String) (l : List QueueItem) (i : Nat) (p : Int)
    (h : QueueManager.findPosition account l i = some p) :
    ∃ (k : Nat) (item : QueueItem), p = (i : Int) + k + 1 ∧ l[k]? = some item ∧
      item.Account = account ∧
      ∀ (j : Nat) (x : QueueItem), j < k → l[j]? = some x → x.Account ≠ account := by
  induction l generalizing i with
  | nil => simp [QueueManager.findPosition] at h
  | cons x l ih =>
    simp only [QueueManager.findPosition] at h
    by_cases hx : x.Account = account
    · rw [if_pos hx] at h
      refine ⟨0, x, ?_, by simp, hx, ?_⟩
      · have := Option.some.inj h
        omega
      · intro j y hj
        omega
    · rw [if_neg hx] at h
      obtain ⟨k, item, hp, hk, hacc, hbefore⟩ := ih (i + 1) h
      refine ⟨k + 1, item, ?_, ?_, hacc, ?_⟩
      · push_cast at hp ⊢
        omega
      · simpa using hk
      · intro j y hj hy
        cases j with
        | zero =>
          simp only [List.getElem?_cons_zero, Option.some.injEq] at hy
          rw [← hy]
          exact hx
        | succ j =>
          simp only [List.getElem?_cons_succ] at hy
          exact hbefore j y (by omega) hy

theorem findPosition_append_new (account : String) (l : List QueueItem) (item : QueueItem)
    (i : Nat) (hl : ∀ x ∈ l, x.Account ≠ account) (hitem : item.Account = account) :
    QueueManager.findPosition account (l ++ [item]) i = some ((i : Int) + l.length + 1) := by
  induction l generalizing i with
  | nil => simp [QueueManager.findPosition, hitem]
  | cons x l ih =>
    have hx : x.Account ≠ account := hl x (List.mem_cons_self _ _)
    have hl' : ∀ y ∈ l, y.Account ≠ account := fun y hy => hl y (List.mem_cons_of_mem _ hy)
    have hstep : QueueManager.findPosition account (x :: l ++ [item]) i =
        QueueManager.findPosition account (l ++ [item]) (i + 1) := by
      show QueueManager.findPosition account (x :: (l ++ [item])) i = _
      simp only [QueueManager.findPosition, if_neg hx]
    rw [hstep, ih (i + 1) hl']
    simp only [List.length_cons, Option.some.injEq]
    push_cast
    omega

/-- C15, as stated, fails: `AddToQueue` for account `a`, called on the queue
that already holds an entry for `a`, does not fail; it returns position 2 and
the queue then holds two entries for `a`. -/
theorem addToQueue_accepts_queued_account :
    ((NewQueueManager.AddToQueue "a" infoA 1).2.AddToQueue "a" infoA 2).1 = 2 ∧
    ((NewQueueManager.AddToQueue "a" infoA 1).2.AddToQueue "a" infoA 2).2.queue =
      [{ Account := "a", PlayerInfo := infoA, JoinTime := 1 },
       { Account := "a", PlayerInfo := infoA, JoinTime := 2 }] ∧
    ((NewQueueManager.AddToQueue "a" infoA 1).2.AddToQueue "a" infoA 2).2.queue ≠
      (NewQueueManager.AddToQueue "a" infoA 1).2.queue := by
  decide

/-- C15, amended: `AddToQueue` never fails. Called for an account that is
already in the queue it appends a further entry for that account at the back
and returns the new queue length, so the account then appears at least twice. -/
theorem addToQueue_appends_duplicate (qm : QueueManager) (account : String)
    (playerInfo : PlayerInfo) (now : Time)
    (hin : ∃ item ∈ qm.queue, item.Account = account) :
    (qm.AddToQueue account playerInfo now).1 = (qm.queue.length : Int) + 1 ∧
    (qm.AddToQueue account playerInfo now).2.queue =
      qm.queue ++ [{ Account := account, PlayerInfo := playerInfo, JoinTime := now }] ∧
    2 ≤ (qm.AddToQueue account playerInfo now).2.queue.countP
      (fun item => decide (item.Account = account)) := by
  refine ⟨by simp [QueueManager.AddToQueue], rfl, ?_⟩
  obtain ⟨item, hmem, hacc⟩ := hin
  have hpos : 0 < qm.queue.countP (fun item => decide (item.Account = account)) :=
    List.countP_pos_iff.mpr ⟨item, hmem, by simpa using hacc⟩
  simp only [QueueManager.AddToQueue, List.countP_append, List.countP_cons, List.countP_nil,
    decide_True, if_true]
  omega

/-- The amended C15 at a concrete queue: `a` is enqueued into a queue that
holds `a` and `b`. -/
theorem addToQueue_appends_duplicate_witness :
    (queueAB.AddToQueue "a" infoA 3).1 = (queueAB.queue.length : Int) + 1 ∧
    (queueAB.AddToQueue "a" infoA 3).2.queue =
      queueAB.queue ++ [{ Account := "a", PlayerInfo := infoA, JoinTime := 3 }] ∧
    2 ≤ (queueAB.AddToQueue "a" infoA 3).2.queue.countP
      (fun item => decide (item.Account = "a")) :=
  addToQueue_appends_duplicate queueAB "a" infoA 3
    ⟨{ Account := "a", PlayerInfo := infoA, JoinTime := 1 }, by decide, rfl⟩

/-- C16 (the returned position is the 1-based rank): for every queue `q` and
every account `a` not in `q`, `AddToQueue(a)` returns `len(q) + 1`, leaves the
first `len(q)` entries as they were, and an immediately following
`GetQueueInfo(a)` returns position `len(q) + 1`, total `len(q) + 1` and no
error. -/
theorem addToQueue_position (qm : QueueManager) (account : String) (playerInfo : PlayerInfo)
    (now : Time) (hnew : ∀ item ∈ qm.queue, item.Account ≠ account) :
    (qm.AddToQueue account playerInfo now).1 = (qm.queue.length : Int) + 1 ∧
    (qm.AddToQueue account playerInfo now).2.queue.take qm.queue.length = qm.queue ∧
    (qm.AddToQueue account playerInfo now).2.GetQueueInfo account =
      ((qm.queue.length : Int) + 1, (qm.queue.length : Int) + 1, false) := by
  refine ⟨by simp [QueueManager.AddToQueue], by simp [QueueManager.AddToQueue], ?_⟩
  have hpos := findPosition_append_new account qm.queue
    { Account := account, PlayerInfo := playerInfo, JoinTime := now } 0 hnew rfl
  simp only [QueueManager.AddToQueue, QueueManager.GetQueueInfo, hpos]
  simp

/-- C16 at a concrete queue: `c` is enqueued into a queue that holds `a` and `b`. -/
theorem addToQueue_position_witness :
    (queueAB.AddToQueue "c" infoA 3).1 = (queueAB.queue.length : Int) + 1 ∧
    (queueAB.AddToQueue "c" infoA 3).2.queue.take queueAB.queue.length = queueAB.queue ∧
    (queueAB.AddToQueue "c" infoA 3).2.GetQueueInfo "c" =
      ((queueAB.queue.length : Int) + 1, (queueAB.queue.length : Int) + 1, false) :=
  addToQueue_position queueAB "c" infoA 3 (by decide)


theorem getQueueInfo_cases (qm : QueueManager) (account : String) :
    ((qm.GetQueueInfo account).2.2 = true ↔ ∀ item ∈ qm.queue, item.Account ≠ account) ∧
    ((qm.GetQueueInfo account).2.2 = false →
      (qm.GetQueueInfo account).2.1 = (qm.queue.length : Int) ∧
      1 ≤ (qm.GetQueueInfo account).1 ∧
      (qm.GetQueueInfo account).1 ≤ (qm.GetQueueInfo account).2.1 ∧
      (∃ item : QueueItem,
        qm.queue[((qm.GetQueueInfo account).1 - 1).toNat]? = some item ∧
        item.Account = account) ∧
      (∀ (j : Nat) (item : QueueItem), (j : Int) < (qm.GetQueueInfo account).1 - 1 →
        qm.queue[j]? = some item → item.Account ≠ account)) := by
  unfold QueueManager.GetQueueInfo
  cases hf : QueueManager.findPosition account qm.queue 0 with
  | none =>
    have hall := (findPosition_none_iff account qm.queue 0).mp hf
    simp only [true_iff, Bool.true_eq_false, false_implies, and_true]
    exact hall
  | some p =>
    obtain ⟨k, item, hp, hk, hacc, hbefore⟩ := findPosition_some account qm.queue 0 p hf
    have hklt : k < qm.queue.length := by
      by_contra hge
      rw [List.getElem?_eq_none (Nat.le_of_not_lt hge)] at hk
      cases hk
    constructor
    · simp only [Bool.false_eq_true, false_iff, not_forall]
      exact ⟨item, List.getElem?_mem hk, fun hne => hne hacc⟩
    · intro _
      have hidx : (p - 1).toNat = k := by
        rw [hp]
        push_cast
        omega
      refine ⟨rfl, ?_, ?_, ⟨item, ?_, hacc⟩, ?_⟩
      · show 1 ≤ p
        omega
      · show p ≤ (qm.queue.length : Int)
        omega
      · show qm.queue[(p - 1).toNat]? = some item
        rw [hidx]
        exact hk
      · intro j x hj hx
        have hj' : (j : Int) < p - 1 := hj
        exact hbefore j x (by omega) hx

/-- C17: `QueueManager.GetQueueInfo(account)` returns an error exactly when no
queue entry has that account; when it succeeds, `total` is the queue length,
`1 <= position <= total`, the entry at index `position - 1` has that account
and no entry at a smaller index does. -/
theorem getQueueInfo_spec (qm : QueueManager) (account : String) :
    ((qm.GetQueueInfo account).2.2 = true ↔ ∀ item ∈ qm.queue, item.Account ≠ account) ∧
    ((qm.GetQueueInfo account).2.2 = false →
      (qm.GetQueueInfo account).2.1 = (qm.queue.length : Int) ∧
      1 ≤ (qm.GetQueueInfo account).1 ∧
      (qm.GetQueueInfo account).1 ≤ (qm.GetQueueInfo account).2.1 ∧
      (∃ item : QueueItem,
        qm.queue[((qm.GetQueueInfo account).1 - 1).toNat]? = some item ∧
        item.Account = account) ∧
      (∀ (j : Nat) (item : QueueItem), (j : Int) < (qm.GetQueueInfo account).1 - 1 →
        qm.queue[j]? = some item → item.Account ≠ account)) :=
  getQueueInfo_cases qm account

/-! ## Removal from the queue -/

theorem removeFirst_of_not_mem (account : String) (l : List QueueItem)
    (h : ∀ item ∈ l, item.Account ≠ account) : QueueManager.removeFirst account l = l := by
  induction l with
  | nil => rfl
  | cons x l ih =>
    have hx : x.Account ≠ account := h x (List.mem_cons_self _ _)
    simp only [QueueManager.removeFirst, if_neg hx]
    rw [ih (fun y hy => h y (List.mem_cons_of_mem _ hy))]

theorem removeFirst_eq_eraseIdx (account : String) (l : List QueueItem) (i : Nat)
    (item : QueueItem) (hi : l[i]? = some item) (hacc : item.Account = account)
    (hbefore : ∀ (j : Nat) (x : QueueItem), j < i → l[j]? = some x → x.Account ≠ account) :
    QueueManager.removeFirst account l = l.eraseIdx i := by
  induction l generalizing i with
  | nil => simp at hi
  | cons x l ih =>
    cases i with
    | zero =>
      simp only [List.getElem?_cons_zero, Option.some.injEq] at hi
      have hx : x.Account = account := by rw [hi]; exact hacc
      simp [QueueManager.removeFirst, hx]
    | succ i =>
      have hx : x.Account ≠ account := hbefore 0 x (Nat.succ_pos i) (by simp)
      simp only [List.getElem?_cons_succ] at hi
      simp only [QueueManager.removeFirst, if_neg hx, List.eraseIdx_cons_succ]
      rw [ih i hi (fun j y hj hy => hbefore (j + 1) y (by omega) (by simpa using hy))]

theorem removeFirst_sublist (account : String) (l : List QueueItem) :
    (QueueManager.removeFirst account l).Sublist l := by
  induction l with
  | nil => exact List.Sublist.refl _
  | cons x l ih =>
    simp only [QueueManager.removeFirst]
    split_ifs
    · exact List.sublist_cons_self x l
    · exact ih.cons₂ x

/-- C19 (queue removal): when account `a` appears exactly once in the queue,
at index `i`, `RemoveFromQueue(a)` yields the queue with that entry deleted:
the length drops by one, the remaining entries keep their relative order,
entries before `i` keep their index, entries after `i` move up by one, and
`GetQueueInfo(a)` then fails; when `a` is not in the queue, the queue is
unchanged. -/
theorem removeFromQueue_spec (qm : QueueManager) (account : String) :
    (∀ (i : Nat) (item : QueueItem), qm.queue[i]? = some item → item.Account = account →
      (∀ (j : Nat) (x : QueueItem), qm.queue[j]? = some x → x.Account = account → j = i) →
      (qm.RemoveFromQueue account).queue = qm.queue.eraseIdx i ∧
      (qm.RemoveFromQueue account).queue.length + 1 = qm.queue.length ∧
      (qm.RemoveFromQueue account).queue.Sublist qm.queue ∧
      (∀ j : Nat, j < i → (qm.RemoveFromQueue account).queue[j]? = qm.queue[j]?) ∧
      (∀ j : Nat, i ≤ j → (qm.RemoveFromQueue account).queue[j]? = qm.queue[j + 1]?) ∧
      ((qm.RemoveFromQueue account).GetQueueInfo account).2.2 = true) ∧
    ((∀ item ∈ qm.queue, item.Account ≠ account) → qm.RemoveFromQueue account = qm) := by
  constructor
  · intro i item hi hacc honce
    have hilt : i < qm.queue.length := by
      by_contra hge
      rw [List.getElem?_eq_none (Nat.le_of_not_lt hge)] at hi
      cases hi
    have herase : (qm.RemoveFromQueue account).queue = qm.queue.eraseIdx i := by
      simp only [QueueManager.RemoveFromQueue]
      exact removeFirst_eq_eraseIdx account qm.queue i item hi hacc
        (fun j x hj hx hxa => by
          have := honce j x hx hxa
          omega)
    have hlow : ∀ j : Nat, j < i → (qm.queue.eraseIdx i)[j]? = qm.queue[j]? :=
      fun j hj => List.getElem?_eraseIdx_of_lt _ _ _ hj
    have hhigh : ∀ j : Nat, i ≤ j → (qm.queue.eraseIdx i)[j]? = qm.queue[j + 1]? :=
      fun j hj => List.getElem?_eraseIdx_of_ge _ _ _ hj
    refine ⟨herase, ?_, ?_, ?_, ?_, ?_⟩
    · rw [herase, List.length_eraseIdx, if_pos hilt]
      omega
    · rw [herase]
      exact List.eraseIdx_sublist _ _
    · intro j hj
      rw [herase]
      exact hlow j hj
    · intro j hj
      rw [herase]
      exact hhigh j hj
    · apply (getQueueInfo_cases (qm.RemoveFromQueue account) account).1.mpr
      intro x hx hxa
      rw [herase] at hx
      obtain ⟨j, hjx⟩ := List.getElem?_of_mem hx
      by_cases hj : j < i
      · rw [hlow j hj] at hjx
        have := honce j x hjx hxa
        omega
      · rw [hhigh j (Nat.le_of_not_lt hj)] at hjx
        have := honce (j + 1) x hjx hxa
        omega
  · intro hnot
    cases qm with
    | mk queue =>
      simp only [QueueManager.RemoveFromQueue]
      rw [removeFirst_of_not_mem account queue hnot]

/-- C19 at a concrete queue: `a` is removed from the queue that holds `a` at
index 0 and `b` at index 1, and `c`, which is not queued, is removed from it. -/
theorem removeFromQueue_spec_witness :
    ((queueAB.RemoveFromQueue "a").queue = queueAB.queue.eraseIdx 0 ∧
      (queueAB.RemoveFromQueue "a").queue.length + 1 = queueAB.queue.length ∧
      (queueAB.RemoveFromQueue "a").queue.Sublist queueAB.queue ∧
      (∀ j : Nat, j < 0 → (queueAB.RemoveFromQueue "a").queue[j]? = queueAB.queue[j]?) ∧
      (∀ j : Nat, 0 ≤ j → (queueAB.RemoveFromQueue "a").queue[j]? = queueAB.queue[j + 1]?) ∧
      ((queueAB.RemoveFromQueue "a").GetQueueInfo "a").2.2 = true) ∧
    queueAB.RemoveFromQueue "c" = queueAB :=
  ⟨(removeFromQueue_spec queueAB "a").1 0 { Account := "a", PlayerInfo := infoA, JoinTime := 1 }
      rfl rfl (by
        intro j x hx hxa
        match j, hx with
        | 0, _ => rfl
        | 1, hx =>
          simp only [queueAB, List.getElem?_cons_succ, List.getElem?_cons_zero,
            Option.some.injEq] at hx
          rw [← hx] at hxa
          exact absurd hxa (by decide)
        | j + 2, hx => simp [queueAB] at hx),
   (removeFromQueue_spec queueAB "c").2 (by decide)⟩


/-! ## The queue is ordered by join time -/

theorem runQueue_append (qm : QueueManager) (ops : List QueueOp) (op : QueueOp) :
    runQueue qm (ops ++ [op]) = (runQueue qm ops).apply op := by
  simp [runQueue, List.foldl_append]

theorem queue_sorted_run (ops : List QueueOp) :
    ClockNonDecreasing ops →
      (runQueue NewQueueManager ops).queue.Pairwise (fun a b => a.JoinTime ≤ b.JoinTime) ∧
      ∀ item ∈ (runQueue NewQueueManager ops).queue, item.JoinTime ∈ clockReadings ops := by
  induction ops using List.reverseRecOn with
  | nil =>
    intro _
    simp [runQueue, NewQueueManager]
  | append_singleton ops op ih =>
    intro hclock
    rw [runQueue_append]
    cases op with
    | AddToQueue account playerInfo now =>
      have hread : clockReadings (ops ++ [QueueOp.AddToQueue account playerInfo now]) =
          clockReadings ops ++ [now] := by
        simp [clockReadings, List.filterMap_append]
      rw [hread]
      unfold ClockNonDecreasing at hclock
      rw [hread, List.pairwise_append] at hclock
      obtain ⟨hprev, _, hle⟩ := hclock
      obtain ⟨hsorted, hmem⟩ := ih hprev
      simp only [QueueManager.apply, QueueManager.AddToQueue]
      constructor
      · rw [List.pairwise_append]
        refine ⟨hsorted, List.pairwise_singleton _ _, ?_⟩
        intro x hx y hy
        rw [List.mem_singleton] at hy
        rw [hy]
        exact hle _ (hmem x hx) now (List.mem_singleton_self now)
      · intro item hitem
        rw [List.mem_append] at hitem ⊢
        rcases hitem with hitem | hitem
        · exact Or.inl (hmem item hitem)
        · rw [List.mem_singleton] at hitem
          rw [hitem]
          exact Or.inr (List.mem_singleton_self now)
    | RemoveFromQueue account =>
      have hread : clockReadings (ops ++ [QueueOp.RemoveFromQueue account]) =
          clockReadings ops := by
        simp [clockReadings, List.filterMap_append]
      rw [hread]
      unfold ClockNonDecreasing at hclock
      rw [hread] at hclock
      obtain ⟨hsorted, hmem⟩ := ih hclock
      simp only [QueueManager.apply, QueueManager.RemoveFromQueue]
      have hsub := removeFirst_sublist account (runQueue NewQueueManager ops).queue
      exact ⟨hsorted.sublist hsub, fun item hitem => hmem item (hsub.subset hitem)⟩

theorem queue_index_order (ops : List QueueOp) (hclock : ClockNonDecreasing ops) :
    (runQueue NewQueueManager ops).queue.Pairwise (fun a b => a.JoinTime ≤ b.JoinTime) ∧
    ∀ (i j : Nat) (a b : QueueItem),
      (runQueue NewQueueManager ops).queue[i]? = some a →
      (runQueue NewQueueManager ops).queue[j]? = some b →
      a.JoinTime < b.JoinTime → i < j := by
  have hsorted := (queue_sorted_run ops hclock).1
  refine ⟨hsorted, ?_⟩
  intro i j a b ha hb hlt
  by_contra hnot
  obtain ⟨hi, hai⟩ := List.getElem?_eq_some.mp ha
  obtain ⟨hj, hbj⟩ := List.getElem?_eq_some.mp hb
  rcases Nat.lt_or_ge j i with hji | hji
  · have := List.pairwise_iff_getElem.mp hsorted j i hj hi hji
    rw [hai, hbj] at this
    exact absurd hlt (Int.not_lt.mpr this)
  · have hij : i = j := by omega
    subst hij
    rw [hai] at hbj
    rw [hbj] at hlt
    exact Int.lt_irrefl _ hlt

theorem findPosition_first (account : String) (l : List QueueItem) :
    ∀ (s i : Nat) (item : QueueItem), l[i]? = some item → item.Account = account →
      (∀ (k : Nat) (c : QueueItem), k < i → l[k]? = some c → c.Account ≠ account) →
      QueueManager.findPosition account l s = some ((s : Int) + i + 1) := by
  induction l with
  | nil =>
    intro s i item h
    simp at h
  | cons x l ih =>
    intro s i item h hacc hfirst
    cases i with
    | zero =>
      simp only [List.getElem?_cons_zero, Option.some.injEq] at h
      subst h
      simp [QueueManager.findPosition, hacc]
    | succ i =>
      have hx : x.Account ≠ account := hfirst 0 x (Nat.succ_pos i) (by simp)
      simp only [List.getElem?_cons_succ] at h
      simp only [QueueManager.findPosition, if_neg hx]
      rw [ih (s + 1) i item h hacc
        (fun k c hk hc => hfirst (k + 1) c (by omega) (by simpa using hc))]
      congr 1
      push_cast
      omega

theorem getQueueInfo_first (qm : QueueManager) (i : Nat) (a : QueueItem)
    (ha : qm.queue[i]? = some a)
    (hfirst : ∀ (k : Nat) (c : QueueItem), k < i → qm.queue[k]? = some c →
      c.Account ≠ a.Account) :
    qm.GetQueueInfo a.Account = ((i : Int) + 1, (qm.queue.length : Int), false) := by
  have h := findPosition_first a.Account qm.queue 0 i a ha rfl hfirst
  simp only [QueueManager.GetQueueInfo, h]
  simp

theorem opsBAB_state :
    ClockNonDecreasing opsBAB ∧
    (runQueue NewQueueManager opsBAB).queue =
      [{ Account := "b", PlayerInfo := infoB, JoinTime := 1 },
       { Account := "a", PlayerInfo := infoA, JoinTime := 2 },
       { Account := "b", PlayerInfo := infoB, JoinTime := 3 }] ∧
    (runQueue NewQueueManager opsBAB).GetQueueInfo "a" = (2, 3, false) ∧
    (runQueue NewQueueManager opsBAB).GetQueueInfo "b" = (1, 3, false) := by
  refine ⟨?_, rfl, rfl, rfl⟩
  simp [ClockNonDecreasing, clockReadings, opsBAB]

/-- C18, as stated, fails: `b` joins the queue at time 1, `a` at time 2 and `b`
once more at time 3, under a non-decreasing clock. The queue then holds the
entry of `a` with `JoinTime` 2 and an entry of `b` with `JoinTime` 3, but
`GetQueueInfo` reports position 2 for `a` and position 1 for `b`: the entry
that joined earlier has the larger position. -/
theorem duplicate_entry_breaks_fifo :
    ClockNonDecreasing opsBAB ∧
    (runQueue NewQueueManager opsBAB).queue =
      [{ Account := "b", PlayerInfo := infoB, JoinTime := 1 },
       { Account := "a", PlayerInfo := infoA, JoinTime := 2 },
       { Account := "b", PlayerInfo := infoB, JoinTime := 3 }] ∧
    (runQueue NewQueueManager opsBAB).GetQueueInfo "a" = (2, 3, false) ∧
    (runQueue NewQueueManager opsBAB).GetQueueInfo "b" = (1, 3, false) ∧
    ¬ (∀ (a b : QueueItem), a ∈ (runQueue NewQueueManager opsBAB).queue →
        b ∈ (runQueue NewQueueManager opsBAB).queue → a.JoinTime < b.JoinTime →
        ((runQueue NewQueueManager opsBAB).GetQueueInfo a.Account).1 <
          ((runQueue NewQueueManager opsBAB).GetQueueInfo b.Account).1) := by
  refine ⟨opsBAB_state.1, opsBAB_state.2.1, opsBAB_state.2.2.1, opsBAB_state.2.2.2, ?_⟩
  intro h
  have h1 := h { Account := "a", PlayerInfo := infoA, JoinTime := 2 }
    { Account := "b", PlayerInfo := infoB, JoinTime := 3 }
    (by rw [opsBAB_state.2.1]; simp) (by rw [opsBAB_state.2.1]; simp) (by decide)
  rw [opsBAB_state.2.2.1, opsBAB_state.2.2.2] at h1
  exact absurd h1 (by decide)

/-- C18, amended (queue FIFO): in every queue reached from the empty queue by
`AddToQueue` and `RemoveFromQueue` calls made under a non-decreasing clock, the
entries are ordered by `JoinTime`, and of two queued entries the one with the
strictly smaller `JoinTime` stands at the strictly smaller index. When each of
the two is the first entry of its account, `GetQueueInfo` succeeds for both
accounts, reports the index plus one, and so reports the strictly smaller
position for the entry with the strictly smaller `JoinTime`. -/
theorem queue_fifo_first_entries (ops : List QueueOp) (hclock : ClockNonDecreasing ops) :
    (runQueue NewQueueManager ops).queue.Pairwise (fun a b => a.JoinTime ≤ b.JoinTime) ∧
    ∀ (i j : Nat) (a b : QueueItem),
      (runQueue NewQueueManager ops).queue[i]? = some a →
      (runQueue NewQueueManager ops).queue[j]? = some b →
      a.JoinTime < b.JoinTime →
      i < j ∧
      ((∀ (k : Nat) (c : QueueItem), k < i →
          (runQueue NewQueueManager ops).queue[k]? = some c → c.Account ≠ a.Account) →
       (∀ (k : Nat) (c : QueueItem), k < j →
          (runQueue NewQueueManager ops).queue[k]? = some c → c.Account ≠ b.Account) →
        ((runQueue NewQueueManager ops).GetQueueInfo a.Account).2.2 = false ∧
        ((runQueue NewQueueManager ops).GetQueueInfo b.Account).2.2 = false ∧
        ((runQueue NewQueueManager ops).GetQueueInfo a.Account).1 = (i : Int) + 1 ∧
        ((runQueue NewQueueManager ops).GetQueueInfo b.Account).1 = (j : Int) + 1 ∧
        ((runQueue NewQueueManager ops).GetQueueInfo a.Account).1 <
          ((runQueue NewQueueManager ops).GetQueueInfo b.Account).1) := by
  have hfifo := queue_index_order ops hclock
  refine ⟨hfifo.1, ?_⟩
  intro i j a b ha hb hlt
  have hij := hfifo.2 i j a b ha hb hlt
  refine ⟨hij, ?_⟩
  intro hfa hfb
  rw [getQueueInfo_first _ i a ha hfa, getQueueInfo_first _ j b hb hfb]
  refine ⟨rfl, rfl, rfl, rfl, ?_⟩
  show (i : Int) + 1 < (j : Int) + 1
  omega

/-- The amended C18 at a concrete queue: `b` joins at 1, `a` at 2 and `b` once
more at 3. The first entry of `b` (index 0, `JoinTime` 1) and the entry of `a`
(index 1, `JoinTime` 2) are compared: `GetQueueInfo` reports position 1 for
`b` and position 2 for `a`. -/
theorem queue_fifo_first_entries_witness :
    ClockNonDecreasing opsBAB ∧
    (runQueue NewQueueManager opsBAB).queue[0]? =
      some { Account := "b", PlayerInfo := infoB, JoinTime := 1 } ∧
    (runQueue NewQueueManager opsBAB).queue[1]? =
      some { Account := "a", PlayerInfo := infoA, JoinTime := 2 } ∧
    ((runQueue NewQueueManager opsBAB).GetQueueInfo "b").2.2 = false ∧
    ((runQueue NewQueueManager opsBAB).GetQueueInfo "a").2.2 = false ∧
    ((runQueue NewQueueManager opsBAB).GetQueueInfo "b").1 = 1 ∧
    ((runQueue NewQueueManager opsBAB).GetQueueInfo "a").1 = 2 ∧
    ((runQueue NewQueueManager opsBAB).GetQueueInfo "b").1 <
      ((runQueue NewQueueManager opsBAB).GetQueueInfo "a").1 :=
  ⟨by simp [ClockNonDecreasing, clockReadings, opsBAB], rfl, rfl,
    ((queue_fifo_first_entries opsBAB
      (by simp [ClockNonDecreasing, clockReadings, opsBAB])).2 0 1
      { Account := "b", PlayerInfo := infoB, JoinTime := 1 }
      { Account := "a", PlayerInfo := infoA, JoinTime := 2 } rfl rfl (by decide)).2
      (fun k c hk _ => absurd hk (Nat.not_lt_zero k))
      (fun k c hk hc => by
        have hk0 : k = 0 := by omega
        subst hk0
        have hc2 : c = { Account := "b", PlayerInfo := infoB, JoinTime := 1 } :=
          (Option.some.inj hc).symm
        rw [hc2]
        decide)⟩

/-! ## Polling the queue -/

set_option maxRecDepth 100000 in
theorem queuedLogin_poll_state :
    ((run NewLoginServer fillCalls).Login reqB (envAt 100)).1.Code = codes.OK ∧
    ((run NewLoginServer fillCalls).Login reqB (envAt 100)).1.QueuePosition = 1 ∧
    ((run NewLoginServer fillCalls).Login reqB (envAt 100)).1.Token = "" ∧
    inQueue ((run NewLoginServer fillCalls).Login reqB (envAt 100)).2 "b" = true ∧
    (((run NewLoginServer fillCalls).Login reqB (envAt 100)).2.GetQueueInfo
      { Token := ((run NewLoginServer fillCalls).Login reqB (envAt 100)).1.Token }).1.Code =
      codes.Unauthorized := by
  decide

/-- C20 (a queued caller can poll its position), evaluated where it fails:
with the registry filled by `u0`, ..., `u99`, the `Login` of `b` is queued at
position 1 and its response carries the empty token; `b` is in the queue, but
`GetQueueInfo` called with the token of that response returns Unauthorized,
not OK with position 1. -/
theorem queued_login_cannot_poll :
    ((run NewLoginServer fillCalls).Login reqB (envAt 100)).1.Code = codes.OK ∧
    ((run NewLoginServer fillCalls).Login reqB (envAt 100)).1.QueuePosition = 1 ∧
    ((run NewLoginServer fillCalls).Login reqB (envAt 100)).1.Token = "" ∧
    inQueue ((run NewLoginServer fillCalls).Login reqB (envAt 100)).2 "b" = true ∧
    (((run NewLoginServer fillCalls).Login reqB (envAt 100)).2.GetQueueInfo
      { Token := ((run NewLoginServer fillCalls).Login reqB (envAt 100)).1.Token }).1.Code =
      codes.Unauthorized :=
  queuedLogin_poll_state


/-! ## The queue is never drained by the service -/

theorem step_queue_grows (s : LoginServer) (c : Call) :
    ∃ added : List QueueItem,
      (step s c).queueManager.queue = s.queueManager.queue ++ added := by
  cases c with
  | Login req env =>
    by_cases hv : req.Account = "" ∨ req.Password = ""
    · exact ⟨[], by simp [step, LoginServer.Login, hv]⟩
    · have ha : req.Account ≠ "" := fun e => hv (Or.inl e)
      have hp : req.Password ≠ "" := fun e => hv (Or.inr e)
      by_cases hc : 100 ≤ s.playerManager.GetOnlineCount.val
      · simp only [step, login_queued s req env ha hp hc]
        exact ⟨_, rfl⟩
      · simp only [step, login_admitted s req env ha hp (by omega)]
        exact ⟨[], by simp⟩
  | Reconnect req now =>
    refine ⟨[], ?_⟩
    simp only [step, LoginServer.Reconnect, List.append_nil]
    split
    · rfl
    · split_ifs <;> rfl
  | KickPlayer req =>
    refine ⟨[], ?_⟩
    simp only [step, LoginServer.KickPlayer, List.append_nil]
    split <;> rfl
  | GetQueueInfo req =>
    refine ⟨[], ?_⟩
    simp only [step, LoginServer.GetQueueInfo, List.append_nil]
    split
    · rfl
    · split_ifs <;> rfl

/-- C27 (the queue never drains through the service): over every sequence of
`Login`, `Reconnect`, `KickPlayer` and `GetQueueInfo` calls, from every state,
the admission queue after the calls is the queue before them with entries
appended at the back; so every entry keeps its position and the queue length
does not decrease. -/
theorem queue_only_grows (s : LoginServer) (calls : List Call) :
    (∃ added : List QueueItem,
      (run s calls).queueManager.queue = s.queueManager.queue ++ added) ∧
    (∀ (i : Nat) (item : QueueItem), s.queueManager.queue[i]? = some item →
      (run s calls).queueManager.queue[i]? = some item) ∧
    s.queueManager.queue.length ≤ (run s calls).queueManager.queue.length := by
  have hgrow : ∃ added : List QueueItem,
      (run s calls).queueManager.queue = s.queueManager.queue ++ added := by
    induction calls generalizing s with
    | nil => exact ⟨[], by simp [run]⟩
    | cons c cs ih =>
      obtain ⟨a1, h1⟩ := step_queue_grows s c
      obtain ⟨a2, h2⟩ := ih (step s c)
      refine ⟨a1 ++ a2, ?_⟩
      have hrun : run s (c :: cs) = run (step s c) cs := rfl
      rw [hrun, h2, h1, List.append_assoc]
  obtain ⟨added, hadd⟩ := hgrow
  refine ⟨⟨added, hadd⟩, ?_, ?_⟩
  · intro i item hi
    rw [hadd]
    have hlt : i < s.queueManager.queue.length := by
      by_contra hge
      rw [List.getElem?_eq_none (Nat.le_of_not_lt hge)] at hi
      cases hi
    rw [List.getElem?_append_left hlt]
    exact hi
  · rw [hadd, List.length_append]
    exact Nat.le_add_right _ _

/-! ## The background goroutine does not promote -/

set_option maxRecDepth 100000 in
theorem queuedThenKick_state :
    (run NewLoginServer queuedThenKick).playerManager.GetOnlineCount.val = 99 ∧
    (run NewLoginServer queuedThenKick).queueManager.queue = [itemB] ∧
    (run NewLoginServer queuedThenKick).tick.queueManager.queue = [itemB] ∧
    (run NewLoginServer queuedThenKick).tick.playerManager.IsOnline "b" = false ∧
    (run NewLoginServer queuedThenKick).tick.playerManager.GetOnlineCount.val = 99 := by
  decide

/-- C23 (queue promotion), evaluated where it fails: the registry is filled,
`b` is queued and `u0` is kicked, so the online count is 99 and the queue holds
the entry of `b`; after an iteration of the background goroutine the entry of
`b` is still in the queue, `b` has no Session and the online count is still 99. -/
theorem tick_does_not_promote :
    (run NewLoginServer queuedThenKick).playerManager.GetOnlineCount.val = 99 ∧
    (run NewLoginServer queuedThenKick).queueManager.queue = [itemB] ∧
    (run NewLoginServer queuedThenKick).tick.queueManager.queue = [itemB] ∧
    (run NewLoginServer queuedThenKick).tick.playerManager.IsOnline "b" = false ∧
    (run NewLoginServer queuedThenKick).tick.playerManager.GetOnlineCount.val = 99 :=
  queuedThenKick_state


/-! ## The estimate reported by GetQueueInfo -/

theorem run_replicate_queued (n : Nat) :
    ∀ (s : LoginServer) (req : LoginRequest) (env : LoginEnv),
      req.Account ≠ "" → req.Password ≠ "" → 100 ≤ s.playerManager.GetOnlineCount.val →
      run s (List.replicate n (Call.Login req env)) =
        { s with
          queueManager :=
            { queue := s.queueManager.queue ++ List.replicate n
                { Account := req.Account
                  PlayerInfo := { Id := "player_" ++ req.Account,
                                  Nickname := "Player_" ++ req.Account,
                                  Level := 1, Exp := 0, VipLevel := 0, Items := [1001, 1002] }
                  JoinTime := env.now1 } } } := by
  induction n with
  | zero =>
    intro s req env _ _ _
    simp [run]
  | succ n ih =>
    intro s req env ha hp hc
    have hrun : run s (List.replicate (n + 1) (Call.Login req env)) =
        run (s.Login req env).2 (List.replicate n (Call.Login req env)) := rfl
    have hq := login_queued s req env ha hp hc
    rewrite [hrun, ih (s.Login req env).2 req env ha hp (by rw [hq]; exact hc), hq]
    simp only [List.replicate_succ, List.append_assoc, List.singleton_append]

set_option maxRecDepth 100000 in
theorem fillCalls_u0 :
    (run NewLoginServer fillCalls).playerManager.GetPlayerByToken reqPollU0.Token = some 0 ∧
    ((run NewLoginServer fillCalls).heap.deref 0).Account = "u0" := by
  decide


theorem run_queued_then_login (n : Nat) (s : LoginServer) (req1 req2 : LoginRequest)
    (env1 env2 : LoginEnv) (ha1 : req1.Account ≠ "") (hp1 : req1.Password ≠ "")
    (ha2 : req2.Account ≠ "") (hp2 : req2.Password ≠ "")
    (hc : 100 ≤ s.playerManager.GetOnlineCount.val) :
    run s (List.replicate n (Call.Login req1 env1) ++ [Call.Login req2 env2]) =
      { s with
        queueManager :=
          { queue := s.queueManager.queue ++ List.replicate n
              { Account := req1.Account
                PlayerInfo := { Id := "player_" ++ req1.Account,
                                Nickname := "Player_" ++ req1.Account,
                                Level := 1, Exp := 0, VipLevel := 0, Items := [1001, 1002] }
                JoinTime := env1.now1 } ++
              [{ Account := req2.Account
                 PlayerInfo := { Id := "player_" ++ req2.Account,
                                 Nickname := "Player_" ++ req2.Account,
                                 Level := 1, Exp := 0, VipLevel := 0, Items := [1001, 1002] }
                 JoinTime := env2.now1 }] } } := by
  rw [run_append, run_replicate_queued n s req1 env1 ha1 hp1 hc]
  have hstep : ∀ t : LoginServer, run t [Call.Login req2 env2] = (t.Login req2 env2).2 :=
    fun _ => rfl
  rw [hstep, login_queued _ req2 env2 ha2 hp2 (by exact hc)]

theorem longPoll_state :
    run NewLoginServer longPollCalls =
      { run NewLoginServer fillCalls with
        queueManager := { queue := List.replicate 429496729 itemB ++ [itemU0] } } := by
  have hfill := fillCalls_state
  have hc : 100 ≤ (run NewLoginServer fillCalls).playerManager.GetOnlineCount.val := by
    rw [hfill.1]
  have h1 := run_queued_then_login 429496729 (run NewLoginServer fillCalls) reqB (reqU 0)
    (envAt 100) (envAt 101) (by decide) (by decide) (by decide) (by decide) hc
  have hB : ({ Account := reqB.Account
               PlayerInfo := { Id := "player_" ++ reqB.Account,
                               Nickname := "Player_" ++ reqB.Account,
                               Level := 1, Exp := 0, VipLevel := 0, Items := [1001, 1002] }
               JoinTime := (envAt 100).now1 } : QueueItem) = itemB := by decide
  have hU : ({ Account := (reqU 0).Account
               PlayerInfo := { Id := "player_" ++ (reqU 0).Account,
                               Nickname := "Player_" ++ (reqU 0).Account,
                               Level := 1, Exp := 0, VipLevel := 0, Items := [1001, 1002] }
               JoinTime := (envAt 101).now1 } : QueueItem) = itemU0 := by decide
  rewrite [hB, hU, hfill.2, List.nil_append] at h1
  unfold longPollCalls
  rewrite [run_append]
  exact h1

theorem getQueueInfo_resp (s : LoginServer) (req : QueueInfoRequest) (player : Ptr)
    (hg : s.playerManager.GetPlayerByToken req.Token = some player) :
    s.GetQueueInfo req =
      if (s.queueManager.GetQueueInfo (s.heap.deref player).Account).2.2 = true then
        ({ Code := codes.NotFound, Message := "您不在排队队列中" }, s)
      else
        ({ Code := codes.OK, Message := "查询成功",
           Position := toInt32 (s.queueManager.GetQueueInfo (s.heap.deref player).Account).1,
           Total := toInt32 (s.queueManager.GetQueueInfo (s.heap.deref player).Account).2.1,
           EstimatedTime := toInt32 (wrapInt64
            ((s.queueManager.GetQueueInfo (s.heap.deref player).Account).1 * 5)) }, s) := by
  simp only [LoginServer.GetQueueInfo, hg]

theorem longPoll_position :
    QueueManager.findPosition "u0" (List.replicate 429496729 itemB ++ [itemU0]) 0 =
      some 429496730 := by
  have h := findPosition_append_new "u0" (List.replicate 429496729 itemB) itemU0 0
    (by
      intro x hx
      rw [List.eq_of_mem_replicate hx]
      decide)
    rfl
  rewrite [h, List.length_replicate]
  exact rfl

/-- C21, as stated, fails: the registry is filled, `b` is queued `429496729`
times and then `u0`, still online, is queued at position `429496730`;
`GetQueueInfo` with the token of `u0` returns OK with `Position = 429496730`,
but `EstimatedTime`, an `int32`, is `-2147483646`, not `Position * 5`. -/
theorem estimate_wraps_int32 :
    ((run NewLoginServer longPollCalls).GetQueueInfo reqPollU0).1.Code = codes.OK ∧
    ((run NewLoginServer longPollCalls).GetQueueInfo reqPollU0).1.Position = 429496730 ∧
    ((run NewLoginServer longPollCalls).GetQueueInfo reqPollU0).1.EstimatedTime = -2147483646 ∧
    ((run NewLoginServer longPollCalls).GetQueueInfo reqPollU0).1.EstimatedTime ≠
      ((run NewLoginServer longPollCalls).GetQueueInfo reqPollU0).1.Position * 5 := by
  have hresp : ((run NewLoginServer longPollCalls).GetQueueInfo reqPollU0).1 =
      { Code := codes.OK, Message := "查询成功", Position := toInt32 429496730,
        Total := toInt32 ((429496729 + 1 : Nat) : Int),
        EstimatedTime := toInt32 (wrapInt64 (429496730 * 5)) } := by
    rewrite [longPoll_state]
    have key : ∀ s : LoginServer,
        s.playerManager.GetPlayerByToken reqPollU0.Token = some 0 →
        (s.heap.deref 0).Account = "u0" →
        s.queueManager.queue = List.replicate 429496729 itemB ++ [itemU0] →
        (s.GetQueueInfo reqPollU0).1 =
          { Code := codes.OK, Message := "查询成功", Position := toInt32 429496730,
            Total := toInt32 ((429496729 + 1 : Nat) : Int),
            EstimatedTime := toInt32 (wrapInt64 (429496730 * 5)) } := by
      intro s htok hacc hq
      rewrite [getQueueInfo_resp s reqPollU0 0 htok, hacc]
      unfold QueueManager.GetQueueInfo
      rewrite [hq, longPoll_position, List.length_append, List.length_replicate,
        List.length_singleton]
      exact rfl
    refine key _ ?_ ?_ ?_
    · dsimp only
      exact fillCalls_u0.1
    · dsimp only
      exact fillCalls_u0.2
    · dsimp only
  rewrite [hresp]
  refine ⟨rfl, by decide, by decide, by decide⟩

/-- C21, amended: whenever the `GetQueueInfo` handler returns OK on a queue of
fewer than `2^31` entries, `1 <= Position <= Total`, and `EstimatedTime` equals
`Position` times 5 as long as `Position` is at most `429496729` (beyond that
`Position * 5` does not fit the `int32` field). -/
theorem queueInfo_estimate (s : LoginServer) (req : QueueInfoRequest)
    (hok : (s.GetQueueInfo req).1.Code = codes.OK)
    (hlen : s.queueManager.queue.length < 2147483648) :
    1 ≤ (s.GetQueueInfo req).1.Position ∧
    (s.GetQueueInfo req).1.Position ≤ (s.GetQueueInfo req).1.Total ∧
    ((s.GetQueueInfo req).1.Position ≤ 429496729 →
      (s.GetQueueInfo req).1.EstimatedTime = (s.GetQueueInfo req).1.Position * 5) := by
  cases hg : s.playerManager.GetPlayerByToken req.Token with
  | none => simp [LoginServer.GetQueueInfo, hg] at hok
  | some player =>
    rw [getQueueInfo_resp s req player hg] at hok ⊢
    have hspec := getQueueInfo_cases s.queueManager (s.heap.deref player).Account
    cases herr : (s.queueManager.GetQueueInfo (s.heap.deref player).Account).2.2 with
    | true => simp [herr] at hok
    | false =>
      obtain ⟨htot, h1, h2, _, _⟩ := hspec.2 herr
      simp only [Bool.false_eq_true, if_false]
      generalize (s.queueManager.GetQueueInfo (s.heap.deref player).Account).1 = position
        at h1 h2 ⊢
      generalize (s.queueManager.GetQueueInfo (s.heap.deref player).Account).2.1 = total
        at htot h2 ⊢
      have hp : toInt32 position = position := by
        unfold toInt32
        omega
      have ht : toInt32 total = total := by
        unfold toInt32
        omega
      refine ⟨by rw [hp]; exact h1, by rw [hp, ht]; exact h2, ?_⟩
      intro hsmall
      rw [hp] at hsmall ⊢
      unfold wrapInt64 toInt32
      omega

set_option maxRecDepth 100000 in
theorem reloginAtCapacity_poll :
    ((run NewLoginServer reloginAtCapacity).GetQueueInfo reqPollU0).1.Code = codes.OK ∧
    (run NewLoginServer reloginAtCapacity).queueManager.queue.length < 2147483648 := by
  decide

/-- The amended C21 at a concrete state: the registry is full and `u0`, still
online, has been queued at position 1. -/
theorem queueInfo_estimate_witness :
    1 ≤ ((run NewLoginServer reloginAtCapacity).GetQueueInfo reqPollU0).1.Position ∧
    ((run NewLoginServer reloginAtCapacity).GetQueueInfo reqPollU0).1.Position ≤
      ((run NewLoginServer reloginAtCapacity).GetQueueInfo reqPollU0).1.Total ∧
    (((run NewLoginServer reloginAtCapacity).GetQueueInfo reqPollU0).1.Position ≤ 429496729 →
      ((run NewLoginServer reloginAtCapacity).GetQueueInfo reqPollU0).1.EstimatedTime =
        ((run NewLoginServer reloginAtCapacity).GetQueueInfo reqPollU0).1.Position * 5) :=
  queueInfo_estimate (run NewLoginServer reloginAtCapacity) reqPollU0
    reloginAtCapacity_poll.1 reloginAtCapacity_poll.2


/-! ## Decimal numerals -/

theorem digitChar_isDigit (k : Nat) (hk : k < 10) : (Nat.digitChar k).isDigit = true := by
  interval_cases k <;> decide

theorem digitChar_value (k : Nat) (hk : k < 10) : (Nat.digitChar k).toNat - 48 = k := by
  interval_cases k <;> decide

theorem toDigitsCore_isDigit (fuel : Nat) :
    ∀ (n : Nat) (ds : List Char), (∀ c ∈ ds, c.isDigit = true) →
      ∀ c ∈ Nat.toDigitsCore 10 fuel n ds, c.isDigit = true := by
  induction fuel with
  | zero =>
    intro n ds hds c hc
    exact hds c hc
  | succ fuel ih =>
    intro n ds hds c hc
    have hd : (Nat.digitChar (n % 10)).isDigit = true :=
      digitChar_isDigit _ (Nat.mod_lt _ (by decide))
    have hds' : ∀ c ∈ Nat.digitChar (n % 10) :: ds, c.isDigit = true := by
      intro c hc
      rcases List.mem_cons.mp hc with h | h
      · rw [h]; exact hd
      · exact hds c h
    simp only [Nat.toDigitsCore] at hc
    split_ifs at hc
    · exact hds' c hc
    · exact ih _ _ hds' c hc

theorem toDigitsCore_value (fuel : Nat) :
    ∀ (n : Nat) (ds : List Char), n < fuel →
      (Nat.toDigitsCore 10 fuel n ds).foldl (fun acc c => acc * 10 + (c.toNat - 48)) 0 =
        ds.foldl (fun acc c => acc * 10 + (c.toNat - 48)) n := by
  induction fuel with
  | zero =>
    intro n ds hn
    omega
  | succ fuel ih =>
    intro n ds hn
    have hv := digitChar_value (n % 10) (Nat.mod_lt _ (by decide))
    simp only [Nat.toDigitsCore]
    split_ifs with h0
    · simp only [List.foldl_cons, hv]
      have : n % 10 = n := by omega
      rw [this]
      simp
    · have hlt : n / 10 < fuel := by omega
      rw [ih (n / 10) _ hlt]
      simp only [List.foldl_cons, hv]
      have : n / 10 * 10 + n % 10 = n := by omega
      rw [this]

theorem repr_data_isDigit (n : Nat) : ∀ c ∈ (Nat.repr n).data, c.isDigit = true := by
  intro c hc
  exact toDigitsCore_isDigit _ _ [] (by simp) c hc

theorem repr_value (n : Nat) : decimalValue (Nat.repr n).data = n := by
  have h := toDigitsCore_value (n + 1) n [] (Nat.lt_succ_self n)
  simpa [decimalValue, Nat.repr, Nat.toDigits, List.asString] using h

theorem repr_injective {m n : Nat} (h : Nat.repr m = Nat.repr n) : m = n := by
  have := congrArg (fun s => decimalValue s.data) h
  simpa [repr_value] using this

theorem toString_int_nonneg (m : Nat) : toString (Int.ofNat m) = Nat.repr m := rfl

theorem toString_int_neg (m : Nat) :
    toString (Int.negSucc m) = "-" ++ Nat.repr (Nat.succ m) := rfl

theorem toString_int_no_underscore (i : Int) : ∀ c ∈ (toString i).data, c ≠ '_' := by
  intro c hc hu
  subst hu
  cases i with
  | ofNat m =>
    rw [toString_int_nonneg] at hc
    have := repr_data_isDigit m _ hc
    exact absurd this (by decide)
  | negSucc m =>
    rw [toString_int_neg, String.data_append] at hc
    rcases List.mem_append.mp hc with h | h
    · exact absurd h (by decide)
    · have := repr_data_isDigit _ _ h
      exact absurd this (by decide)

theorem toString_int_injective {i j : Int} (h : toString i = toString j) : i = j := by
  cases i with
  | ofNat m =>
    cases j with
    | ofNat n =>
      rw [toString_int_nonneg, toString_int_nonneg] at h
      rw [repr_injective h]
    | negSucc n =>
      rw [toString_int_nonneg, toString_int_neg] at h
      have hmem : '-' ∈ (Nat.repr m).data := by
        rw [h, String.data_append]
        exact List.mem_append_left _ (by decide)
      exact absurd (repr_data_isDigit m _ hmem) (by decide)
  | negSucc m =>
    cases j with
    | ofNat n =>
      rw [toString_int_nonneg, toString_int_neg] at h
      have hmem : '-' ∈ (Nat.repr n).data := by
        rw [← h, String.data_append]
        exact List.mem_append_left _ (by decide)
      exact absurd (repr_data_isDigit n _ hmem) (by decide)
    | negSucc n =>
      rw [toString_int_neg, toString_int_neg] at h
      have hdata := congrArg String.data h
      rw [String.data_append, String.data_append] at hdata
      have hrepr : Nat.repr (Nat.succ m) = Nat.repr (Nat.succ n) :=
        String.ext (List.append_cancel_left hdata)
      have := repr_injective hrepr
      have hmn : m = n := by omega
      rw [hmn]


/-! ## Tokens -/

theorem split_at_last {c : Char} :
    ∀ (u1 u2 d1 d2 : List Char), c ∉ d1 → c ∉ d2 → u1 ++ c :: d1 = u2 ++ c :: d2 →
      u1 = u2 ∧ d1 = d2 := by
  intro u1
  induction u1 with
  | nil =>
    intro u2 d1 d2 h1 h2 h
    cases u2 with
    | nil =>
      simp only [List.nil_append, List.cons.injEq, true_and] at h
      exact ⟨rfl, h⟩
    | cons y u2 =>
      simp only [List.nil_append, List.cons_append, List.cons.injEq] at h
      exact absurd (by rw [h.2]; simp) h1
  | cons x u1 ih =>
    intro u2 d1 d2 h1 h2 h
    cases u2 with
    | nil =>
      simp only [List.nil_append, List.cons_append, List.cons.injEq] at h
      exact absurd (by rw [← h.2]; simp) h2
    | cons y u2 =>
      simp only [List.cons_append, List.cons.injEq] at h
      obtain ⟨hu, hd⟩ := ih u2 d1 d2 h1 h2 h.2
      exact ⟨by rw [h.1, hu], hd⟩

theorem randomStr_length (picks : Fin 8 → Fin 62) : (randomStr picks).data.length = 8 := by
  simp [randomStr]

theorem generateToken_data (account : String) (picks : Fin 8 → Fin 62) (now : Time) :
    (generateToken account picks now).data =
      (account.data ++ '_' :: (randomStr picks).data) ++
        '_' :: (toString (Time.UnixNano now)).data := by
  simp [generateToken, String.data_append]

theorem charset_getD_mem (k : Fin 62) : charset.getD k.val 'a' ∈ charset := by
  have hlen : charset.length = 62 := by decide
  have hk : k.val < charset.length := by rw [hlen]; exact k.isLt
  rw [List.getD_eq_getElem _ _ hk]
  exact List.getElem_mem hk

/-- C22 (token format): for every account, every random draw and every clock
value, the issued token is the account, an underscore, exactly 8 characters
each taken from the 62-character alphabet `a-z A-Z 0-9`, an underscore, and the
decimal numeral of the nanosecond timestamp `UnixNano()` (a minus sign in front
of the digits when it is negative), concatenated in that order. -/
theorem generateToken_format (account : String) (picks : Fin 8 → Fin 62) (now : Time) :
    generateToken account picks now =
      account ++ "_" ++ randomStr picks ++ "_" ++ toString (Time.UnixNano now) ∧
    (randomStr picks).data.length = 8 ∧
    (∀ c ∈ (randomStr picks).data, c ∈ charset) ∧
    charset.length = 62 ∧ charset.Nodup ∧ (∀ c ∈ charset, c.isAlphanum = true) ∧
    (∃ m : Nat, (Time.UnixNano now = (m : Int) ∨ Time.UnixNano now = -(m : Int)) ∧
      ∃ ds : List Char, (∀ c ∈ ds, c.isDigit = true) ∧ decimalValue ds = m ∧
        ((toString (Time.UnixNano now)).data = ds ∨
          (toString (Time.UnixNano now)).data = '-' :: ds)) := by
  refine ⟨rfl, randomStr_length picks, ?_, by decide, by decide, by decide, ?_⟩
  · intro c hc
    simp only [randomStr, List.mem_map] at hc
    obtain ⟨i, _, hi⟩ := hc
    rw [← hi]
    exact charset_getD_mem (picks i)
  · cases hn : Time.UnixNano now with
    | ofNat m =>
      exact ⟨m, Or.inl rfl, (Nat.repr m).data, repr_data_isDigit m, repr_value m, Or.inl rfl⟩
    | negSucc m =>
      refine ⟨m + 1, Or.inr rfl, (Nat.repr (m + 1)).data, repr_data_isDigit _, repr_value _,
        Or.inr ?_⟩
      rw [toString_int_neg, String.data_append]
      rfl

theorem generateToken_eq_imp {a1 a2 : String} {p1 p2 : Fin 8 → Fin 62} {t1 t2 : Time}
    (h : generateToken a1 p1 t1 = generateToken a2 p2 t2) :
    a1 = a2 ∧ randomStr p1 = randomStr p2 ∧ Time.UnixNano t1 = Time.UnixNano t2 := by
  have hdata := congrArg String.data h
  rw [generateToken_data, generateToken_data] at hdata
  have hno1 : '_' ∉ (toString (Time.UnixNano t1)).data :=
    fun hm => toString_int_no_underscore _ _ hm rfl
  have hno2 : '_' ∉ (toString (Time.UnixNano t2)).data :=
    fun hm => toString_int_no_underscore _ _ hm rfl
  obtain ⟨hfront, hdigits⟩ := split_at_last _ _ _ _ hno1 hno2 hdata
  have hlen : ('_' :: (randomStr p1).data).length = ('_' :: (randomStr p2).data).length := by
    rw [List.length_cons, List.length_cons, randomStr_length, randomStr_length]
  obtain ⟨hacc, hrand⟩ := List.append_inj' hfront hlen
  refine ⟨String.ext hacc, String.ext (List.cons.inj hrand).2, ?_⟩
  exact toString_int_injective (String.ext hdigits)

/-- C25 (token generation is injective): two generated tokens are equal exactly
when the accounts, the random 8-character strings and the timestamps are all
equal, whatever characters the accounts contain; hence tokens minted for
different accounts are different. -/
theorem generateToken_injective (a1 a2 : String) (p1 p2 : Fin 8 → Fin 62) (t1 t2 : Time) :
    (generateToken a1 p1 t1 = generateToken a2 p2 t2 ↔
      a1 = a2 ∧ randomStr p1 = randomStr p2 ∧ Time.UnixNano t1 = Time.UnixNano t2) ∧
    (a1 ≠ a2 → generateToken a1 p1 t1 ≠ generateToken a2 p2 t2) := by
  refine ⟨⟨generateToken_eq_imp, ?_⟩, fun hne h => hne (generateToken_eq_imp h).1⟩
  rintro ⟨ha, hr, ht⟩
  simp only [generateToken, ha, hr, ht]


/-! ## The account index and the token index -/

theorem tokenInv_new : TokenInv NewLoginServer := by
  constructor
  · intro x hx
    simp [NewLoginServer] at hx
  · intro a S h
    simp [NewLoginServer, NewPlayerManager, GoMap.get, GoMap.empty, GoMap.lookup] at h

theorem token_ne_of_account_ne {s : LoginServer} (htok : TokenInv s) {p q : Ptr}
    (hp : p < s.heap.length) (hq : q < s.heap.length)
    (hne : (s.heap.deref p).Account ≠ (s.heap.deref q).Account) :
    (s.heap.deref p).Token ≠ (s.heap.deref q).Token := by
  obtain ⟨k1, n1, h1⟩ := htok.1 _ (deref_mem _ hp)
  obtain ⟨k2, n2, h2⟩ := htok.1 _ (deref_mem _ hq)
  intro e
  rw [h1, h2] at e
  exact hne (generateToken_eq_imp e).1

theorem tokenInv_step (s : LoginServer) (c : Call) (hheap : HeapInv s) (htok : TokenInv s) :
    TokenInv (step s c) := by
  obtain ⟨hobj, hidx⟩ := htok
  obtain ⟨hA, hT, _⟩ := hheap
  cases c with
  | Login req env =>
    by_cases hv : req.Account = "" ∨ req.Password = ""
    · simp only [step, LoginServer.Login, hv, if_true]
      exact ⟨hobj, hidx⟩
    · have ha : req.Account ≠ "" := fun e => hv (Or.inl e)
      have hp : req.Password ≠ "" := fun e => hv (Or.inr e)
      by_cases hc : 100 ≤ s.playerManager.GetOnlineCount.val
      · simp only [step, login_queued s req env ha hp hc]
        exact ⟨hobj, hidx⟩
      · simp only [step, login_admitted s req env ha hp (by omega)]
        constructor
        · intro x hx
          rw [List.mem_append] at hx
          rcases hx with hx | hx
          · exact hobj x hx
          · rw [List.mem_singleton] at hx
            rw [hx]
            exact ⟨env.picks, env.now1, rfl⟩
        · intro a S hS
          by_cases hkey : a = req.Account
          · subst hkey
            rw [GoMap.get_set_same] at hS
            cases hS
            rw [deref_append_new]
            exact GoMap.get_set_same _ _ _
          · rw [GoMap.get_set_ne _ _ hkey] at hS
            obtain ⟨hlt, hacc⟩ := hA a S hS
            rw [deref_append_old _ _ hlt]
            have hne : (s.heap.deref S).Token ≠ generateToken req.Account env.picks env.now1 := by
              obtain ⟨k, n, hk⟩ := hobj _ (deref_mem _ hlt)
              intro e
              rw [hk] at e
              apply hkey
              rw [← hacc]
              exact (generateToken_eq_imp e).1
            rw [GoMap.get_set_ne _ _ hne]
            exact hidx a S hS
  | Reconnect req now =>
    simp only [step, LoginServer.Reconnect]
    cases hg : s.playerManager.GetPlayerByToken req.Token with
    | none => exact ⟨hobj, hidx⟩
    | some player =>
      have hlt : player < s.heap.length := (hT req.Token player hg).1
      dsimp only
      split_ifs
      · exact ⟨hobj, hidx⟩
      · constructor
        · intro x hx
          rcases List.mem_or_eq_of_mem_set hx with hx | hx
          · exact hobj x hx
          · rw [hx]
            exact hobj (s.heap.deref player) (deref_mem _ hlt)
        · intro a S hS
          obtain ⟨hlt2, _⟩ := hA a S hS
          have htk : (Heap.deref (s.heap.set player
              { s.heap.deref player with ReconnectTime := now }) S).Token =
              (s.heap.deref S).Token := by
            by_cases hpp : S = player
            · subst hpp
              rw [deref_set_same _ _ hlt2]
            · rw [deref_set_ne _ _ hpp]
          rw [htk]
          exact hidx a S hS
  | KickPlayer req =>
    simp only [step, LoginServer.KickPlayer]
    cases hg : s.playerManager.GetPlayerByID req.PlayerId with
    | none => exact ⟨hobj, hidx⟩
    | some player =>
      dsimp only
      unfold PlayerManager.RemovePlayer
      cases hacct : s.playerManager.playersByAccount.get (s.heap.deref player).Account with
      | none => exact ⟨hobj, hidx⟩
      | some acctPlayer =>
        refine ⟨hobj, ?_⟩
        intro a S hS
        have hS' : (s.playerManager.playersByAccount.delete (s.heap.deref player).Account).get a
            = some S := hS
        have hS0 := GoMap.get_delete_some _ hS'
        have hane : a ≠ (s.heap.deref player).Account := by
          intro e
          rw [e, GoMap.get_delete_same] at hS'
          cases hS'
        obtain ⟨hltS, haccS⟩ := hA a S hS0
        obtain ⟨hltP, haccP⟩ := hA _ acctPlayer hacct
        have hne : (s.heap.deref S).Token ≠ (s.heap.deref acctPlayer).Token :=
          token_ne_of_account_ne ⟨hobj, hidx⟩ hltS hltP (by rw [haccS, haccP]; exact hane)
        show (s.playerManager.playersByToken.delete (s.heap.deref acctPlayer).Token).get
          (s.heap.deref S).Token = some S
        rw [GoMap.get_delete_ne _ hne]
        exact hidx a S hS0
  | GetQueueInfo req =>
    simp only [step, LoginServer.GetQueueInfo]
    split
    · exact ⟨hobj, hidx⟩
    · split_ifs
      · exact ⟨hobj, hidx⟩
      · exact ⟨hobj, hidx⟩

theorem tokenInv_run (calls : List Call) :
    ∀ s : LoginServer, HeapInv s → TokenInv s → HeapInv (run s calls) ∧ TokenInv (run s calls) := by
  induction calls with
  | nil => intro s h1 h2; exact ⟨h1, h2⟩
  | cons c cs ih =>
    intro s h1 h2
    exact ih (step s c) (heapInv_step s c h1) (tokenInv_step s c h1 h2)


/-! ## Re-login and the old token -/

theorem reconnect_ok_of (s : LoginServer) (req : ReconnectRequest) (now : Time) (S : Ptr)
    (hS : s.playerManager.GetPlayerByToken req.Token = some S)
    (hd : (s.heap.deref S).DeviceID = req.DeviceId) :
    (s.Reconnect req now).1.Code = codes.OK := by
  simp [LoginServer.Reconnect, hS, hd]

theorem kick_resolved (s : LoginServer) (req : KickPlayerRequest) (S S' : Ptr)
    (hS : s.playerManager.GetPlayerByID req.PlayerId = some S)
    (hacct : s.playerManager.playersByAccount.get (s.heap.deref S).Account = some S') :
    s.KickPlayer req =
      ({ Code := codes.OK, Message := "踢出成功" },
       { s with
         playerManager :=
           { playersByAccount := s.playerManager.playersByAccount.delete (s.heap.deref S).Account
             playersByToken := s.playerManager.playersByToken.delete (s.heap.deref S').Token
             playersByID := s.playerManager.playersByID.delete (s.heap.deref S').PlayerID
             onlineCount := s.playerManager.onlineCount.dec } }) := by
  have hS2 : s.playerManager.playersByID.get req.PlayerId = some S := hS
  simp only [LoginServer.KickPlayer, PlayerManager.GetPlayerByID, hS2,
    PlayerManager.RemovePlayer, hacct]

/-- C26 (re-login keeps the old token alive): in every reachable state in
which account `a` is online with a Session `old` whose token is `t` and the
online count is below 100, a further `Login` for `a` that mints a token
different from `t` succeeds, files a new Session under `a` in the account index
and under `"player_" + a` in the player-id index, raises the online count by
one and leaves `t` in the token index pointing to `old`; `Reconnect` with `t`
and the device of `old` then returns OK, and it still does after
`KickPlayer("player_" + a)`, which removes the new Session only. -/
theorem relogin_keeps_old_token (s : LoginServer) (req : LoginRequest) (env : LoginEnv)
    (old : Ptr) (reason : String) (now1 now2 : Time) (hr : Reachable s)
    (hold : s.playerManager.GetPlayerByAccount req.Account = some old)
    (ha : req.Account ≠ "") (hp : req.Password ≠ "")
    (hc : s.playerManager.GetOnlineCount.val < 100)
    (hne : generateToken req.Account env.picks env.now1 ≠ (s.heap.deref old).Token) :
    (s.Login req env).1.Code = codes.OK ∧
    (s.Login req env).1.Token = generateToken req.Account env.picks env.now1 ∧
    (∃ new : Ptr, new ≠ old ∧
      (s.Login req env).2.playerManager.GetPlayerByAccount req.Account = some new ∧
      (s.Login req env).2.playerManager.GetPlayerByID ("player_" ++ req.Account) = some new) ∧
    (s.Login req env).2.playerManager.GetOnlineCount.val =
      s.playerManager.GetOnlineCount.val + 1 ∧
    (s.Login req env).2.playerManager.GetPlayerByToken (s.heap.deref old).Token = some old ∧
    ((s.Login req env).2.Reconnect
      { Token := (s.heap.deref old).Token, DeviceId := (s.heap.deref old).DeviceID } now1).1.Code
      = codes.OK ∧
    ((s.Login req env).2.KickPlayer
      { PlayerId := "player_" ++ req.Account, Reason := reason }).1.Code = codes.OK ∧
    ((s.Login req env).2.KickPlayer
      { PlayerId := "player_" ++ req.Account, Reason := reason }).2.playerManager.GetPlayerByToken
      (s.heap.deref old).Token = some old ∧
    (((s.Login req env).2.KickPlayer
      { PlayerId := "player_" ++ req.Account, Reason := reason }).2.Reconnect
      { Token := (s.heap.deref old).Token, DeviceId := (s.heap.deref old).DeviceID } now2).1.Code
      = codes.OK := by
  obtain ⟨calls, rfl⟩ := hr
  obtain ⟨hheap, htok⟩ := tokenInv_run calls NewLoginServer heapInv_new tokenInv_new
  generalize run NewLoginServer calls = s at hheap htok hold hc hne ⊢
  have hlt : old < s.heap.length := (hheap.1 _ _ hold).1
  have htold : s.playerManager.playersByToken.get (s.heap.deref old).Token = some old :=
    htok.2 _ _ hold
  have hlo := s.playerManager.onlineCount.property.1
  have hc2 : s.playerManager.onlineCount.val < 100 := hc
  have hw : wrapInt64 (s.playerManager.onlineCount.val + 1) = s.playerManager.onlineCount.val + 1 :=
    wrapInt64_of_range _ (by omega) (by omega)
  have hne' : (s.heap.deref old).Token ≠ generateToken req.Account env.picks env.now1 :=
    fun e => hne e.symm
  rw [login_admitted s req env ha hp hc]
  -- the state after the login
  have htok1 : (s.playerManager.playersByToken.set
      (generateToken req.Account env.picks env.now1) s.heap.length).get (s.heap.deref old).Token
      = some old := by
    rw [GoMap.get_set_ne _ _ hne']
    exact htold
  have hderef : ∀ x : Player, Heap.deref (s.heap ++ [x]) old = s.heap.deref old :=
    fun x => deref_append_old _ x hlt
  have hkick := kick_resolved
    { s with
      heap := s.heap ++ [{ Account := req.Account, PlayerID := "player_" ++ req.Account,
                           Token := generateToken req.Account env.picks env.now1,
                           DeviceID := req.DeviceId, LoginTime := env.now2 }]
      playerManager :=
        { playersByAccount := s.playerManager.playersByAccount.set req.Account s.heap.length
          playersByToken := s.playerManager.playersByToken.set
            (generateToken req.Account env.picks env.now1) s.heap.length
          playersByID := s.playerManager.playersByID.set ("player_" ++ req.Account) s.heap.length
          onlineCount := s.playerManager.onlineCount.inc } }
    { PlayerId := "player_" ++ req.Account, Reason := reason } s.heap.length s.heap.length
    (by simp [PlayerManager.GetPlayerByID, GoMap.get_set_same])
    (by simp [deref_append_new, GoMap.get_set_same])
  have htok2 : ((s.playerManager.playersByToken.set
      (generateToken req.Account env.picks env.now1) s.heap.length).delete
      (generateToken req.Account env.picks env.now1)).get (s.heap.deref old).Token
      = some old := by
    rw [GoMap.get_delete_ne _ hne']
    exact htok1
  refine ⟨rfl, rfl, ⟨s.heap.length, Nat.ne_of_gt hlt, ?_, ?_⟩, ?_, htok1, ?_, ?_, ?_, ?_⟩
  · simp [PlayerManager.GetPlayerByAccount, GoMap.get_set_same]
  · simp [PlayerManager.GetPlayerByID, GoMap.get_set_same]
  · simp only [PlayerManager.GetOnlineCount, GoInt.inc, hw]
  · exact reconnect_ok_of _ _ _ old htok1 (by rw [hderef])
  · rw [hkick]
  · rw [hkick]
    simp only [deref_append_new]
    exact htok2
  · rw [hkick]
    refine reconnect_ok_of _ _ _ old ?_ (by rw [hderef])
    simp only [deref_append_new]
    exact htok2

/-- C26 at a concrete state: account `a` is online with token `a_aaaaaaaa_1`
and logs in again at clock reading 2. -/
theorem relogin_keeps_old_token_witness :
    ((step NewLoginServer (Call.Login reqA (envAt 1))).Login reqA (envAt 2)).2.playerManager.GetPlayerByToken
      ((step NewLoginServer (Call.Login reqA (envAt 1))).heap.deref 0).Token = some 0 ∧
    ((((step NewLoginServer (Call.Login reqA (envAt 1))).Login reqA (envAt 2)).2.KickPlayer
      { PlayerId := "player_" ++ reqA.Account, Reason := "r" }).2.Reconnect
      { Token := ((step NewLoginServer (Call.Login reqA (envAt 1))).heap.deref 0).Token,
        DeviceId := ((step NewLoginServer (Call.Login reqA (envAt 1))).heap.deref 0).DeviceID }
      4).1.Code = codes.OK :=
  ⟨(relogin_keeps_old_token (step NewLoginServer (Call.Login reqA (envAt 1))) reqA (envAt 2) 0
      "r" 3 4 ⟨[Call.Login reqA (envAt 1)], rfl⟩ (by decide) (by decide) (by decide) (by decide)
      (by decide)).2.2.2.2.1,
   (relogin_keeps_old_token (step NewLoginServer (Call.Login reqA (envAt 1))) reqA (envAt 2) 0
      "r" 3 4 ⟨[Call.Login reqA (envAt 1)], rfl⟩ (by decide) (by decide) (by decide) (by decide)
      (by decide)).2.2.2.2.2.2.2.2⟩


/-! ## Tasks: the lookup loop -/

theorem findTask_some (taskID : Int) (l : List Task) (i : Nat) (t : Task)
    (h : findTask taskID l = some (i, t)) :
    l[i]? = some t ∧ t.ID = taskID ∧
      ∀ (j : Nat) (x : Task), j < i → l[j]? = some x → x.ID ≠ taskID := by
  induction l generalizing i with
  | nil => simp [findTask] at h
  | cons x l ih =>
    simp only [findTask] at h
    by_cases hx : x.ID = taskID
    · rw [if_pos hx] at h
      have h' := Option.some.inj h
      have hi : i = 0 := (congrArg Prod.fst h').symm
      have ht : t = x := (congrArg Prod.snd h').symm
      subst hi
      subst ht
      exact ⟨by simp, hx, fun j y hj => by omega⟩
    · rw [if_neg hx] at h
      cases hr : findTask taskID l with
      | none => simp [hr] at h
      | some r =>
        rw [hr] at h
        have h' := Option.some.inj h
        have hi : i = r.1 + 1 := (congrArg Prod.fst h').symm
        have ht : t = r.2 := (congrArg Prod.snd h').symm
        subst hi
        subst ht
        obtain ⟨h1, h2, h3⟩ := ih r.1 hr
        refine ⟨by simpa using h1, h2, ?_⟩
        intro j y hj hy
        cases j with
        | zero =>
          simp only [List.getElem?_cons_zero, Option.some.injEq] at hy
          rw [← hy]
          exact hx
        | succ j =>
          simp only [List.getElem?_cons_succ] at hy
          exact h3 j y (by omega) hy

theorem findTask_none_iff (taskID : Int) (l : List Task) :
    findTask taskID l = none ↔ ∀ t ∈ l, t.ID ≠ taskID := by
  induction l with
  | nil => simp [findTask]
  | cons x l ih =>
    simp only [findTask]
    by_cases hx : x.ID = taskID
    · simp [hx]
    · simp [hx, ih]

theorem findTask_of_nodup (taskID : Int) (l : List Task) (hnd : (l.map Task.ID).Nodup)
    (t : Task) (ht : t ∈ l) (hid : t.ID = taskID) : ∃ i, findTask taskID l = some (i, t) := by
  induction l with
  | nil => simp at ht
  | cons x l ih =>
    rw [List.map_cons, List.nodup_cons] at hnd
    simp only [findTask]
    rcases List.mem_cons.mp ht with hx | hx
    · subst hx
      exact ⟨0, by rw [if_pos hid]⟩
    · have hne : x.ID ≠ taskID := by
        intro e
        apply hnd.1
        rw [e, ← hid]
        exact List.mem_map_of_mem _ hx
      obtain ⟨i, hi⟩ := ih hnd.2 hx
      exact ⟨i + 1, by rw [if_neg hne, hi]; rfl⟩

/-- C28: `AcceptTask(player, taskID)`, on the task list the call starts from
(created from the templates when the player has none), succeeds exactly when
the lookup loop finds a task with id `taskID` whose `Status` is 1 and whose
`AcceptLevel` is at most 1; with pairwise distinct ids that is: the list
contains such a task. On success the state after is the state before with
`Status := 2` written into that one task (no other field, no other task, no
map and no other player changes); on failure the state is unchanged. -/
theorem acceptTask_spec (m : TaskManager) (playerID : String) (taskID : Int)
    (order : List (Int × Task)) :
    ((m.AcceptTask playerID taskID order).1 = none ↔
      ∃ (i : Nat) (t : Task),
        findTask taskID ((m.initIfAbsent playerID order).tasksOf playerID) = some (i, t) ∧
        t.Status = 1 ∧ t.AcceptLevel ≤ 1) ∧
    (∀ (i : Nat) (t : Task),
      findTask taskID ((m.initIfAbsent playerID order).tasksOf playerID) = some (i, t) →
      t.Status = 1 → t.AcceptLevel ≤ 1 →
      (m.AcceptTask playerID taskID order).2 =
        { m.initIfAbsent playerID order with
          playerTasks := (m.initIfAbsent playerID order).playerTasks.set playerID
            (((m.initIfAbsent playerID order).tasksOf playerID).set i { t with Status := 2 }) }) ∧
    ((m.AcceptTask playerID taskID order).1 ≠ none →
      (m.AcceptTask playerID taskID order).2 = m.initIfAbsent playerID order) ∧
    ((((m.initIfAbsent playerID order).tasksOf playerID).map Task.ID).Nodup →
      ((m.AcceptTask playerID taskID order).1 = none ↔
        ∃ t ∈ (m.initIfAbsent playerID order).tasksOf playerID,
          t.ID = taskID ∧ t.Status = 1 ∧ t.AcceptLevel ≤ 1)) := by
  have hmain : ((m.AcceptTask playerID taskID order).1 = none ↔
      ∃ (i : Nat) (t : Task),
        findTask taskID ((m.initIfAbsent playerID order).tasksOf playerID) = some (i, t) ∧
        t.Status = 1 ∧ t.AcceptLevel ≤ 1) := by
    cases hf : findTask taskID ((m.initIfAbsent playerID order).tasksOf playerID) with
    | none => simp [TaskManager.AcceptTask, hf]
    | some r =>
      obtain ⟨i, t⟩ := r
      by_cases hs : t.Status = 1
      · by_cases hl : 1 < t.AcceptLevel
        · have hl2 : ¬ t.AcceptLevel ≤ 1 := by omega
          simp [TaskManager.AcceptTask, hf, hs, hl, hl2]
        · have hl2 : t.AcceptLevel ≤ 1 := by omega
          simp only [TaskManager.AcceptTask, hf, hs, hl, ne_eq, not_true_eq_false, if_false,
            true_iff]
          exact ⟨i, t, rfl, hs, hl2⟩
      · simp [TaskManager.AcceptTask, hf, hs]
  refine ⟨hmain, ?_, ?_, ?_⟩
  · intro i t hf hs hl
    have hl' : ¬ 1 < t.AcceptLevel := by omega
    simp [TaskManager.AcceptTask, hf, hs, hl']
  · intro herr
    cases hf : findTask taskID ((m.initIfAbsent playerID order).tasksOf playerID) with
    | none => simp [TaskManager.AcceptTask, hf]
    | some r =>
      obtain ⟨i, t⟩ := r
      by_cases hs : t.Status = 1
      · by_cases hl : 1 < t.AcceptLevel
        · simp [TaskManager.AcceptTask, hf, hs, hl]
        · simp [TaskManager.AcceptTask, hf, hs, hl] at herr
      · simp [TaskManager.AcceptTask, hf, hs]
  · intro hnd
    rw [hmain]
    constructor
    · rintro ⟨i, t, hf, hs, hl⟩
      obtain ⟨hi, hid, _⟩ := findTask_some _ _ _ _ hf
      exact ⟨t, List.getElem?_mem hi, hid, hs, hl⟩
    · rintro ⟨t, ht, hid, hs, hl⟩
      obtain ⟨i, hi⟩ := findTask_of_nodup taskID _ hnd t ht hid
      exact ⟨i, t, hi, hs, hl⟩

/-- C29: `SubmitTask(player, taskID)`, on the task list the call starts from
(created from the templates when the player has none), succeeds exactly when
the lookup loop finds a task with id `taskID` whose `Status` is 3. On success
it returns the rewards of that task and the new list is the old one with
`Status := 4` written into that task and then, when `NextTaskID > 0` and the
lookup loop finds a task with that id, `Status := 1` written into that
follow-up task; nothing else changes. On failure the state is unchanged. -/
theorem submitTask_spec (m : TaskManager) (playerID : String) (taskID : Int)
    (order : List (Int × Task)) :
    ((∃ rewards, (m.SubmitTask playerID taskID order).1 = .ok rewards) ↔
      ∃ (i : Nat) (t : Task),
        findTask taskID ((m.initIfAbsent playerID order).tasksOf playerID) = some (i, t) ∧
        t.Status = 3) ∧
    (∀ (i : Nat) (t : Task),
      findTask taskID ((m.initIfAbsent playerID order).tasksOf playerID) = some (i, t) →
      t.Status = 3 →
      (m.SubmitTask playerID taskID order).1 = .ok t.Rewards ∧
      ((0 < t.NextTaskID →
        ∀ (j : Nat) (u : Task),
          findTask t.NextTaskID
            (((m.initIfAbsent playerID order).tasksOf playerID).set i { t with Status := 4 })
            = some (j, u) →
          (m.SubmitTask playerID taskID order).2 =
            { m.initIfAbsent playerID order with
              playerTasks := (m.initIfAbsent playerID order).playerTasks.set playerID
                ((((m.initIfAbsent playerID order).tasksOf playerID).set i
                  { t with Status := 4 }).set j { u with Status := 1 }) }) ∧
       ((t.NextTaskID ≤ 0 ∨
          findTask t.NextTaskID
            (((m.initIfAbsent playerID order).tasksOf playerID).set i { t with Status := 4 })
            = none) →
          (m.SubmitTask playerID taskID order).2 =
            { m.initIfAbsent playerID order with
              playerTasks := (m.initIfAbsent playerID order).playerTasks.set playerID
                (((m.initIfAbsent playerID order).tasksOf playerID).set i
                  { t with Status := 4 }) }))) ∧
    ((∀ rewards, (m.SubmitTask playerID taskID order).1 ≠ .ok rewards) →
      (m.SubmitTask playerID taskID order).2 = m.initIfAbsent playerID order) := by
  refine ⟨?_, ?_, ?_⟩
  · cases hf : findTask taskID ((m.initIfAbsent playerID order).tasksOf playerID) with
    | none => simp [TaskManager.SubmitTask, hf]
    | some r =>
      obtain ⟨i, t⟩ := r
      by_cases hs : t.Status = 3
      · simp only [TaskManager.SubmitTask, hf, hs, ne_eq, not_true_eq_false, if_false]
        exact ⟨fun _ => ⟨i, t, rfl, hs⟩, fun _ => ⟨_, rfl⟩⟩
      · simp [TaskManager.SubmitTask, hf, hs]
  · intro i t hf hs
    refine ⟨by simp [TaskManager.SubmitTask, hf, hs], ?_, ?_⟩
    · intro hnext j u hj
      simp [TaskManager.SubmitTask, hf, hs, hnext, hj]
    · intro hno
      rcases hno with hno | hno
      · have hnext : ¬ 0 < t.NextTaskID := by omega
        simp [TaskManager.SubmitTask, hf, hs, hnext]
      · by_cases hnext : 0 < t.NextTaskID
        · simp [TaskManager.SubmitTask, hf, hs, hnext, hno]
        · simp [TaskManager.SubmitTask, hf, hs, hnext]
  · intro herr
    cases hf : findTask taskID ((m.initIfAbsent playerID order).tasksOf playerID) with
    | none => simp [TaskManager.SubmitTask, hf]
    | some r =>
      obtain ⟨i, t⟩ := r
      by_cases hs : t.Status = 3
      · simp [TaskManager.SubmitTask, hf, hs] at herr
      · simp [TaskManager.SubmitTask, hf, hs]


/-! ## Tasks: reachable statuses -/

theorem globalTasks_entries :
    NewTaskManager.globalTasks.entries =
      [(3001, template3001), (2001, template2001), (1002, template1002),
       (1001, template1001)] := by
  rfl

theorem copyTemplates_ids (maps : MapHeap) (order : List (Int × Task)) :
    (copyTemplates maps order).2.map Task.ID = order.map (fun e => e.2.ID) := by
  induction order generalizing maps with
  | nil => rfl
  | cons e rest ih =>
    obtain ⟨k, tpl⟩ := e
    simp only [copyTemplates, List.map_cons]
    rw [ih]

theorem copyTemplates_mem (maps : MapHeap) (order : List (Int × Task)) (t : Task)
    (ht : t ∈ (copyTemplates maps order).2) :
    ∃ e ∈ order, t.ID = e.2.ID ∧ t.Status = e.2.Status ∧ t.AcceptLevel = e.2.AcceptLevel ∧
      t.NextTaskID = e.2.NextTaskID := by
  induction order generalizing maps with
  | nil => simp [copyTemplates] at ht
  | cons e rest ih =>
    obtain ⟨k, tpl⟩ := e
    simp only [copyTemplates, List.mem_cons] at ht
    rcases ht with ht | ht
    · subst ht
      exact ⟨(k, tpl), List.mem_cons_self _ _, rfl, rfl, rfl, rfl⟩
    · obtain ⟨e, he, h⟩ := ih _ ht
      exact ⟨e, List.mem_cons_of_mem _ he, h⟩

theorem markSamples_ids (maps : MapHeap) (l : List Task) :
    (markSamples maps l).2.map Task.ID = l.map Task.ID := by
  induction l generalizing maps with
  | nil => rfl
  | cons t rest ih =>
    simp only [markSamples, List.map_cons]
    rw [ih]
    congr 1
    by_cases h1 : t.ID = 1001
    · have h2 : ¬ (1001 : Int) = 2001 := by decide
      simp [h1, h2]
    · by_cases h2 : t.ID = 2001
      · simp [h1, h2]
      · simp [h1, h2]

theorem markSamples_mem (maps : MapHeap) (l : List Task) (t : Task)
    (ht : t ∈ (markSamples maps l).2) :
    ∃ t0 ∈ l, t.ID = t0.ID ∧ t.AcceptLevel = t0.AcceptLevel ∧ t.NextTaskID = t0.NextTaskID ∧
      t.Status = (if t0.ID = 2001 then 2 else if t0.ID = 1001 then 3 else t0.Status) := by
  induction l generalizing maps with
  | nil => simp [markSamples] at ht
  | cons x rest ih =>
    simp only [markSamples, List.mem_cons] at ht
    rcases ht with ht | ht
    · refine ⟨x, List.mem_cons_self _ _, ?_⟩
      subst ht
      by_cases h1 : x.ID = 1001
      · have h2 : ¬ (1001 : Int) = 2001 := by decide
        simp [h1, h2]
      · by_cases h2 : x.ID = 2001
        · simp [h1, h2]
        · simp [h1, h2]
    · obtain ⟨t0, h0, h⟩ := ih _ ht
      exact ⟨t0, List.mem_cons_of_mem _ h0, h⟩

theorem initPlayerTasks_ok (maps : MapHeap) (order : List (Int × Task))
    (hperm : order.Perm NewTaskManager.globalTasks.entries) :
    (((markSamples (copyTemplates maps order).1 (copyTemplates maps order).2).2).map
        Task.ID).Perm [3001, 2001, 1002, 1001] ∧
    ∀ t ∈ (markSamples (copyTemplates maps order).1 (copyTemplates maps order).2).2,
      TaskOK t := by
  constructor
  · rw [markSamples_ids, copyTemplates_ids]
    have h := hperm.map (fun e => e.2.ID)
    rw [globalTasks_entries] at h
    exact h
  · intro t ht
    obtain ⟨t0, h0, hid, hlevel, hnext, hstatus⟩ := markSamples_mem _ _ _ ht
    obtain ⟨e, he, eid, estatus, elevel, enext⟩ := copyTemplates_mem _ _ _ h0
    have he2 := hperm.mem_iff.mp he
    rw [globalTasks_entries] at he2
    simp only [List.mem_cons, List.mem_singleton, List.not_mem_nil, or_false] at he2
    rw [eid] at hid hstatus
    rw [estatus] at hstatus
    rw [elevel] at hlevel
    rw [enext] at hnext
    unfold TaskOK
    rcases he2 with rfl | rfl | rfl | rfl
    · simp [template3001] at hid hlevel hnext hstatus
      omega
    · simp [template2001] at hid hlevel hnext hstatus
      omega
    · simp [template1002] at hid hlevel hnext hstatus
      omega
    · simp [template1001] at hid hlevel hnext hstatus
      omega

theorem set_ids (tasks : List Task) (i : Nat) (t t1 : Task) (hi : tasks[i]? = some t)
    (hid : t1.ID = t.ID) : (tasks.set i t1).map Task.ID = tasks.map Task.ID := by
  induction tasks generalizing i with
  | nil => simp at hi
  | cons x rest ih =>
    cases i with
    | zero =>
      simp only [List.getElem?_cons_zero, Option.some.injEq] at hi
      subst hi
      simp [hid]
    | succ i =>
      simp only [List.getElem?_cons_succ] at hi
      simp [ih i hi]

theorem listOK_set (tasks : List Task) (i : Nat) (t t1 : Task)
    (h1 : (tasks.map Task.ID).Perm [3001, 2001, 1002, 1001]) (h2 : ∀ x ∈ tasks, TaskOK x)
    (hi : tasks[i]? = some t) (hid : t1.ID = t.ID) (hok : TaskOK t1) :
    ((tasks.set i t1).map Task.ID).Perm [3001, 2001, 1002, 1001] ∧
      ∀ x ∈ tasks.set i t1, TaskOK x := by
  constructor
  · rw [set_ids tasks i t t1 hi hid]
    exact h1
  · intro x hx
    rcases List.mem_or_eq_of_mem_set hx with hx | hx
    · exact h2 x hx
    · rw [hx]
      exact hok

theorem tasksInv_set_player (m : TaskManager) (maps : MapHeap) (q : String)
    (tasks1 : List Task) (hinv : TasksInv m)
    (h1 : (tasks1.map Task.ID).Perm [3001, 2001, 1002, 1001])
    (h2 : ∀ t ∈ tasks1, TaskOK t) :
    TasksInv { maps := maps, playerTasks := m.playerTasks.set q tasks1,
               globalTasks := m.globalTasks } := by
  intro p tasks hget
  by_cases hp : p = q
  · subst hp
    rw [GoMap.get_set_same] at hget
    rw [← Option.some.inj hget]
    exact ⟨h1, h2⟩
  · rw [GoMap.get_set_ne _ _ hp] at hget
    exact hinv p tasks hget

theorem initIfAbsent_get_self (m : TaskManager) (q : String) (order : List (Int × Task)) :
    (m.initIfAbsent q order).playerTasks.get q = some ((m.initIfAbsent q order).tasksOf q) := by
  unfold TaskManager.initIfAbsent
  cases h : m.playerTasks.get q with
  | none => simp [TaskManager.initPlayerTasks, TaskManager.tasksOf, GoMap.get_set_same]
  | some tasks => simp [TaskManager.tasksOf, h]

theorem initIfAbsent_get_some (m : TaskManager) (q : String) (order : List (Int × Task))
    (p : String) (tasks : List Task) (h : m.playerTasks.get p = some tasks) :
    (m.initIfAbsent q order).playerTasks.get p = some tasks := by
  unfold TaskManager.initIfAbsent
  cases hq : m.playerTasks.get q with
  | some _ => exact h
  | none =>
    have hp : p ≠ q := by
      intro e
      rw [e, hq] at h
      cases h
    simp only [TaskManager.initPlayerTasks]
    rw [GoMap.get_set_ne _ _ hp]
    exact h

theorem tasksInv_initIfAbsent (m : TaskManager) (q : String) (order : List (Int × Task))
    (hinv : TasksInv m) (hperm : order.Perm NewTaskManager.globalTasks.entries) :
    TasksInv (m.initIfAbsent q order) := by
  unfold TaskManager.initIfAbsent
  cases hq : m.playerTasks.get q with
  | some _ => exact hinv
  | none =>
    have h := initPlayerTasks_ok m.maps order hperm
    exact tasksInv_set_player m _ q _ hinv h.1 h.2

end GhServer

namespace GhServer

theorem acceptTask_cases (m : TaskManager) (q : String) (taskID : Int)
    (order : List (Int × Task)) :
    ((m.AcceptTask q taskID order).1 ≠ none ∧
      (m.AcceptTask q taskID order).2 = m.initIfAbsent q order) ∨
    ∃ (i : Nat) (t : Task),
      findTask taskID ((m.initIfAbsent q order).tasksOf q) = some (i, t) ∧
      t.Status = 1 ∧ t.AcceptLevel ≤ 1 ∧
      (m.AcceptTask q taskID order).1 = none ∧
      (m.AcceptTask q taskID order).2 =
        { maps := (m.initIfAbsent q order).maps,
          playerTasks := (m.initIfAbsent q order).playerTasks.set q
            (((m.initIfAbsent q order).tasksOf q).set i { t with Status := 2 }),
          globalTasks := (m.initIfAbsent q order).globalTasks } := by
  cases hf : findTask taskID ((m.initIfAbsent q order).tasksOf q) with
  | none => left; simp [TaskManager.AcceptTask, hf]
  | some r =>
    obtain ⟨i, t⟩ := r
    by_cases hs : t.Status = 1
    · by_cases hl : 1 < t.AcceptLevel
      · left; simp [TaskManager.AcceptTask, hf, hs, hl]
      · right
        refine ⟨i, t, rfl, hs, by omega, ?_, ?_⟩
        · simp [TaskManager.AcceptTask, hf, hs, hl]
        · simp [TaskManager.AcceptTask, hf, hs, hl]
    · left; simp [TaskManager.AcceptTask, hf, hs]

theorem submitTask_cases (m : TaskManager) (q : String) (taskID : Int)
    (order : List (Int × Task)) :
    ((∃ e, (m.SubmitTask q taskID order).1 = .error e) ∧
      (m.SubmitTask q taskID order).2 = m.initIfAbsent q order) ∨
    ∃ (i : Nat) (t : Task) (tasks2 : List Task),
      findTask taskID ((m.initIfAbsent q order).tasksOf q) = some (i, t) ∧
      t.Status = 3 ∧
      (m.SubmitTask q taskID order).1 = .ok t.Rewards ∧
      (m.SubmitTask q taskID order).2 =
        { maps := (m.initIfAbsent q order).maps,
          playerTasks := (m.initIfAbsent q order).playerTasks.set q tasks2,
          globalTasks := (m.initIfAbsent q order).globalTasks } ∧
      ((0 < t.NextTaskID ∧ ∃ (j : Nat) (u : Task),
          findTask t.NextTaskID
            (((m.initIfAbsent q order).tasksOf q).set i { t with Status := 4 }) = some (j, u) ∧
          tasks2 = (((m.initIfAbsent q order).tasksOf q).set i { t with Status := 4 }).set j
            { u with Status := 1 }) ∨
       ((t.NextTaskID ≤ 0 ∨
          findTask t.NextTaskID
            (((m.initIfAbsent q order).tasksOf q).set i { t with Status := 4 }) = none) ∧
          tasks2 = ((m.initIfAbsent q order).tasksOf q).set i { t with Status := 4 })) := by
  cases hf : findTask taskID ((m.initIfAbsent q order).tasksOf q) with
  | none => left; simp [TaskManager.SubmitTask, hf]
  | some r =>
    obtain ⟨i, t⟩ := r
    by_cases hs : t.Status = 3
    · right
      by_cases hnext : 0 < t.NextTaskID
      · cases hn : findTask t.NextTaskID
            (((m.initIfAbsent q order).tasksOf q).set i { t with Status := 4 }) with
        | none =>
          refine ⟨i, t, _, rfl, hs, ?_, ?_, Or.inr ⟨Or.inr hn, rfl⟩⟩
          · simp [TaskManager.SubmitTask, hf, hs]
          · simp [TaskManager.SubmitTask, hf, hs, hnext, hn]
        | some n =>
          obtain ⟨j, u⟩ := n
          refine ⟨i, t, _, rfl, hs, ?_, ?_, Or.inl ⟨hnext, j, u, hn, rfl⟩⟩
          · simp [TaskManager.SubmitTask, hf, hs]
          · simp [TaskManager.SubmitTask, hf, hs, hnext, hn]
      · refine ⟨i, t, _, rfl, hs, ?_, ?_, Or.inr ⟨Or.inl (by omega), rfl⟩⟩
        · simp [TaskManager.SubmitTask, hf, hs]
        · simp [TaskManager.SubmitTask, hf, hs, hnext]
    · left; simp [TaskManager.SubmitTask, hf, hs]

theorem giveUpTask_cases (m : TaskManager) (q : String) (taskID : Int)
    (order : List (Int × Task)) :
    ((m.GiveUpTask q taskID order).1 ≠ none ∧
      (m.GiveUpTask q taskID order).2 = m.initIfAbsent q order) ∨
    ∃ (i : Nat) (t : Task),
      findTask taskID ((m.initIfAbsent q order).tasksOf q) = some (i, t) ∧
      t.Status = 2 ∧
      (m.GiveUpTask q taskID order).1 = none ∧
      (m.GiveUpTask q taskID order).2 =
        { maps := (m.initIfAbsent q order).maps.set t.ProgressMap
            ⟨((m.initIfAbsent q order).maps.deref t.ProgressMap).entries.map
              (fun e => (e.1, (0 : Int)))⟩,
          playerTasks := (m.initIfAbsent q order).playerTasks.set q
            (((m.initIfAbsent q order).tasksOf q).set i { t with Status := 1, Progress := 0 }),
          globalTasks := (m.initIfAbsent q order).globalTasks } := by
  cases hf : findTask taskID ((m.initIfAbsent q order).tasksOf q) with
  | none => left; simp [TaskManager.GiveUpTask, hf]
  | some r =>
    obtain ⟨i, t⟩ := r
    by_cases hs : t.Status = 2
    · right
      refine ⟨i, t, rfl, hs, ?_, ?_⟩
      · simp [TaskManager.GiveUpTask, hf, hs]
      · simp [TaskManager.GiveUpTask, hf, hs]
    · left; simp [TaskManager.GiveUpTask, hf, hs]

theorem getTaskList_state (m : TaskManager) (q : String) (taskType : Int)
    (order : List (Int × Task)) :
    (m.GetTaskList q taskType order).2 = m.initIfAbsent q order := rfl

theorem getTaskDetail_state (m : TaskManager) (q : String) (taskID : Int)
    (order : List (Int × Task)) :
    (m.GetTaskDetail q taskID order).2 = m.initIfAbsent q order := by
  cases hf : findTask taskID ((m.initIfAbsent q order).tasksOf q) with
  | none => simp [TaskManager.GetTaskDetail, hf]
  | some r => simp [TaskManager.GetTaskDetail, hf]

theorem listOK_submit (tasks : List Task) (i : Nat) (t : Task) (tasks2 : List Task)
    (h1 : (tasks.map Task.ID).Perm [3001, 2001, 1002, 1001]) (h2 : ∀ x ∈ tasks, TaskOK x)
    (hi : tasks[i]? = some t) (hs : t.Status = 3)
    (h : (0 < t.NextTaskID ∧ ∃ (j : Nat) (u : Task),
          findTask t.NextTaskID (tasks.set i { t with Status := 4 }) = some (j, u) ∧
          tasks2 = (tasks.set i { t with Status := 4 }).set j { u with Status := 1 }) ∨
       ((t.NextTaskID ≤ 0 ∨
          findTask t.NextTaskID (tasks.set i { t with Status := 4 }) = none) ∧
          tasks2 = tasks.set i { t with Status := 4 })) :
    t.ID = 1001 ∧ (tasks2.map Task.ID).Perm [3001, 2001, 1002, 1001] ∧
      ∀ x ∈ tasks2, TaskOK x := by
  have hok := h2 t (List.getElem?_mem hi)
  have hfacts : t.ID = 1001 ∧ t.NextTaskID = 1002 := by
    unfold TaskOK at hok
    rcases hok with h | h | h | h <;> omega
  have hok4 : TaskOK { t with Status := 4 } := by
    unfold TaskOK
    dsimp only
    omega
  have hl := listOK_set tasks i t { t with Status := 4 } h1 h2 hi rfl hok4
  refine ⟨hfacts.1, ?_⟩
  rcases h with ⟨_, j, u, hn, h⟩ | ⟨_, h⟩
  · rw [h]
    obtain ⟨hj, hjid, _⟩ := findTask_some _ _ _ _ hn
    have huok := hl.2 u (List.getElem?_mem hj)
    have hu1 : TaskOK { u with Status := 1 } := by
      unfold TaskOK at huok ⊢
      dsimp only at huok ⊢
      rcases huok with h | h | h | h <;> omega
    exact listOK_set _ j u { u with Status := 1 } hl.1 hl.2 hj rfl hu1
  · rw [h]
    exact hl

theorem tasksInv_step (m : TaskManager) (c : TaskCall) (hinv : TasksInv m)
    (hperm : c.order.Perm NewTaskManager.globalTasks.entries) : TasksInv (stepTask m c) := by
  cases c with
  | GetTaskList q taskType order =>
    exact tasksInv_initIfAbsent m q order hinv hperm
  | GetTaskDetail q taskID order =>
    simp only [stepTask, getTaskDetail_state]
    exact tasksInv_initIfAbsent m q order hinv hperm
  | AcceptTask q taskID order =>
    have h1 := tasksInv_initIfAbsent m q order hinv hperm
    simp only [stepTask]
    rcases acceptTask_cases m q taskID order with ⟨_, hst⟩ | ⟨i, t, hf, hs, hl, _, hst⟩
    · rw [hst]
      exact h1
    · rw [hst]
      obtain ⟨hi, _, _⟩ := findTask_some _ _ _ _ hf
      have hlist := h1 q _ (initIfAbsent_get_self m q order)
      have hok := hlist.2 t (List.getElem?_mem hi)
      have hok2 : TaskOK { t with Status := 2 } := by
        unfold TaskOK at hok ⊢
        dsimp only
        rcases hok with h | h | h | h <;> omega
      have hl2 := listOK_set _ i t { t with Status := 2 } hlist.1 hlist.2 hi rfl hok2
      exact tasksInv_set_player _ _ q _ h1 hl2.1 hl2.2
  | SubmitTask q taskID order =>
    have h1 := tasksInv_initIfAbsent m q order hinv hperm
    simp only [stepTask]
    rcases submitTask_cases m q taskID order with ⟨_, hst⟩ | ⟨i, t, tasks2, hf, hs, _, hst, h2⟩
    · rw [hst]
      exact h1
    · rw [hst]
      obtain ⟨hi, _, _⟩ := findTask_some _ _ _ _ hf
      have hlist := h1 q _ (initIfAbsent_get_self m q order)
      have hl2 := (listOK_submit _ i t tasks2 hlist.1 hlist.2 hi hs h2).2
      exact tasksInv_set_player _ _ q _ h1 hl2.1 hl2.2
  | GiveUpTask q taskID order =>
    have h1 := tasksInv_initIfAbsent m q order hinv hperm
    simp only [stepTask]
    rcases giveUpTask_cases m q taskID order with ⟨_, hst⟩ | ⟨i, t, hf, hs, _, hst⟩
    · rw [hst]
      exact h1
    · rw [hst]
      obtain ⟨hi, _, _⟩ := findTask_some _ _ _ _ hf
      have hlist := h1 q _ (initIfAbsent_get_self m q order)
      have hok := hlist.2 t (List.getElem?_mem hi)
      have hok2 : TaskOK { t with Status := 1, Progress := 0 } := by
        unfold TaskOK at hok ⊢
        dsimp only
        rcases hok with h | h | h | h <;> omega
      have hl2 := listOK_set _ i t { t with Status := 1, Progress := 0 } hlist.1 hlist.2 hi
        rfl hok2
      exact tasksInv_set_player _ _ q _ h1 hl2.1 hl2.2

theorem tasksInv_new : TasksInv NewTaskManager := by
  intro p tasks h
  simp [NewTaskManager, GoMap.get, GoMap.empty, GoMap.lookup] at h

theorem tasksInv_run (calls : List TaskCall) :
    ∀ (m : TaskManager), TasksInv m → ValidOrders calls → TasksInv (runTasks m calls) := by
  induction calls with
  | nil => intro m h _; exact h
  | cons c cs ih =>
    intro m h hv
    have hc := hv c (List.mem_cons_self _ _)
    have hcs : ValidOrders cs := fun x hx => hv x (List.mem_cons_of_mem _ hx)
    exact ih (stepTask m c) (tasksInv_step m c h hc) hcs

end GhServer

namespace GhServer

/-! ## Tasks: `SubmitTask` succeeds at most once per player -/

theorem nodup_ids_ne (l : List Task) (hnd : (l.map Task.ID).Nodup) (i k : Nat) (t x : Task)
    (hi : l[i]? = some t) (hk : l[k]? = some x) (hne : k ≠ i) : x.ID ≠ t.ID := by
  induction l generalizing i k with
  | nil => simp at hi
  | cons a rest ih =>
    rw [List.map_cons, List.nodup_cons] at hnd
    cases i with
    | zero =>
      cases k with
      | zero => exact absurd rfl hne
      | succ k =>
        simp only [List.getElem?_cons_zero, Option.some.injEq] at hi
        simp only [List.getElem?_cons_succ] at hk
        intro e
        apply hnd.1
        rw [hi, ← e]
        exact List.mem_map_of_mem _ (List.getElem?_mem hk)
    | succ i =>
      cases k with
      | zero =>
        simp only [List.getElem?_cons_zero, Option.some.injEq] at hk
        simp only [List.getElem?_cons_succ] at hi
        intro e
        apply hnd.1
        rw [hk, e]
        exact List.mem_map_of_mem _ (List.getElem?_mem hi)
      | succ k =>
        simp only [List.getElem?_cons_succ] at hi hk
        exact ih hnd.2 i k hi hk (fun e => hne (by rw [e]))

theorem mem_set_cases (l : List Task) (i : Nat) (a x : Task) (hx : x ∈ l.set i a) :
    x = a ∨ ∃ k, k ≠ i ∧ l[k]? = some x := by
  obtain ⟨k, hk⟩ := List.mem_iff_getElem?.mp hx
  by_cases hki : k = i
  · left
    subst hki
    rw [List.getElem?_set] at hk
    by_cases hlen : k < l.length
    · simp [hlen] at hk
      exact hk.symm
    · simp [hlen] at hk
  · right
    refine ⟨k, hki, ?_⟩
    rw [List.getElem?_set_ne (fun e => hki e.symm)] at hk
    exact hk

theorem ids_nodup (tasks : List Task) (h : (tasks.map Task.ID).Perm [3001, 2001, 1002, 1001]) :
    (tasks.map Task.ID).Nodup :=
  h.nodup_iff.mpr (by decide)

theorem noneCompleted_set_player (m : TaskManager) (maps : MapHeap) (q : String)
    (tasks1 : List Task) (p : String) (h : NoneCompleted m p)
    (h1 : p = q → ∀ t ∈ tasks1, t.Status ≠ 3) :
    NoneCompleted { maps := maps, playerTasks := m.playerTasks.set q tasks1,
                    globalTasks := m.globalTasks } p := by
  by_cases hp : p = q
  · subst hp
    exact ⟨tasks1, GoMap.get_set_same _ _ _, h1 rfl⟩
  · obtain ⟨tasks, hget, hall⟩ := h
    refine ⟨tasks, ?_, hall⟩
    show (m.playerTasks.set q tasks1).get p = some tasks
    rw [GoMap.get_set_ne _ _ hp]
    exact hget

theorem noneCompleted_initIfAbsent (m : TaskManager) (q : String) (order : List (Int × Task))
    (p : String) (h : NoneCompleted m p) : NoneCompleted (m.initIfAbsent q order) p := by
  obtain ⟨tasks, hget, hall⟩ := h
  exact ⟨tasks, initIfAbsent_get_some m q order p tasks hget, hall⟩

theorem noneCompleted_tasksOf (m : TaskManager) (p : String) (h : NoneCompleted m p) :
    ∀ t ∈ m.tasksOf p, t.Status ≠ 3 := by
  obtain ⟨tasks, hget, hall⟩ := h
  unfold TaskManager.tasksOf
  rw [hget]
  exact hall

theorem noneCompleted_step (m : TaskManager) (c : TaskCall) (p : String)
    (h : NoneCompleted m p) : NoneCompleted (stepTask m c) p := by
  cases c with
  | GetTaskList q taskType order =>
    exact noneCompleted_initIfAbsent m q order p h
  | GetTaskDetail q taskID order =>
    simp only [stepTask, getTaskDetail_state]
    exact noneCompleted_initIfAbsent m q order p h
  | AcceptTask q taskID order =>
    have h1 := noneCompleted_initIfAbsent m q order p h
    simp only [stepTask]
    rcases acceptTask_cases m q taskID order with ⟨_, hst⟩ | ⟨i, t, hf, hs, hl, _, hst⟩
    · rw [hst]
      exact h1
    · rw [hst]
      refine noneCompleted_set_player _ _ q _ p h1 ?_
      intro hp x hx
      subst hp
      rcases List.mem_or_eq_of_mem_set hx with hx | hx
      · exact noneCompleted_tasksOf _ _ h1 x hx
      · rw [hx]
        show (2 : Int) ≠ 3
        decide
  | SubmitTask q taskID order =>
    have h1 := noneCompleted_initIfAbsent m q order p h
    simp only [stepTask]
    rcases submitTask_cases m q taskID order with ⟨_, hst⟩ | ⟨i, t, tasks2, hf, hs, _, hst, h2⟩
    · rw [hst]
      exact h1
    · rw [hst]
      refine noneCompleted_set_player _ _ q _ p h1 ?_
      intro hp x hx
      subst hp
      have h4 : ∀ y ∈ ((m.initIfAbsent p order).tasksOf p).set i { t with Status := 4 },
          y.Status ≠ 3 := by
        intro y hy
        rcases List.mem_or_eq_of_mem_set hy with hy | hy
        · exact noneCompleted_tasksOf _ _ h1 y hy
        · rw [hy]
          show (4 : Int) ≠ 3
          decide
      rcases h2 with ⟨_, j, u, _, h2⟩ | ⟨_, h2⟩
      · rw [h2] at hx
        rcases List.mem_or_eq_of_mem_set hx with hx | hx
        · exact h4 x hx
        · rw [hx]
          show (1 : Int) ≠ 3
          decide
      · rw [h2] at hx
        exact h4 x hx
  | GiveUpTask q taskID order =>
    have h1 := noneCompleted_initIfAbsent m q order p h
    simp only [stepTask]
    rcases giveUpTask_cases m q taskID order with ⟨_, hst⟩ | ⟨i, t, hf, hs, _, hst⟩
    · rw [hst]
      exact h1
    · rw [hst]
      refine noneCompleted_set_player _ _ q _ p h1 ?_
      intro hp x hx
      subst hp
      rcases List.mem_or_eq_of_mem_set hx with hx | hx
      · exact noneCompleted_tasksOf _ _ h1 x hx
      · rw [hx]
        show (1 : Int) ≠ 3
        decide

theorem submit_ok_imp (m : TaskManager) (q : String) (taskID : Int)
    (order : List (Int × Task))
    (h : (match (m.SubmitTask q taskID order).1 with
          | .ok _ => true
          | .error _ => false) = true) :
    ∃ (i : Nat) (t : Task) (tasks2 : List Task),
      findTask taskID ((m.initIfAbsent q order).tasksOf q) = some (i, t) ∧
      t.Status = 3 ∧
      (m.SubmitTask q taskID order).2 =
        { maps := (m.initIfAbsent q order).maps,
          playerTasks := (m.initIfAbsent q order).playerTasks.set q tasks2,
          globalTasks := (m.initIfAbsent q order).globalTasks } ∧
      ((0 < t.NextTaskID ∧ ∃ (j : Nat) (u : Task),
          findTask t.NextTaskID
            (((m.initIfAbsent q order).tasksOf q).set i { t with Status := 4 }) = some (j, u) ∧
          tasks2 = (((m.initIfAbsent q order).tasksOf q).set i { t with Status := 4 }).set j
            { u with Status := 1 }) ∨
       ((t.NextTaskID ≤ 0 ∨
          findTask t.NextTaskID
            (((m.initIfAbsent q order).tasksOf q).set i { t with Status := 4 }) = none) ∧
          tasks2 = ((m.initIfAbsent q order).tasksOf q).set i { t with Status := 4 })) := by
  rcases submitTask_cases m q taskID order with ⟨⟨e, he⟩, _⟩ | ⟨i, t, tasks2, hf, hs, _, hst, h2⟩
  · rw [he] at h
    cases h
  · exact ⟨i, t, tasks2, hf, hs, hst, h2⟩

theorem noneCompleted_no_submit (m : TaskManager) (p : String) (sel : Int → Bool)
    (c : TaskCall) (h : NoneCompleted m p) : isSuccessfulSubmit m p sel c = false := by
  cases c with
  | SubmitTask q taskID order =>
    cases hb : isSuccessfulSubmit m p sel (.SubmitTask q taskID order) with
    | false => rfl
    | true =>
      exfalso
      simp only [isSuccessfulSubmit, Bool.and_eq_true, decide_eq_true_eq] at hb
      obtain ⟨⟨hq, _⟩, hok⟩ := hb
      subst hq
      obtain ⟨i, t, _, hf, hs, _, _⟩ := submit_ok_imp m q taskID order hok
      obtain ⟨hi, _, _⟩ := findTask_some _ _ _ _ hf
      exact noneCompleted_tasksOf _ _ (noneCompleted_initIfAbsent m q order q h) t
        (List.getElem?_mem hi) hs
  | GetTaskList q taskType order => rfl
  | GetTaskDetail q taskID order => rfl
  | AcceptTask q taskID order => rfl
  | GiveUpTask q taskID order => rfl

theorem submit_noneCompleted (m : TaskManager) (p : String) (sel : Int → Bool) (c : TaskCall)
    (hinv : TasksInv m) (hperm : c.order.Perm NewTaskManager.globalTasks.entries)
    (hb : isSuccessfulSubmit m p sel c = true) :
    NoneCompleted (stepTask m c) p ∧ sel 1001 = true ∧
      ∃ order, c = .SubmitTask p 1001 order := by
  cases c with
  | SubmitTask q taskID order =>
    simp only [isSuccessfulSubmit, Bool.and_eq_true, decide_eq_true_eq] at hb
    obtain ⟨⟨hq, hsel⟩, hok⟩ := hb
    subst hq
    obtain ⟨i, t, tasks2, hf, hs, hst, h2⟩ := submit_ok_imp m q taskID order hok
    obtain ⟨hi, hid, _⟩ := findTask_some _ _ _ _ hf
    have h1 := tasksInv_initIfAbsent m q order hinv hperm
    have hget := initIfAbsent_get_self m q order
    have hlist := h1 q _ hget
    have h1001 := (listOK_submit _ i t tasks2 hlist.1 hlist.2 hi hs h2).1
    have htask : taskID = 1001 := by rw [← hid, h1001]
    subst htask
    refine ⟨?_, hsel, order, rfl⟩
    simp only [stepTask]
    rw [hst]
    refine ⟨tasks2, GoMap.get_set_same _ _ _, ?_⟩
    have hnd := ids_nodup _ hlist.1
    have h4 : ∀ y ∈ ((m.initIfAbsent q order).tasksOf q).set i { t with Status := 4 },
        y.Status ≠ 3 := by
      intro y hy
      rcases mem_set_cases _ _ _ _ hy with hy | ⟨k, hk, hy⟩
      · rw [hy]
        show (4 : Int) ≠ 3
        decide
      · have hne := nodup_ids_ne _ hnd i k t y hi hy hk
        have hok := hlist.2 y (List.getElem?_mem hy)
        unfold TaskOK at hok
        rcases hok with h | h | h | h <;> omega
    intro x hx
    rcases h2 with ⟨_, j, u, _, h2⟩ | ⟨_, h2⟩
    · rw [h2] at hx
      rcases List.mem_or_eq_of_mem_set hx with hx | hx
      · exact h4 x hx
      · rw [hx]
        show (1 : Int) ≠ 3
        decide
    · rw [h2] at hx
      exact h4 x hx
  | GetTaskList q taskType order => simp [isSuccessfulSubmit] at hb
  | GetTaskDetail q taskID order => simp [isSuccessfulSubmit] at hb
  | AcceptTask q taskID order => simp [isSuccessfulSubmit] at hb
  | GiveUpTask q taskID order => simp [isSuccessfulSubmit] at hb

theorem successfulSubmits_done (p : String) (sel : Int → Bool) (calls : List TaskCall) :
    ∀ (m : TaskManager), NoneCompleted m p → successfulSubmits p sel m calls = 0 := by
  induction calls with
  | nil => intro m _; rfl
  | cons c cs ih =>
    intro m h
    simp only [successfulSubmits]
    rw [noneCompleted_no_submit m p sel c h, ih _ (noneCompleted_step m c p h)]
    rfl

theorem successfulSubmits_bound (p : String) (sel : Int → Bool) (calls : List TaskCall) :
    ∀ (m : TaskManager), TasksInv m → ValidOrders calls →
      successfulSubmits p sel m calls ≤ 1 ∧
      (sel 1001 = false → successfulSubmits p sel m calls = 0) := by
  induction calls with
  | nil => intro m _ _; exact ⟨Nat.zero_le _, fun _ => rfl⟩
  | cons c cs ih =>
    intro m hinv hv
    have hc := hv c (List.mem_cons_self _ _)
    have hcs : ValidOrders cs := fun x hx => hv x (List.mem_cons_of_mem _ hx)
    have hrest := ih (stepTask m c) (tasksInv_step m c hinv hc) hcs
    simp only [successfulSubmits]
    cases hb : isSuccessfulSubmit m p sel c with
    | false =>
      simp only [Bool.false_eq_true, if_false, Nat.zero_add]
      exact hrest
    | true =>
      obtain ⟨hdone, hsel, _⟩ := submit_noneCompleted m p sel c hinv hc hb
      rw [successfulSubmits_done p sel cs _ hdone]
      refine ⟨by simp, ?_⟩
      intro hs
      rw [hs] at hsel
      cases hsel

end GhServer

namespace GhServer

theorem sampleTaskCalls_valid : ValidOrders sampleTaskCalls := by
  have h : orderAscending.Perm NewTaskManager.globalTasks.entries := by
    rw [globalTasks_entries]
    decide
  intro c hc
  simp only [sampleTaskCalls, List.mem_cons, List.mem_singleton, List.not_mem_nil,
    or_false] at hc
  rcases hc with rfl | rfl | rfl | rfl | rfl | rfl <;> exact h

set_option maxRecDepth 100000 in
theorem sampleTaskCalls_submits :
    successfulSubmits "p" (fun _ => true) NewTaskManager sampleTaskCalls = 1 := by
  decide

/-- C30: started from the fresh task manager, after any sequence of
`GetTaskList`, `GetTaskDetail`, `AcceptTask`, `SubmitTask` and `GiveUpTask`
calls (each ranging over the templates in some order), every task list of a
player holds exactly the tasks 1001, 1002, 2001 and 3001, with task 1001 in
`Status` 3 or 4, task 1002 in `Status` 0 or 1 with `AcceptLevel` 2, and tasks
2001 and 3001 in `Status` 1 or 2; `AcceptTask` of 1002 fails in every such
state; and along the sequence `SubmitTask` of the player succeeds at most once
and never for a task id other than 1001. -/
theorem task_statuses_reachable (calls : List TaskCall) (hvalid : ValidOrders calls)
    (playerID : String) :
    (∀ tasks, (runTasks NewTaskManager calls).playerTasks.get playerID = some tasks →
      (tasks.map Task.ID).Perm [3001, 2001, 1002, 1001] ∧
      ∀ t ∈ tasks,
        (t.ID = 1001 → t.Status = 3 ∨ t.Status = 4) ∧
        (t.ID = 1002 → (t.Status = 0 ∨ t.Status = 1) ∧ t.AcceptLevel = 2) ∧
        (t.ID = 2001 → t.Status = 1 ∨ t.Status = 2) ∧
        (t.ID = 3001 → t.Status = 1 ∨ t.Status = 2)) ∧
    (∀ order, order.Perm NewTaskManager.globalTasks.entries →
      ((runTasks NewTaskManager calls).AcceptTask playerID 1002 order).1 ≠ none) ∧
    successfulSubmits playerID (fun _ => true) NewTaskManager calls ≤ 1 ∧
    successfulSubmits playerID (fun taskID => decide (taskID ≠ 1001)) NewTaskManager calls
      = 0 := by
  have hinv := tasksInv_run calls NewTaskManager tasksInv_new hvalid
  refine ⟨?_, ?_, ?_, ?_⟩
  · intro tasks hget
    obtain ⟨hids, hok⟩ := hinv playerID tasks hget
    refine ⟨hids, ?_⟩
    intro t ht
    have h := hok t ht
    unfold TaskOK at h
    refine ⟨?_, ?_, ?_, ?_⟩ <;> intro hid <;> rcases h with h | h | h | h <;> omega
  · intro order hperm
    have h1 := tasksInv_initIfAbsent _ playerID order hinv hperm
    rcases acceptTask_cases (runTasks NewTaskManager calls) playerID 1002 order with
      ⟨herr, _⟩ | ⟨i, t, hf, hs, hl, _, _⟩
    · exact herr
    · exfalso
      obtain ⟨hi, hid, _⟩ := findTask_some _ _ _ _ hf
      have hok := (h1 playerID _ (initIfAbsent_get_self _ playerID order)).2 t
        (List.getElem?_mem hi)
      unfold TaskOK at hok
      rcases hok with h | h | h | h <;> omega
  · exact (successfulSubmits_bound playerID _ calls NewTaskManager tasksInv_new hvalid).1
  · exact (successfulSubmits_bound playerID _ calls NewTaskManager tasksInv_new hvalid).2
      (by decide)

theorem task_statuses_reachable_witness :
    ValidOrders sampleTaskCalls ∧
    (∀ tasks, (runTasks NewTaskManager sampleTaskCalls).playerTasks.get "p" = some tasks →
      (tasks.map Task.ID).Perm [3001, 2001, 1002, 1001] ∧
      ∀ t ∈ tasks,
        (t.ID = 1001 → t.Status = 3 ∨ t.Status = 4) ∧
        (t.ID = 1002 → (t.Status = 0 ∨ t.Status = 1) ∧ t.AcceptLevel = 2) ∧
        (t.ID = 2001 → t.Status = 1 ∨ t.Status = 2) ∧
        (t.ID = 3001 → t.Status = 1 ∨ t.Status = 2)) ∧
    successfulSubmits "p" (fun _ => true) NewTaskManager sampleTaskCalls ≤ 1 :=
  ⟨sampleTaskCalls_valid,
   (task_statuses_reachable sampleTaskCalls sampleTaskCalls_valid "p").1,
   (task_statuses_reachable sampleTaskCalls sampleTaskCalls_valid "p").2.2.1⟩


/-! ## Tasks: the maps of a player are private -/

theorem mapDeref_append_old (maps : MapHeap) (x : GoMap String Int) {a : Nat}
    (ha : a < maps.length) : MapHeap.deref (maps ++ [x]) a = MapHeap.deref maps a := by
  simp [MapHeap.deref, List.getD_eq_getElem?_getD, List.getElem?_append_left ha]

theorem mapDeref_set_ne (maps : MapHeap) (x : GoMap String Int) {a b : Nat} (hb : b ≠ a) :
    MapHeap.deref (maps.set a x) b = MapHeap.deref maps b := by
  have hb2 : a ≠ b := fun e => hb e.symm
  simp [MapHeap.deref, List.getD_eq_getElem?_getD, List.getElem?_set_ne hb2]

theorem copyTemplates_maps_length (maps : MapHeap) (order : List (Int × Task)) :
    (copyTemplates maps order).1.length = maps.length + 2 * order.length := by
  induction order generalizing maps with
  | nil => rfl
  | cons e rest ih =>
    obtain ⟨k, tpl⟩ := e
    simp only [copyTemplates]
    rw [ih]
    simp only [List.length_append, List.length_cons, List.length_nil]
    omega

theorem copyTemplates_deref_old (maps : MapHeap) (order : List (Int × Task)) (a : Nat)
    (ha : a < maps.length) :
    MapHeap.deref (copyTemplates maps order).1 a = MapHeap.deref maps a := by
  induction order generalizing maps with
  | nil => rfl
  | cons e rest ih =>
    obtain ⟨k, tpl⟩ := e
    simp only [copyTemplates]
    rw [ih]
    · rw [mapDeref_append_old _ _ (by simp only [List.length_append, List.length_cons, List.length_nil]; omega),
        mapDeref_append_old _ _ ha]
    · simp only [List.length_append, List.length_cons, List.length_nil]
      omega

theorem copyTemplates_ptrs (maps : MapHeap) (order : List (Int × Task)) (t : Task)
    (ht : t ∈ (copyTemplates maps order).2) :
    maps.length ≤ t.Targets ∧ t.Targets < (copyTemplates maps order).1.length ∧
    maps.length ≤ t.ProgressMap ∧ t.ProgressMap < (copyTemplates maps order).1.length := by
  induction order generalizing maps with
  | nil => simp [copyTemplates] at ht
  | cons e rest ih =>
    obtain ⟨k, tpl⟩ := e
    have hlen := copyTemplates_maps_length maps ((k, tpl) :: rest)
    simp only [List.length_cons] at hlen
    rw [hlen]
    simp only [copyTemplates, List.mem_cons] at ht
    rcases ht with ht | ht
    · subst ht
      dsimp only
      simp only [List.length_append, List.length_cons, List.length_nil]
      unfold Ptr at *
      refine ⟨?_, ?_, ?_, ?_⟩ <;> omega
    · have h := ih _ ht
      rw [copyTemplates_maps_length] at h
      simp only [List.length_append, List.length_cons, List.length_nil] at h
      unfold Ptr at *
      refine ⟨?_, ?_, ?_, ?_⟩ <;> omega

theorem markSamples_length (maps : MapHeap) (l : List Task) :
    (markSamples maps l).1.length = maps.length := by
  induction l generalizing maps with
  | nil => rfl
  | cons t rest ih =>
    simp only [markSamples]
    rw [ih]
    by_cases h1 : t.ID = 1001
    · have h2 : ¬ (1001 : Int) = 2001 := by decide
      simp [h1, h2]
    · by_cases h2 : t.ID = 2001
      · simp [h1, h2]
      · simp [h1, h2]

theorem markSamples_deref_old (maps : MapHeap) (l : List Task) (a b : Nat)
    (hl : ∀ t ∈ l, b ≤ t.ProgressMap) (ha : a < b) :
    MapHeap.deref (markSamples maps l).1 a = MapHeap.deref maps a := by
  induction l generalizing maps with
  | nil => rfl
  | cons t rest ih =>
    have ht := hl t (List.mem_cons_self _ _)
    have hne : a ≠ t.ProgressMap := by
      unfold Ptr at *
      omega
    simp only [markSamples]
    rw [ih _ (fun x hx => hl x (List.mem_cons_of_mem _ hx))]
    split_ifs <;> dsimp only <;> repeat rw [mapDeref_set_ne _ _ hne]

theorem markSamples_ptrs (maps : MapHeap) (l : List Task) (t : Task)
    (ht : t ∈ (markSamples maps l).2) :
    ∃ t0 ∈ l, t.Targets = t0.Targets ∧ t.ProgressMap = t0.ProgressMap := by
  induction l generalizing maps with
  | nil => simp [markSamples] at ht
  | cons x rest ih =>
    simp only [markSamples, List.mem_cons] at ht
    rcases ht with ht | ht
    · refine ⟨x, List.mem_cons_self _ _, ?_⟩
      subst ht
      by_cases h1 : x.ID = 1001
      · have h2 : ¬ (1001 : Int) = 2001 := by decide
        simp [h1, h2]
      · by_cases h2 : x.ID = 2001
        · simp [h1, h2]
        · simp [h1, h2]
    · obtain ⟨t0, h0, h⟩ := ih _ ht
      exact ⟨t0, List.mem_cons_of_mem _ h0, h⟩

end GhServer

namespace GhServer

theorem initIfAbsent_maps_length (m : TaskManager) (p : String) (order : List (Int × Task)) :
    m.maps.length ≤ (m.initIfAbsent p order).maps.length := by
  unfold TaskManager.initIfAbsent
  cases m.playerTasks.get p with
  | some _ => exact Nat.le_refl _
  | none =>
    simp only [TaskManager.initPlayerTasks, markSamples_length, copyTemplates_maps_length]
    omega

theorem initIfAbsent_deref_old (m : TaskManager) (p : String) (order : List (Int × Task))
    (a : Nat) (ha : a < m.maps.length) :
    MapHeap.deref (m.initIfAbsent p order).maps a = MapHeap.deref m.maps a := by
  unfold TaskManager.initIfAbsent
  cases m.playerTasks.get p with
  | some _ => rfl
  | none =>
    simp only [TaskManager.initPlayerTasks]
    rw [markSamples_deref_old _ _ a m.maps.length
      (fun t ht => (copyTemplates_ptrs m.maps order t ht).2.2.1) ha]
    exact copyTemplates_deref_old m.maps order a ha

theorem initIfAbsent_get_other (m : TaskManager) (p : String) (order : List (Int × Task))
    (q : String) (hq : q ≠ p) :
    (m.initIfAbsent p order).playerTasks.get q = m.playerTasks.get q := by
  unfold TaskManager.initIfAbsent
  cases m.playerTasks.get p with
  | some _ => rfl
  | none =>
    simp only [TaskManager.initPlayerTasks]
    exact GoMap.get_set_ne _ _ hq

theorem initIfAbsent_globalTasks (m : TaskManager) (p : String) (order : List (Int × Task)) :
    (m.initIfAbsent p order).globalTasks = m.globalTasks := by
  unfold TaskManager.initIfAbsent
  cases m.playerTasks.get p <;> rfl

theorem mapsInv_initIfAbsent (m : TaskManager) (p : String) (order : List (Int × Task))
    (hinv : MapsInv m) : MapsInv (m.initIfAbsent p order) := by
  unfold TaskManager.initIfAbsent
  cases hp : m.playerTasks.get p with
  | some _ => exact hinv
  | none =>
    obtain ⟨h8, hin, hsep⟩ := hinv
    have hlen : (markSamples (copyTemplates m.maps order).1 (copyTemplates m.maps order).2).1.length
        = m.maps.length + 2 * order.length := by
      rw [markSamples_length, copyTemplates_maps_length]
    have hnew : ∀ t ∈ (markSamples (copyTemplates m.maps order).1
        (copyTemplates m.maps order).2).2,
        m.maps.length ≤ t.Targets ∧ t.Targets < m.maps.length + 2 * order.length ∧
        m.maps.length ≤ t.ProgressMap ∧ t.ProgressMap < m.maps.length + 2 * order.length := by
      intro t ht
      obtain ⟨t0, h0, e1, e2⟩ := markSamples_ptrs _ _ _ ht
      have h := copyTemplates_ptrs m.maps order t0 h0
      rw [copyTemplates_maps_length] at h
      rw [e1, e2]
      exact h
    simp only [TaskManager.initPlayerTasks]
    refine ⟨?_, ?_, ?_⟩
    · show 8 ≤ (markSamples (copyTemplates m.maps order).1 (copyTemplates m.maps order).2).1.length
      rw [hlen]
      omega
    · intro r tasks hget t ht
      show 8 ≤ t.Targets ∧
        t.Targets < (markSamples (copyTemplates m.maps order).1
          (copyTemplates m.maps order).2).1.length ∧
        8 ≤ t.ProgressMap ∧
        t.ProgressMap < (markSamples (copyTemplates m.maps order).1
          (copyTemplates m.maps order).2).1.length
      rw [hlen]
      have hget2 : (m.playerTasks.set p (markSamples (copyTemplates m.maps order).1
          (copyTemplates m.maps order).2).2).get r = some tasks := hget
      by_cases hr : r = p
      · subst hr
        rw [GoMap.get_set_same] at hget2
        have h := hnew t (by rw [Option.some.inj hget2]; exact ht)
        unfold Ptr at *
        refine ⟨?_, ?_, ?_, ?_⟩ <;> omega
      · rw [GoMap.get_set_ne _ _ hr] at hget2
        have h := hin r tasks hget2 t ht
        unfold Ptr at *
        refine ⟨?_, ?_, ?_, ?_⟩ <;> omega
    · intro r q tr tq hrq hr hq t ht u hu
      have hr2 : (m.playerTasks.set p (markSamples (copyTemplates m.maps order).1
          (copyTemplates m.maps order).2).2).get r = some tr := hr
      have hq2 : (m.playerTasks.set p (markSamples (copyTemplates m.maps order).1
          (copyTemplates m.maps order).2).2).get q = some tq := hq
      by_cases hrp : r = p
      · subst hrp
        have hqp : q ≠ r := fun e => hrq e.symm
        rw [GoMap.get_set_same] at hr2
        rw [GoMap.get_set_ne _ _ hqp] at hq2
        have h1 := hnew t (by rw [Option.some.inj hr2]; exact ht)
        have h2 := hin q tq hq2 u hu
        unfold Ptr at *
        constructor <;> omega
      · rw [GoMap.get_set_ne _ _ hrp] at hr2
        by_cases hqp : q = p
        · subst hqp
          rw [GoMap.get_set_same] at hq2
          have h1 := hnew u (by rw [Option.some.inj hq2]; exact hu)
          have h2 := hin r tr hr2 t ht
          unfold Ptr at *
          constructor <;> omega
        · rw [GoMap.get_set_ne _ _ hqp] at hq2
          exact hsep r q tr tq hrq hr2 hq2 t ht u hu

theorem mapsInv_set_player (m : TaskManager) (maps : MapHeap) (p : String)
    (tasks1 tasks2 : List Task) (hinv : MapsInv m) (hlen : maps.length = m.maps.length)
    (hget : m.playerTasks.get p = some tasks1)
    (hptr : ∀ t ∈ tasks2, ∃ t0 ∈ tasks1,
      t.Targets = t0.Targets ∧ t.ProgressMap = t0.ProgressMap) :
    MapsInv { maps := maps, playerTasks := m.playerTasks.set p tasks2,
              globalTasks := m.globalTasks } := by
  obtain ⟨h8, hin, hsep⟩ := hinv
  refine ⟨?_, ?_, ?_⟩
  · show 8 ≤ maps.length
    rw [hlen]
    exact h8
  · intro r tasks hr t ht
    show 8 ≤ t.Targets ∧ t.Targets < maps.length ∧ 8 ≤ t.ProgressMap ∧
      t.ProgressMap < maps.length
    rw [hlen]
    have hr2 : (m.playerTasks.set p tasks2).get r = some tasks := hr
    by_cases hrp : r = p
    · subst hrp
      rw [GoMap.get_set_same] at hr2
      obtain ⟨t0, h0, e1, e2⟩ := hptr t (by rw [Option.some.inj hr2]; exact ht)
      rw [e1, e2]
      exact hin r tasks1 hget t0 h0
    · rw [GoMap.get_set_ne _ _ hrp] at hr2
      exact hin r tasks hr2 t ht
  · intro r q tr tq hrq hr hq t ht u hu
    have hr2 : (m.playerTasks.set p tasks2).get r = some tr := hr
    have hq2 : (m.playerTasks.set p tasks2).get q = some tq := hq
    by_cases hrp : r = p
    · subst hrp
      have hqp : q ≠ r := fun e => hrq e.symm
      rw [GoMap.get_set_same] at hr2
      rw [GoMap.get_set_ne _ _ hqp] at hq2
      obtain ⟨t0, h0, e1, e2⟩ := hptr t (by rw [Option.some.inj hr2]; exact ht)
      rw [e2]
      exact hsep r q tasks1 tq hrq hget hq2 t0 h0 u hu
    · rw [GoMap.get_set_ne _ _ hrp] at hr2
      by_cases hqp : q = p
      · subst hqp
        rw [GoMap.get_set_same] at hq2
        obtain ⟨u0, h0, e1, e2⟩ := hptr u (by rw [Option.some.inj hq2]; exact hu)
        rw [e1, e2]
        exact hsep r q tr tasks1 hrq hr2 hget t ht u0 h0
      · rw [GoMap.get_set_ne _ _ hqp] at hq2
        exact hsep r q tr tq hrq hr2 hq2 t ht u hu

theorem set_ptrs (tasks : List Task) (i : Nat) (t t1 : Task) (hi : tasks[i]? = some t)
    (h1 : t1.Targets = t.Targets) (h2 : t1.ProgressMap = t.ProgressMap) :
    ∀ x ∈ tasks.set i t1, ∃ t0 ∈ tasks, x.Targets = t0.Targets ∧
      x.ProgressMap = t0.ProgressMap := by
  intro x hx
  rcases List.mem_or_eq_of_mem_set hx with hx | hx
  · exact ⟨x, hx, rfl, rfl⟩
  · rw [hx]
    exact ⟨t, List.getElem?_mem hi, h1, h2⟩

end GhServer

namespace GhServer

theorem submit_ptrs (tasks tasks2 : List Task) (i : Nat) (t : Task)
    (hi : tasks[i]? = some t)
    (h : (0 < t.NextTaskID ∧ ∃ (j : Nat) (u : Task),
          findTask t.NextTaskID (tasks.set i { t with Status := 4 }) = some (j, u) ∧
          tasks2 = (tasks.set i { t with Status := 4 }).set j { u with Status := 1 }) ∨
       ((t.NextTaskID ≤ 0 ∨
          findTask t.NextTaskID (tasks.set i { t with Status := 4 }) = none) ∧
          tasks2 = tasks.set i { t with Status := 4 })) :
    ∀ x ∈ tasks2, ∃ t0 ∈ tasks, x.Targets = t0.Targets ∧ x.ProgressMap = t0.ProgressMap := by
  have h4 := set_ptrs tasks i t { t with Status := 4 } hi rfl rfl
  rcases h with ⟨_, j, u, hn, h⟩ | ⟨_, h⟩
  · rw [h]
    obtain ⟨hj, _, _⟩ := findTask_some _ _ _ _ hn
    intro x hx
    obtain ⟨y, hy, e1, e2⟩ := set_ptrs _ j u { u with Status := 1 } hj rfl rfl x hx
    obtain ⟨t0, h0, e3, e4⟩ := h4 y hy
    exact ⟨t0, h0, e1.trans e3, e2.trans e4⟩
  · rw [h]
    exact h4

theorem mapsInv_step (m : TaskManager) (c : TaskCall) (hinv : MapsInv m) :
    MapsInv (stepTask m c) := by
  cases c with
  | GetTaskList p taskType order => exact mapsInv_initIfAbsent m p order hinv
  | GetTaskDetail p taskID order =>
    simp only [stepTask, getTaskDetail_state]
    exact mapsInv_initIfAbsent m p order hinv
  | AcceptTask p taskID order =>
    have h1 := mapsInv_initIfAbsent m p order hinv
    simp only [stepTask]
    rcases acceptTask_cases m p taskID order with ⟨_, hst⟩ | ⟨i, t, hf, _, _, _, hst⟩
    · rw [hst]
      exact h1
    · rw [hst]
      obtain ⟨hi, _, _⟩ := findTask_some _ _ _ _ hf
      exact mapsInv_set_player _ _ p _ _ h1 rfl (initIfAbsent_get_self m p order)
        (set_ptrs _ i t _ hi rfl rfl)
  | SubmitTask p taskID order =>
    have h1 := mapsInv_initIfAbsent m p order hinv
    simp only [stepTask]
    rcases submitTask_cases m p taskID order with ⟨_, hst⟩ | ⟨i, t, tasks2, hf, _, _, hst, h2⟩
    · rw [hst]
      exact h1
    · rw [hst]
      obtain ⟨hi, _, _⟩ := findTask_some _ _ _ _ hf
      exact mapsInv_set_player _ _ p _ _ h1 rfl (initIfAbsent_get_self m p order)
        (submit_ptrs _ tasks2 i t hi h2)
  | GiveUpTask p taskID order =>
    have h1 := mapsInv_initIfAbsent m p order hinv
    simp only [stepTask]
    rcases giveUpTask_cases m p taskID order with ⟨_, hst⟩ | ⟨i, t, hf, _, _, hst⟩
    · rw [hst]
      exact h1
    · rw [hst]
      obtain ⟨hi, _, _⟩ := findTask_some _ _ _ _ hf
      exact mapsInv_set_player _ _ p _ _ h1 (List.length_set _ _ _)
        (initIfAbsent_get_self m p order) (set_ptrs _ i t _ hi rfl rfl)

theorem mapsInv_new : MapsInv NewTaskManager := by
  refine ⟨by decide, ?_, ?_⟩
  · intro p tasks h
    simp [NewTaskManager, GoMap.get, GoMap.empty, GoMap.lookup] at h
  · intro p q tp tq _ h
    simp [NewTaskManager, GoMap.get, GoMap.empty, GoMap.lookup] at h

theorem mapsInv_run (calls : List TaskCall) :
    ∀ (m : TaskManager), MapsInv m → MapsInv (runTasks m calls) := by
  induction calls with
  | nil => intro m h; exact h
  | cons c cs ih => intro m h; exact ih (stepTask m c) (mapsInv_step m c h)

theorem stepTask_globalTasks (m : TaskManager) (c : TaskCall) :
    (stepTask m c).globalTasks = m.globalTasks := by
  cases c with
  | GetTaskList p taskType order => exact initIfAbsent_globalTasks m p order
  | GetTaskDetail p taskID order =>
    simp only [stepTask, getTaskDetail_state]
    exact initIfAbsent_globalTasks m p order
  | AcceptTask p taskID order =>
    simp only [stepTask]
    rcases acceptTask_cases m p taskID order with ⟨_, hst⟩ | ⟨i, t, _, _, _, _, hst⟩ <;>
      rw [hst] <;> exact initIfAbsent_globalTasks m p order
  | SubmitTask p taskID order =>
    simp only [stepTask]
    rcases submitTask_cases m p taskID order with ⟨_, hst⟩ | ⟨i, t, tasks2, _, _, _, hst, _⟩ <;>
      rw [hst] <;> exact initIfAbsent_globalTasks m p order
  | GiveUpTask p taskID order =>
    simp only [stepTask]
    rcases giveUpTask_cases m p taskID order with ⟨_, hst⟩ | ⟨i, t, _, _, _, hst⟩ <;>
      rw [hst] <;> exact initIfAbsent_globalTasks m p order

theorem runTasks_globalTasks (calls : List TaskCall) :
    ∀ (m : TaskManager), (runTasks m calls).globalTasks = m.globalTasks := by
  induction calls with
  | nil => intro m; rfl
  | cons c cs ih =>
    intro m
    exact (ih (stepTask m c)).trans (stepTask_globalTasks m c)

theorem stepTask_frame (m : TaskManager) (c : TaskCall) :
    (∀ a : Nat, a < m.maps.length →
      (∀ tasks, (m.initIfAbsent c.playerID c.order).playerTasks.get c.playerID = some tasks →
        ∀ t ∈ tasks, a ≠ t.ProgressMap) →
      MapHeap.deref (stepTask m c).maps a = MapHeap.deref m.maps a) ∧
    (∀ q, q ≠ c.playerID → (stepTask m c).playerTasks.get q = m.playerTasks.get q) := by
  cases c with
  | GetTaskList p taskType order =>
    exact ⟨fun a ha _ => initIfAbsent_deref_old m p order a ha,
      fun q hq => initIfAbsent_get_other m p order q hq⟩
  | GetTaskDetail p taskID order =>
    simp only [stepTask, getTaskDetail_state]
    exact ⟨fun a ha _ => initIfAbsent_deref_old m p order a ha,
      fun q hq => initIfAbsent_get_other m p order q hq⟩
  | AcceptTask p taskID order =>
    simp only [stepTask, TaskCall.playerID, TaskCall.order]
    rcases acceptTask_cases m p taskID order with ⟨_, hst⟩ | ⟨i, t, _, _, _, _, hst⟩
    · rw [hst]
      exact ⟨fun a ha _ => initIfAbsent_deref_old m p order a ha,
        fun q hq => initIfAbsent_get_other m p order q hq⟩
    · rw [hst]
      refine ⟨fun a ha _ => initIfAbsent_deref_old m p order a ha, fun q hq => ?_⟩
      show ((m.initIfAbsent p order).playerTasks.set p _).get q = _
      rw [GoMap.get_set_ne _ _ hq]
      exact initIfAbsent_get_other m p order q hq
  | SubmitTask p taskID order =>
    simp only [stepTask, TaskCall.playerID, TaskCall.order]
    rcases submitTask_cases m p taskID order with ⟨_, hst⟩ | ⟨i, t, tasks2, _, _, _, hst, _⟩
    · rw [hst]
      exact ⟨fun a ha _ => initIfAbsent_deref_old m p order a ha,
        fun q hq => initIfAbsent_get_other m p order q hq⟩
    · rw [hst]
      refine ⟨fun a ha _ => initIfAbsent_deref_old m p order a ha, fun q hq => ?_⟩
      show ((m.initIfAbsent p order).playerTasks.set p _).get q = _
      rw [GoMap.get_set_ne _ _ hq]
      exact initIfAbsent_get_other m p order q hq
  | GiveUpTask p taskID order =>
    simp only [stepTask, TaskCall.playerID, TaskCall.order]
    rcases giveUpTask_cases m p taskID order with ⟨_, hst⟩ | ⟨i, t, hf, _, _, hst⟩
    · rw [hst]
      exact ⟨fun a ha _ => initIfAbsent_deref_old m p order a ha,
        fun q hq => initIfAbsent_get_other m p order q hq⟩
    · rw [hst]
      obtain ⟨hi, _, _⟩ := findTask_some _ _ _ _ hf
      refine ⟨fun a ha hown => ?_, fun q hq => ?_⟩
      · have hne := hown _ (initIfAbsent_get_self m p order) t (List.getElem?_mem hi)
        show MapHeap.deref ((m.initIfAbsent p order).maps.set t.ProgressMap _) a = _
        rw [mapDeref_set_ne _ _ hne]
        exact initIfAbsent_deref_old m p order a ha
      · show ((m.initIfAbsent p order).playerTasks.set p _).get q = _
        rw [GoMap.get_set_ne _ _ hq]
        exact initIfAbsent_get_other m p order q hq

end GhServer

namespace GhServer

theorem template_ptrs (e : Int × Task) (he : e ∈ NewTaskManager.globalTasks.entries) :
    e.2.Targets < 8 ∧ e.2.ProgressMap < 8 := by
  rw [globalTasks_entries] at he
  simp only [List.mem_cons, List.mem_singleton, List.not_mem_nil, or_false] at he
  rcases he with rfl | rfl | rfl | rfl <;> decide

set_option maxRecDepth 100000 in
theorem isolation_sample :
    (MapHeap.deref (stepTask (runTasks NewTaskManager isolationCalls)
        (.GiveUpTask "p" 2001 orderAscending)).maps 13).entries = [("collect_herb", 0)] ∧
    (MapHeap.deref (runTasks NewTaskManager isolationCalls).maps 13).entries
      = [("collect_herb", 3)] ∧
    (MapHeap.deref (stepTask (runTasks NewTaskManager isolationCalls)
        (.GiveUpTask "p" 2001 orderAscending)).maps 21).entries = [("collect_herb", 3)] ∧
    (MapHeap.deref (stepTask (runTasks NewTaskManager isolationCalls)
        (.GiveUpTask "p" 2001 orderAscending)).maps 4).entries = [("collect_herb", 5)] := by
  decide

/-- C31: in every state reached from the fresh task manager, the maps of a
player's tasks are none of the templates' maps, and a call for one player
(`AcceptTask`, `SubmitTask`, `GiveUpTask` with its reset of the `ProgressMap`
entries, and the two getters alike) leaves the templates and the contents of
their maps, and the task list of every other player (every field, `Rewards`
included) with the contents of its `Targets` and `ProgressMap` maps,
unchanged. -/
theorem task_isolation (calls : List TaskCall) (c : TaskCall) (q : String)
    (hq : c.playerID ≠ q) :
    (∀ (p : String) (tasks : List Task),
      (runTasks NewTaskManager calls).playerTasks.get p = some tasks →
      ∀ t ∈ tasks, ∀ e ∈ (runTasks NewTaskManager calls).globalTasks.entries,
        t.Targets ≠ e.2.Targets ∧ t.Targets ≠ e.2.ProgressMap ∧
        t.ProgressMap ≠ e.2.Targets ∧ t.ProgressMap ≠ e.2.ProgressMap) ∧
    (stepTask (runTasks NewTaskManager calls) c).globalTasks =
      (runTasks NewTaskManager calls).globalTasks ∧
    (∀ e ∈ (runTasks NewTaskManager calls).globalTasks.entries,
      MapHeap.deref (stepTask (runTasks NewTaskManager calls) c).maps e.2.Targets =
        MapHeap.deref (runTasks NewTaskManager calls).maps e.2.Targets ∧
      MapHeap.deref (stepTask (runTasks NewTaskManager calls) c).maps e.2.ProgressMap =
        MapHeap.deref (runTasks NewTaskManager calls).maps e.2.ProgressMap) ∧
    (stepTask (runTasks NewTaskManager calls) c).playerTasks.get q =
      (runTasks NewTaskManager calls).playerTasks.get q ∧
    (∀ tasks, (runTasks NewTaskManager calls).playerTasks.get q = some tasks →
      ∀ u ∈ tasks,
        MapHeap.deref (stepTask (runTasks NewTaskManager calls) c).maps u.Targets =
          MapHeap.deref (runTasks NewTaskManager calls).maps u.Targets ∧
        MapHeap.deref (stepTask (runTasks NewTaskManager calls) c).maps u.ProgressMap =
          MapHeap.deref (runTasks NewTaskManager calls).maps u.ProgressMap) := by
  have hinv := mapsInv_run calls NewTaskManager mapsInv_new
  have hglobal := runTasks_globalTasks calls NewTaskManager
  have hinv1 := mapsInv_initIfAbsent (runTasks NewTaskManager calls) c.playerID c.order hinv
  obtain ⟨hderef, hget⟩ := stepTask_frame (runTasks NewTaskManager calls) c
  have hqc : q ≠ c.playerID := fun e => hq e.symm
  have hlow : ∀ a : Nat, a < 8 →
      MapHeap.deref (stepTask (runTasks NewTaskManager calls) c).maps a =
        MapHeap.deref (runTasks NewTaskManager calls).maps a := by
    intro a ha
    refine hderef a (Nat.lt_of_lt_of_le ha hinv.1) ?_
    intro tasks htasks t ht
    have h := hinv1.2.1 _ tasks htasks t ht
    unfold Ptr at *
    omega
  refine ⟨?_, stepTask_globalTasks _ c, ?_, hget q hqc, ?_⟩
  · intro p tasks hp t ht e he
    rw [hglobal] at he
    have h1 := template_ptrs e he
    have h2 := hinv.2.1 p tasks hp t ht
    unfold Ptr at *
    refine ⟨?_, ?_, ?_, ?_⟩ <;> omega
  · intro e he
    rw [hglobal] at he
    have h1 := template_ptrs e he
    exact ⟨hlow _ h1.1, hlow _ h1.2⟩
  · intro tasks hq2 u hu
    have hb := hinv.2.1 q tasks hq2 u hu
    have hq1 : (TaskManager.initIfAbsent (runTasks NewTaskManager calls) c.playerID
        c.order).playerTasks.get q = some tasks := by
      rw [initIfAbsent_get_other _ _ _ q hqc]
      exact hq2
    constructor
    · refine hderef _ hb.2.1 ?_
      intro tp htp t ht
      exact fun e => (hinv1.2.2 c.playerID q tp tasks hq htp hq1 t ht u hu).1 e.symm
    · refine hderef _ hb.2.2.2 ?_
      intro tp htp t ht
      exact fun e => (hinv1.2.2 c.playerID q tp tasks hq htp hq1 t ht u hu).2 e.symm

theorem task_isolation_witness :
    (stepTask (runTasks NewTaskManager isolationCalls)
        (.GiveUpTask "p" 2001 orderAscending)).playerTasks.get "q" =
      (runTasks NewTaskManager isolationCalls).playerTasks.get "q" ∧
    (∀ tasks, (runTasks NewTaskManager isolationCalls).playerTasks.get "q" = some tasks →
      ∀ u ∈ tasks,
        MapHeap.deref (stepTask (runTasks NewTaskManager isolationCalls)
            (.GiveUpTask "p" 2001 orderAscending)).maps u.Targets =
          MapHeap.deref (runTasks NewTaskManager isolationCalls).maps u.Targets ∧
        MapHeap.deref (stepTask (runTasks NewTaskManager isolationCalls)
            (.GiveUpTask "p" 2001 orderAscending)).maps u.ProgressMap =
          MapHeap.deref (runTasks NewTaskManager isolationCalls).maps u.ProgressMap) :=
  ⟨(task_isolation isolationCalls (.GiveUpTask "p" 2001 orderAscending) "q"
      (by decide)).2.2.2.1,
   (task_isolation isolationCalls (.GiveUpTask "p" 2001 orderAscending) "q"
      (by decide)).2.2.2.2⟩


/-! ## The shop: errors leave the state alone, limits are respected -/

theorem findInShop_some (itemID : Int) (l : List ShopItem) (i : Nat) (t : ShopItem)
    (h : findInShop itemID l = some (i, t)) : l[i]? = some t ∧ t.ItemID = itemID := by
  induction l generalizing i with
  | nil => simp [findInShop] at h
  | cons x l ih =>
    simp only [findInShop] at h
    by_cases hx : x.ItemID = itemID
    · rw [if_pos hx] at h
      have h' := Option.some.inj h
      have hi : i = 0 := (congrArg Prod.fst h').symm
      have ht : t = x := (congrArg Prod.snd h').symm
      subst hi
      subst ht
      exact ⟨by simp, hx⟩
    · rw [if_neg hx] at h
      cases hr : findInShop itemID l with
      | none => simp [hr] at h
      | some r =>
        rw [hr] at h
        have h' := Option.some.inj h
        have hi : i = r.1 + 1 := (congrArg Prod.fst h').symm
        have ht : t = r.2 := (congrArg Prod.snd h').symm
        subst hi
        subst ht
        obtain ⟨h1, h2⟩ := ih r.1 hr
        exact ⟨by simpa using h1, h2⟩

theorem findItem_some (shopItems : GoMap Int (List ShopItem)) (itemID : Int)
    (order : List Int) (k : Int) (i : Nat) (t : ShopItem)
    (h : findItem shopItems itemID order = some (k, i, t)) :
    ∃ items, shopItems.get k = some items ∧ items[i]? = some t ∧ t.ItemID = itemID := by
  induction order with
  | nil => simp [findItem] at h
  | cons shopType rest ih =>
    simp only [findItem] at h
    cases hr : findInShop itemID ((shopItems.get shopType).getD []) with
    | none =>
      rw [hr] at h
      exact ih h
    | some r =>
      rw [hr] at h
      have h' := Option.some.inj h
      have hk : shopType = k := congrArg Prod.fst h'
      have hi : r.1 = i := congrArg (fun x => x.2.1) h'
      have ht : r.2 = t := congrArg (fun x => x.2.2) h'
      subst hk
      subst hi
      subst ht
      obtain ⟨h1, h2⟩ := findInShop_some itemID _ r.1 r.2 hr
      cases hg : shopItems.get shopType with
      | none =>
        rw [hg] at h1
        simp at h1
      | some items =>
        rw [hg] at h1
        exact ⟨items, rfl, h1, h2⟩

theorem initPlayer_shopItems (m : ShopManager) (p : String) :
    (m.initPlayer p).shopItems = m.shopItems := by
  unfold ShopManager.initPlayer
  cases hb : m.playerBuys.get p <;> cases hc : m.playerCurrency.get p <;> simp [hb, hc]

theorem initPlayer_playerBuys (m : ShopManager) (p : String) :
    (m.initPlayer p).playerBuys =
      match m.playerBuys.get p with
      | some _ => m.playerBuys
      | none => m.playerBuys.set p GoMap.empty := by
  unfold ShopManager.initPlayer
  cases hb : m.playerBuys.get p <;> cases hc : m.playerCurrency.get p <;> simp [hc]

theorem initPlayer_buys_some (m : ShopManager) (p q : String) (buys : GoMap Int Int)
    (h : m.playerBuys.get q = some buys) : (m.initPlayer p).playerBuys.get q = some buys := by
  rw [initPlayer_playerBuys]
  cases hb : m.playerBuys.get p with
  | some _ => exact h
  | none =>
    have hq : q ≠ p := by
      intro e
      rw [e, hb] at h
      cases h
    show (m.playerBuys.set p GoMap.empty).get q = some buys
    rw [GoMap.get_set_ne _ _ hq]
    exact h

theorem initPlayer_buys_other (m : ShopManager) (p q : String) (hq : q ≠ p) :
    (m.initPlayer p).playerBuys.get q = m.playerBuys.get q := by
  rw [initPlayer_playerBuys]
  cases hb : m.playerBuys.get p with
  | some _ => rfl
  | none => exact GoMap.get_set_ne _ _ hq

theorem initPlayer_buys_new (m : ShopManager) (p : String) (h : m.playerBuys.get p = none) :
    (m.initPlayer p).playerBuys.get p = some GoMap.empty := by
  rw [initPlayer_playerBuys, h]
  exact GoMap.get_set_same _ _ _

theorem initPlayer_currency_eq (m : ShopManager) (p : String) :
    (m.initPlayer p).playerCurrency =
      match m.playerCurrency.get p with
      | some _ => m.playerCurrency
      | none => m.playerCurrency.set p { Coins := 10000, Gems := 1000 } := by
  unfold ShopManager.initPlayer
  cases hb : m.playerBuys.get p <;> cases hc : m.playerCurrency.get p <;> simp [hc]

theorem initPlayer_currency_some (m : ShopManager) (p q : String) (cur : PlayerCurrency)
    (h : m.playerCurrency.get q = some cur) :
    (m.initPlayer p).playerCurrency.get q = some cur := by
  rw [initPlayer_currency_eq]
  cases hc : m.playerCurrency.get p with
  | some _ => exact h
  | none =>
    have hq : q ≠ p := by
      intro e
      rw [e, hc] at h
      cases h
    show (m.playerCurrency.set p _).get q = some cur
    rw [GoMap.get_set_ne _ _ hq]
    exact h

theorem initPlayer_currency_other (m : ShopManager) (p q : String) (hq : q ≠ p) :
    (m.initPlayer p).playerCurrency.get q = m.playerCurrency.get q := by
  rw [initPlayer_currency_eq]
  cases hc : m.playerCurrency.get p with
  | some _ => rfl
  | none => exact GoMap.get_set_ne _ _ hq

theorem initPlayer_currency_new (m : ShopManager) (p : String)
    (h : m.playerCurrency.get p = none) :
    (m.initPlayer p).playerCurrency.get p = some { Coins := 10000, Gems := 1000 } := by
  rw [initPlayer_currency_eq, h]
  exact GoMap.get_set_same _ _ _

theorem initPlayer_boughtCount (m : ShopManager) (p q : String) (itemID : Int) :
    (m.initPlayer p).boughtCount q itemID = m.boughtCount q itemID := by
  unfold ShopManager.boughtCount
  by_cases hq : q = p
  · subst hq
    cases hb : m.playerBuys.get q with
    | some buys => rw [initPlayer_buys_some m q q buys hb]
    | none =>
      rw [initPlayer_buys_new m q hb]
      rfl
  · rw [initPlayer_buys_other m p q hq]

end GhServer

namespace GhServer

theorem buyItem_cases (f32mul : Int → Float32 → Int) (m : ShopManager) (p : String)
    (itemID count : Int) (env : ShopEnv) :
    ((∃ msg, (m.BuyItem f32mul p itemID count env).1 = .error msg ∧
        msg ∈ ["物品不存在", "物品已过期", "库存不足", "超出购买限制", "金币不足", "钻石不足"]) ∧
      (m.BuyItem f32mul p itemID count env).2 = m.initPlayer p) ∨
    ∃ (k : Int) (i : Nat) (t : ShopItem) (cur : PlayerCurrency) (total : Int),
      findItem (m.initPlayer p).shopItems itemID env.order = some (k, i, t) ∧
      ¬ (0 < t.Stock ∧ t.Stock < count) ∧
      ¬ (0 < t.MaxBuyCount ∧
          t.MaxBuyCount < wrapInt64 ((m.initPlayer p).boughtCount p itemID + count)) ∧
      m.BuyItem f32mul p itemID count env =
        ShopManager.deliver
          { shopItems := (m.initPlayer p).shopItems,
            playerBuys := (m.initPlayer p).playerBuys,
            playerCurrency := (m.initPlayer p).playerCurrency.set p cur }
          p itemID count env k i t total := by
  cases hf : findItem (m.initPlayer p).shopItems itemID env.order with
  | none => left; simp [ShopManager.BuyItem, hf]
  | some r =>
    obtain ⟨k, i, t⟩ := r
    by_cases h1 : 0 < t.ExpireTime ∧ t.ExpireTime < env.now
    · left; simp [ShopManager.BuyItem, hf, h1]
    · by_cases h2 : 0 < t.Stock ∧ t.Stock < count
      · left; simp [ShopManager.BuyItem, hf, h1, h2]
      · by_cases h3 : 0 < t.MaxBuyCount ∧
            t.MaxBuyCount < wrapInt64 ((m.initPlayer p).boughtCount p itemID + count)
        · left; simp [ShopManager.BuyItem, hf, h1, h2, h3]
        · by_cases h4 : t.CurrencyType = 1
          · by_cases h5 : ((m.initPlayer p).currencyOf p).Coins <
                wrapInt64 ((if t.IsDiscount = true ∧ env.now < t.ExpireTime then
                  f32mul t.OriginalPrice t.DiscountRate else t.CurrentPrice) * count)
            · left
              simp only [ShopManager.BuyItem, hf, h1, h2, h3, h4, h5, if_false, if_true]
              exact ⟨⟨_, rfl, by simp⟩, trivial⟩
            · right
              refine ⟨k, i, t,
                { (m.initPlayer p).currencyOf p with
                  Coins := wrapInt64 (((m.initPlayer p).currencyOf p).Coins -
                    wrapInt64 ((if t.IsDiscount = true ∧ env.now < t.ExpireTime then
                      f32mul t.OriginalPrice t.DiscountRate else t.CurrentPrice) * count)) },
                wrapInt64 ((if t.IsDiscount = true ∧ env.now < t.ExpireTime then
                  f32mul t.OriginalPrice t.DiscountRate else t.CurrentPrice) * count),
                rfl, h2, h3, ?_⟩
              simp only [ShopManager.BuyItem, hf, h1, h2, h3, h4, h5, if_false, if_true]
          · by_cases h5 : ((m.initPlayer p).currencyOf p).Gems <
                wrapInt64 ((if t.IsDiscount = true ∧ env.now < t.ExpireTime then
                  f32mul t.OriginalPrice t.DiscountRate else t.CurrentPrice) * count)
            · left
              simp only [ShopManager.BuyItem, hf, h1, h2, h3, h4, h5, if_false, if_true]
              exact ⟨⟨_, rfl, by simp⟩, trivial⟩
            · right
              refine ⟨k, i, t,
                { (m.initPlayer p).currencyOf p with
                  Gems := wrapInt64 (((m.initPlayer p).currencyOf p).Gems -
                    wrapInt64 ((if t.IsDiscount = true ∧ env.now < t.ExpireTime then
                      f32mul t.OriginalPrice t.DiscountRate else t.CurrentPrice) * count)) },
                wrapInt64 ((if t.IsDiscount = true ∧ env.now < t.ExpireTime then
                  f32mul t.OriginalPrice t.DiscountRate else t.CurrentPrice) * count),
                rfl, h2, h3, ?_⟩
              simp only [ShopManager.BuyItem, hf, h1, h2, h3, h4, h5, if_false, if_true]

end GhServer

namespace GhServer

theorem deliver_playerBuys (m : ShopManager) (p : String) (itemID count : Int) (env : ShopEnv)
    (k : Int) (i : Nat) (t : ShopItem) (total : Int) :
    (ShopManager.deliver m p itemID count env k i t total).2.playerBuys =
      m.playerBuys.set p (((m.playerBuys.get p).getD GoMap.empty).set itemID
        (wrapInt64 (m.boughtCount p itemID + count))) := by
  unfold ShopManager.deliver
  by_cases hs : 0 < t.Stock <;> by_cases hc : makeItemsPanics count <;> simp [hs, hc]

theorem deliver_playerCurrency (m : ShopManager) (p : String) (itemID count : Int)
    (env : ShopEnv) (k : Int) (i : Nat) (t : ShopItem) (total : Int) :
    (ShopManager.deliver m p itemID count env k i t total).2.playerCurrency =
      m.playerCurrency := by
  unfold ShopManager.deliver
  by_cases hs : 0 < t.Stock <;> by_cases hc : makeItemsPanics count <;> simp [hs, hc]

theorem deliver_shopItems (m : ShopManager) (p : String) (itemID count : Int) (env : ShopEnv)
    (k : Int) (i : Nat) (t : ShopItem) (total : Int) :
    (ShopManager.deliver m p itemID count env k i t total).2.shopItems =
      if 0 < t.Stock then
        m.shopItems.set k (((m.shopItems.get k).getD []).set i
          { t with Stock := wrapInt64 (t.Stock - count) })
      else m.shopItems := by
  unfold ShopManager.deliver
  by_cases hs : 0 < t.Stock <;> by_cases hc : makeItemsPanics count <;> simp [hs, hc]

theorem deliver_result (m : ShopManager) (p : String) (itemID count : Int) (env : ShopEnv)
    (k : Int) (i : Nat) (t : ShopItem) (total : Int) :
    (makeItemsPanics count →
      (ShopManager.deliver m p itemID count env k i t total).1 = .panic) ∧
    (¬ makeItemsPanics count → ∃ boughtItems, boughtItems.length = count.toNat ∧
      (ShopManager.deliver m p itemID count env k i t total).1 =
        .ok boughtItems total t.CurrencyType) := by
  unfold ShopManager.deliver
  constructor
  · intro hc
    simp [hc]
  · intro hc
    simp only [hc, if_false]
    exact ⟨_, by simp, rfl⟩

theorem deliver_boughtCount (m : ShopManager) (p : String) (itemID count : Int)
    (env : ShopEnv) (k : Int) (i : Nat) (t : ShopItem) (total : Int) (q : String)
    (id2 : Int) :
    (ShopManager.deliver m p itemID count env k i t total).2.boughtCount q id2 =
      if q = p ∧ id2 = itemID then wrapInt64 (m.boughtCount p itemID + count)
      else m.boughtCount q id2 := by
  unfold ShopManager.boughtCount
  rw [deliver_playerBuys]
  by_cases hq : q = p
  · subst hq
    rw [GoMap.get_set_same]
    by_cases hid : id2 = itemID
    · subst hid
      simp [GoMap.get_set_same, ShopManager.boughtCount]
    · simp [GoMap.get_set_ne _ _ hid, hid]
  · rw [GoMap.get_set_ne _ _ hq]
    simp [hq]

theorem deliver_items (m : ShopManager) (p : String) (itemID count : Int) (env : ShopEnv)
    (k : Int) (i : Nat) (t : ShopItem) (total : Int) (items : List ShopItem)
    (hk : m.shopItems.get k = some items) (hi : items[i]? = some t)
    (k2 : Int) (items2 : List ShopItem) (it2 : ShopItem)
    (h2 : (ShopManager.deliver m p itemID count env k i t total).2.shopItems.get k2
      = some items2) (hmem : it2 ∈ items2) :
    ∃ items0 it0, m.shopItems.get k2 = some items0 ∧ it0 ∈ items0 ∧
      it2.ItemID = it0.ItemID ∧ it2.MaxBuyCount = it0.MaxBuyCount := by
  rw [deliver_shopItems] at h2
  by_cases hs : 0 < t.Stock
  · rw [if_pos hs] at h2
    by_cases hk2 : k2 = k
    · subst hk2
      rw [GoMap.get_set_same] at h2
      rw [hk] at h2
      have h3 := Option.some.inj h2
      rw [← h3] at hmem
      rcases List.mem_or_eq_of_mem_set hmem with hm | hm
      · exact ⟨items, it2, hk, hm, rfl, rfl⟩
      · rw [hm]
        exact ⟨items, t, hk, List.getElem?_mem hi, rfl, rfl⟩
    · rw [GoMap.get_set_ne _ _ hk2] at h2
      exact ⟨items2, it2, h2, hmem, rfl, rfl⟩
  · rw [if_neg hs] at h2
    exact ⟨items2, it2, h2, hmem, rfl, rfl⟩

theorem getShopList_state (f32mul : Int → Float32 → Int) (m : ShopManager) (p : String)
    (shopType now : Int) : (m.GetShopList f32mul p shopType now).2 = m.initPlayer p := by
  cases hg : (m.initPlayer p).shopItems.get shopType with
  | none => simp [ShopManager.GetShopList, hg]
  | some items => simp [ShopManager.GetShopList, hg]

theorem limitInv_initPlayer (m : ShopManager) (p : String) (hinv : LimitInv m) :
    LimitInv (m.initPlayer p) := by
  obtain ⟨h1, h2⟩ := hinv
  constructor
  · intro k1 k2 items1 items2 it1 it2 hk1 hm1 hk2 hm2 hid
    rw [initPlayer_shopItems] at hk1 hk2
    exact h1 k1 k2 items1 items2 it1 it2 hk1 hm1 hk2 hm2 hid
  · intro q k items it hk hm hpos
    rw [initPlayer_shopItems] at hk
    rw [initPlayer_boughtCount]
    exact h2 q k items it hk hm hpos

theorem limitInv_step (f32mul : Int → Float32 → Int) (m : ShopManager) (c : ShopCall)
    (hinv : LimitInv m) : LimitInv (stepShop f32mul m c) := by
  cases c with
  | GetShopList p shopType now =>
    simp only [stepShop, getShopList_state]
    exact limitInv_initPlayer m p hinv
  | BuyItem p itemID count env =>
    have hinv1 := limitInv_initPlayer m p hinv
    simp only [stepShop]
    rcases buyItem_cases f32mul m p itemID count env with
      ⟨_, hst⟩ | ⟨k, i, t, cur, total, hf, _, hlim, hst⟩
    · rw [hst]
      exact hinv1
    · rw [hst]
      obtain ⟨items, hk, hi, hid⟩ := findItem_some _ _ _ _ _ _ hf
      obtain ⟨h1, h2⟩ := hinv1
      have key := deliver_items
        { shopItems := (m.initPlayer p).shopItems, playerBuys := (m.initPlayer p).playerBuys,
          playerCurrency := (m.initPlayer p).playerCurrency.set p cur }
        p itemID count env k i t total items hk hi
      constructor
      · intro k1 k2 items1 items2 it1 it2 hk1 hm1 hk2 hm2 hid12
        obtain ⟨a0, b0, ha, hb, e1, e2⟩ := key k1 items1 it1 hk1 hm1
        obtain ⟨c0, d0, hc, hd, e3, e4⟩ := key k2 items2 it2 hk2 hm2
        rw [e2, e4]
        exact h1 k1 k2 a0 c0 b0 d0 ha hb hc hd (by rw [← e1, ← e3]; exact hid12)
      · intro q k2 items2 it2 hk2 hm2 hpos
        obtain ⟨a0, b0, ha, hb, e1, e2⟩ := key k2 items2 it2 hk2 hm2
        rw [deliver_boughtCount]
        by_cases hq : q = p ∧ it2.ItemID = itemID
        · rw [if_pos hq]
          have hmax : b0.MaxBuyCount = t.MaxBuyCount :=
            h1 k2 k a0 items b0 t ha hb hk (List.getElem?_mem hi)
              (by rw [← e1, hq.2, hid])
          have hb0 : (ShopManager.boughtCount
              { shopItems := (m.initPlayer p).shopItems,
                playerBuys := (m.initPlayer p).playerBuys,
                playerCurrency := (m.initPlayer p).playerCurrency.set p cur } p itemID) =
              (m.initPlayer p).boughtCount p itemID := rfl
          rw [hb0, e2, hmax]
          rw [e2, hmax] at hpos
          by_contra hgt
          exact hlim ⟨hpos, by omega⟩
        · rw [if_neg hq, e1, e2]
          rw [e2] at hpos
          exact h2 q k2 a0 b0 ha hb hpos

theorem limitInv_run (f32mul : Int → Float32 → Int) (calls : List ShopCall) :
    ∀ (m : ShopManager), LimitInv m → LimitInv (runShop f32mul m calls) := by
  induction calls with
  | nil => intro m h; exact h
  | cons c cs ih => intro m h; exact ih (stepShop f32mul m c) (limitInv_step f32mul m c h)

end GhServer

namespace GhServer

theorem newShop_entries (now0 : Int) :
    (NewShopManager now0).shopItems.entries.map
        (fun e => (e.1, e.2.map (fun it => (it.ItemID, it.MaxBuyCount)))) =
      [(3, [(4001, 0)]), (2, [(2005, 1), (3001, 5)]), (1, [(1001, 0), (1002, 0), (2001, 0)])] := by
  rfl

theorem newShop_limits (now0 : Int) (k : Int) (items : List ShopItem) (it : ShopItem)
    (hk : (NewShopManager now0).shopItems.get k = some items) (hm : it ∈ items) :
    it.MaxBuyCount = (if it.ItemID = 2005 then 1 else if it.ItemID = 3001 then 5 else 0) ∧
    0 ≤ it.MaxBuyCount := by
  have h1 := GoMap.lookup_mem hk
  have h2 : (it.ItemID, it.MaxBuyCount) ∈
      ((NewShopManager now0).shopItems.entries.map
        (fun e => e.2.map (fun it => (it.ItemID, it.MaxBuyCount)))).flatten := by
    rw [List.mem_flatten]
    exact ⟨items.map (fun it => (it.ItemID, it.MaxBuyCount)),
      List.mem_map.mpr ⟨(k, items), h1, rfl⟩, List.mem_map.mpr ⟨it, hm, rfl⟩⟩
  have h3 : ((NewShopManager now0).shopItems.entries.map
        (fun e => e.2.map (fun it => (it.ItemID, it.MaxBuyCount)))).flatten =
      [(4001, 0), (2005, 1), (3001, 5), (1001, 0), (1002, 0), (2001, 0)] := by
    rfl
  rw [h3] at h2
  simp only [List.mem_cons, List.mem_singleton, List.not_mem_nil, or_false, Prod.mk.injEq] at h2
  rcases h2 with h | h | h | h | h | h <;> obtain ⟨e1, e2⟩ := h <;> rw [e1, e2] <;> decide

theorem limitInv_new (now0 : Int) : LimitInv (NewShopManager now0) := by
  constructor
  · intro k1 k2 items1 items2 it1 it2 hk1 hm1 hk2 hm2 hid
    rw [(newShop_limits now0 k1 items1 it1 hk1 hm1).1,
      (newShop_limits now0 k2 items2 it2 hk2 hm2).1, hid]
  · intro q k items it hk hm hpos
    have h0 : (NewShopManager now0).boughtCount q it.ItemID = 0 := rfl
    rw [h0]
    exact (newShop_limits now0 k items it hk hm).2

set_option maxRecDepth 100000 in
theorem limitCalls_state :
    (runShop sampleF32mul (NewShopManager 0) limitCalls).boughtCount "p" 3001 = 5 ∧
    ((runShop sampleF32mul (NewShopManager 0) limitCalls).shopItems.get 2).map
        (fun items => items.map (fun it => (it.ItemID, it.MaxBuyCount, it.Stock))) =
      some [(2005, 1, 10), (3001, 5, 15)] ∧
    ((runShop sampleF32mul (NewShopManager 0) [.BuyItem "p" 3001 5 sampleShopEnv]).BuyItem
      sampleF32mul "p" 3001 1 sampleShopEnv).1 = .error "超出购买限制" := by
  decide

/-- C34: in every state reached from a fresh shop by `GetShopList` and
`BuyItem` calls (any players, items, counts, clock readings, iteration orders
and unit prices), the recorded bought count `playerBuys[player][item]` of every
player for every shop item with `MaxBuyCount > 0` is at most that
`MaxBuyCount`. -/
theorem bought_count_within_limit (f32mul : Int → Float32 → Int) (now0 : Int)
    (calls : List ShopCall) (playerID : String) (k : Int) (items : List ShopItem)
    (it : ShopItem)
    (hk : (runShop f32mul (NewShopManager now0) calls).shopItems.get k = some items)
    (hit : it ∈ items) (hpos : 0 < it.MaxBuyCount) :
    (runShop f32mul (NewShopManager now0) calls).boughtCount playerID it.ItemID
      ≤ it.MaxBuyCount :=
  (limitInv_run f32mul calls (NewShopManager now0) (limitInv_new now0)).2 playerID k items it
    hk hit hpos

theorem bought_count_within_limit_witness :
    (runShop sampleF32mul (NewShopManager 0) limitCalls).boughtCount "p" 3001 ≤ 5 :=
  bought_count_within_limit sampleF32mul 0 limitCalls "p" 2
    [{ ItemID := 2005, OriginalPrice := 5000, CurrentPrice := 3500, CurrencyType := 1,
       Stock := 10, MaxBuyCount := 1, BoughtCount := 0, ExpireTime := 604800,
       IsDiscount := true, DiscountRate := ⟨7, -1⟩ },
     { ItemID := 3001, OriginalPrice := 100, CurrentPrice := 80, CurrencyType := 2,
       Stock := 15, MaxBuyCount := 5, BoughtCount := 0, ExpireTime := 604800,
       IsDiscount := true, DiscountRate := ⟨8, -1⟩ }]
    { ItemID := 3001, OriginalPrice := 100, CurrentPrice := 80, CurrencyType := 2,
      Stock := 15, MaxBuyCount := 5, BoughtCount := 0, ExpireTime := 604800,
      IsDiscount := true, DiscountRate := ⟨8, -1⟩ }
    (by decide) (by decide) (by decide)

/-- C35: whenever `BuyItem` returns an error, the error is one of the six of
the method (unknown item, expired item, insufficient stock, limit exceeded,
insufficient coins, insufficient gems) and the state after is the state after
the prologue alone: the shop items (hence every stock) are unchanged, every
purchase record and every currency record that existed is unchanged, and a
caller without records has got the default ones (no purchases, 10000 coins and
1000 gems). -/
theorem buyItem_error_atomic (f32mul : Int → Float32 → Int) (m : ShopManager)
    (playerID : String) (itemID count : Int) (env : ShopEnv) (msg : String)
    (herr : (m.BuyItem f32mul playerID itemID count env).1 = .error msg) :
    msg ∈ ["物品不存在", "物品已过期", "库存不足", "超出购买限制", "金币不足", "钻石不足"] ∧
    (m.BuyItem f32mul playerID itemID count env).2 = m.initPlayer playerID ∧
    (m.BuyItem f32mul playerID itemID count env).2.shopItems = m.shopItems ∧
    (∀ q buys, m.playerBuys.get q = some buys →
      (m.BuyItem f32mul playerID itemID count env).2.playerBuys.get q = some buys) ∧
    (∀ q cur, m.playerCurrency.get q = some cur →
      (m.BuyItem f32mul playerID itemID count env).2.playerCurrency.get q = some cur) ∧
    (∀ q, q ≠ playerID →
      (m.BuyItem f32mul playerID itemID count env).2.playerBuys.get q = m.playerBuys.get q ∧
      (m.BuyItem f32mul playerID itemID count env).2.playerCurrency.get q
        = m.playerCurrency.get q) ∧
    (m.playerBuys.get playerID = none →
      (m.BuyItem f32mul playerID itemID count env).2.playerBuys.get playerID
        = some GoMap.empty) ∧
    (m.playerCurrency.get playerID = none →
      (m.BuyItem f32mul playerID itemID count env).2.playerCurrency.get playerID
        = some { Coins := 10000, Gems := 1000 }) := by
  have hst : (m.BuyItem f32mul playerID itemID count env).2 = m.initPlayer playerID ∧
      msg ∈ ["物品不存在", "物品已过期", "库存不足", "超出购买限制", "金币不足", "钻石不足"] := by
    rcases buyItem_cases f32mul m playerID itemID count env with
      ⟨⟨msg2, h1, h2⟩, hst⟩ | ⟨k, i, t, cur, total, _, _, _, hst⟩
    · rw [h1] at herr
      have e : msg2 = msg := BuyResult.error.inj herr
      rw [← e]
      exact ⟨hst, h2⟩
    · exfalso
      rw [hst] at herr
      by_cases hc : makeItemsPanics count
      · rw [(deliver_result _ playerID itemID count env k i t total).1 hc] at herr
        cases herr
      · obtain ⟨b, _, hb⟩ := (deliver_result
          { shopItems := (m.initPlayer playerID).shopItems,
            playerBuys := (m.initPlayer playerID).playerBuys,
            playerCurrency := (m.initPlayer playerID).playerCurrency.set playerID cur }
          playerID itemID count env k i t total).2 hc
        rw [hb] at herr
        cases herr
  rw [hst.1]
  exact ⟨hst.2, rfl, initPlayer_shopItems m playerID,
    fun q buys h => initPlayer_buys_some m playerID q buys h,
    fun q cur h => initPlayer_currency_some m playerID q cur h,
    fun q hq => ⟨initPlayer_buys_other m playerID q hq,
      initPlayer_currency_other m playerID q hq⟩,
    initPlayer_buys_new m playerID, initPlayer_currency_new m playerID⟩

set_option maxRecDepth 100000 in
theorem unknownItem_error (f32mul : Int → Float32 → Int) :
    ((NewShopManager 0).BuyItem f32mul "p" 9999 1 sampleShopEnv).1 = .error "物品不存在" := by
  rfl

theorem buyItem_error_atomic_witness :
    ((NewShopManager 0).BuyItem sampleF32mul "p" 9999 1 sampleShopEnv).2 =
      (NewShopManager 0).initPlayer "p" ∧
    ((NewShopManager 0).BuyItem sampleF32mul "p" 9999 1 sampleShopEnv).2.playerCurrency.get "p"
      = some { Coins := 10000, Gems := 1000 } :=
  ⟨(buyItem_error_atomic sampleF32mul (NewShopManager 0) "p" 9999 1 sampleShopEnv
      "物品不存在" (unknownItem_error sampleF32mul)).2.1,
   (buyItem_error_atomic sampleF32mul (NewShopManager 0) "p" 9999 1 sampleShopEnv
      "物品不存在" (unknownItem_error sampleF32mul)).2.2.2.2.2.2.2 (by decide)⟩

end GhServer

namespace GhServer

/-! ## The shop: purchases with a negative count, and sold-out items -/

set_option maxRecDepth 100000 in
theorem negativeCount_trace (f32mul : Int → Float32 → Int) :
    ((NewShopManager 0).BuyItem f32mul "p" 1001 (-1) sampleShopEnv).1 = .panic ∧
    (((NewShopManager 0).initPlayer "p").currencyOf "p").Coins = 10000 ∧
    (((NewShopManager 0).BuyItem f32mul "p" 1001 (-1) sampleShopEnv).2.currencyOf "p").Coins
      = 10100 ∧
    ((NewShopManager 0).BuyItem f32mul "p" 1001 (-1) sampleShopEnv).2.boughtCount "p" 1001
      = -1 ∧
    (((NewShopManager 0).shopItems.get 1).getD []).map (fun it => (it.ItemID, it.Stock))
      = [(1001, 999), (1002, 999), (2001, 50)] ∧
    ((((NewShopManager 0).BuyItem f32mul "p" 1001 (-1) sampleShopEnv).2.shopItems.get
      1).getD []).map (fun it => (it.ItemID, it.Stock))
      = [(1001, 1000), (1002, 999), (2001, 50)] := by
  refine ⟨?_, ?_, ?_, ?_, ?_, ?_⟩ <;> rfl

theorem buyItem_negative_never_ok (f32mul : Int → Float32 → Int) (m : ShopManager)
    (p : String) (itemID count : Int) (env : ShopEnv) (hc : count < 0)
    (boughtItems : List Item) (total currencyType : Int) :
    (m.BuyItem f32mul p itemID count env).1 ≠ .ok boughtItems total currencyType := by
  intro h
  rcases buyItem_cases f32mul m p itemID count env with
    ⟨⟨msg, h1, _⟩, _⟩ | ⟨k, i, t, cur, total2, _, _, _, hst⟩
  · rw [h1] at h
    cases h
  · rw [hst, (deliver_result _ p itemID count env k i t total2).1 (Or.inl hc)] at h
    cases h

set_option maxRecDepth 100000 in
theorem oversell_trace :
    (((NewShopManager 0).shopItems.get 1).getD []).map (fun it => (it.ItemID, it.Stock))
      = [(1001, 999), (1002, 999), (2001, 50)] ∧
    unitsSold sampleF32mul 2001 (NewShopManager 0) (oversellCalls.take 5) = 50 ∧
    (((runShop sampleF32mul (NewShopManager 0) (oversellCalls.take 5)).shopItems.get
      1).getD []).map (fun it => (it.ItemID, it.Stock))
      = [(1001, 999), (1002, 999), (2001, 0)] ∧
    ((runShop sampleF32mul (NewShopManager 0) (oversellCalls.take 5)).BuyItem sampleF32mul
      "p6" 2001 1 sampleShopEnv).1 =
      .ok [{ ID := "p6_item_2001_1000000000", ItemID := 2001, Count := 1, CreateTime := 1,
             Attrs := GoMap.empty.set "source" "shop" }] 900 1 ∧
    unitsSold sampleF32mul 2001 (NewShopManager 0) oversellCalls = 51 := by
  decide

/-- C33: item 2001 starts with `Stock` 50. Five players buy ten units each,
which all succeed and bring the stock to 0; a sixth player then buys one more
unit and the call succeeds, because the stock check is skipped once `Stock` is
0: 51 units are sold. -/
theorem stock_oversold :
    (((NewShopManager 0).shopItems.get 1).getD []).map (fun it => (it.ItemID, it.Stock))
      = [(1001, 999), (1002, 999), (2001, 50)] ∧
    unitsSold sampleF32mul 2001 (NewShopManager 0) (oversellCalls.take 5) = 50 ∧
    (((runShop sampleF32mul (NewShopManager 0) (oversellCalls.take 5)).shopItems.get
      1).getD []).map (fun it => (it.ItemID, it.Stock))
      = [(1001, 999), (1002, 999), (2001, 0)] ∧
    ((runShop sampleF32mul (NewShopManager 0) (oversellCalls.take 5)).BuyItem sampleF32mul
      "p6" 2001 1 sampleShopEnv).1 =
      .ok [{ ID := "p6_item_2001_1000000000", ItemID := 2001, Count := 1, CreateTime := 1,
             Attrs := GoMap.empty.set "source" "shop" }] 900 1 ∧
    unitsSold sampleF32mul 2001 (NewShopManager 0) oversellCalls = 51 :=
  oversell_trace


/-! ## Mail: attachments are handed out at most once -/

theorem receive_cases (m : MailManager) (p mailID : String) (now : Int) :
    ((∃ err, (m.ReceiveAttachment p mailID now).1 = .error err) ∧
      (m.ReceiveAttachment p mailID now).2 = m ∧
      ¬ ∃ playerMails mail, m.mails.get p = some playerMails ∧
        playerMails.get mailID = some mail ∧ ¬ mail.ExpireTime < now ∧
        mail.IsReceived = false ∧ mail.Attachments ≠ []) ∨
    ∃ playerMails mail, m.mails.get p = some playerMails ∧
      playerMails.get mailID = some mail ∧ ¬ mail.ExpireTime < now ∧
      mail.IsReceived = false ∧ mail.Attachments ≠ [] ∧
      m.ReceiveAttachment p mailID now =
        (.ok mail.Attachments,
         { mails := m.mails.set p (playerMails.set mailID { mail with IsReceived := true }) }) := by
  cases hp : m.mails.get p with
  | none =>
    left
    refine ⟨⟨"玩家不存在", ?_⟩, ?_, ?_⟩
    · simp [MailManager.ReceiveAttachment, MailManager.GetMailDetail, hp]
    · simp [MailManager.ReceiveAttachment, MailManager.GetMailDetail, hp]
    · rintro ⟨pm, mail, h, _⟩
      cases h
  | some pm =>
    cases hm : pm.get mailID with
    | none =>
      left
      refine ⟨⟨"邮件不存在", ?_⟩, ?_, ?_⟩
      · simp [MailManager.ReceiveAttachment, MailManager.GetMailDetail, hp, hm]
      · simp [MailManager.ReceiveAttachment, MailManager.GetMailDetail, hp, hm]
      · rintro ⟨pm2, mail, h, h2, _⟩
        cases h
        rw [hm] at h2
        cases h2
    | some mail =>
      by_cases he : mail.ExpireTime < now
      · left
        refine ⟨⟨"邮件已过期", ?_⟩, ?_, ?_⟩
        · simp [MailManager.ReceiveAttachment, MailManager.GetMailDetail, hp, hm, he]
        · simp [MailManager.ReceiveAttachment, MailManager.GetMailDetail, hp, hm, he]
        · rintro ⟨pm2, mail2, h, h2, h3, _⟩
          cases h
          rw [hm] at h2
          cases h2
          exact h3 he
      · by_cases hr : mail.IsReceived = true
        · left
          refine ⟨⟨"附件已领取", ?_⟩, ?_, ?_⟩
          · simp [MailManager.ReceiveAttachment, MailManager.GetMailDetail, hp, hm, he, hr]
          · simp [MailManager.ReceiveAttachment, MailManager.GetMailDetail, hp, hm, he, hr]
          · rintro ⟨pm2, mail2, h, h2, _, h4, _⟩
            cases h
            rw [hm] at h2
            cases h2
            rw [hr] at h4
            cases h4
        · by_cases ha : mail.Attachments = []
          · left
            refine ⟨⟨"邮件没有附件", ?_⟩, ?_, ?_⟩
            · simp [MailManager.ReceiveAttachment, MailManager.GetMailDetail, hp, hm, he, hr, ha]
            · simp [MailManager.ReceiveAttachment, MailManager.GetMailDetail, hp, hm, he, hr, ha]
            · rintro ⟨pm2, mail2, h, h2, _, _, h5⟩
              cases h
              rw [hm] at h2
              cases h2
              exact h5 ha
          · right
            have hr2 : mail.IsReceived = false := by
              cases hx : mail.IsReceived
              · rfl
              · exact absurd hx hr
            refine ⟨pm, mail, rfl, hm, he, hr2, ha, ?_⟩
            simp [MailManager.ReceiveAttachment, MailManager.GetMailDetail, hp, hm, he, hr2, ha]

end GhServer

namespace GhServer

theorem foldl_delete_get (ids : List String) (pm : GoMap String Mail) (mailID : String)
    (mail : Mail)
    (h : (ids.foldl (fun acc i => acc.delete i) pm).get mailID = some mail) :
    pm.get mailID = some mail := by
  induction ids generalizing pm with
  | nil => exact h
  | cons i rest ih =>
    simp only [List.foldl_cons] at h
    exact GoMap.get_delete_some pm (ih _ h)

theorem getMailList_state (m : MailManager) (q : String) (page pageSize : Int)
    (env : MailEnv) :
    (m.GetMailList q page pageSize env).2 =
      match m.mails.get q with
      | some _ => m
      | none => m.generateExampleMails q env.genNow := by
  unfold MailManager.GetMailList
  dsimp only
  split_ifs <;> rfl

theorem markAsRead_cases (m : MailManager) (q i : String) :
    m.MarkAsRead q i = m ∨
    ∃ qm mail, m.mails.get q = some qm ∧ qm.get i = some mail ∧
      m.MarkAsRead q i =
        { mails := m.mails.set q (qm.set i { mail with IsRead := true }) } := by
  cases hq : m.mails.get q with
  | none => left; simp [MailManager.MarkAsRead, hq]
  | some qm =>
    cases hi : qm.get i with
    | none => left; simp [MailManager.MarkAsRead, hq, hi]
    | some mail =>
      right
      exact ⟨qm, mail, rfl, hi, by simp [MailManager.MarkAsRead, hq, hi]⟩

theorem deleteMail_cases (m : MailManager) (q : String) (ids : List String) :
    (m.DeleteMail q ids).2 = m ∨
    ∃ qm, m.mails.get q = some qm ∧
      (m.DeleteMail q ids).2 =
        { mails := m.mails.set q (ids.foldl (fun acc i => acc.delete i) qm) } := by
  cases hq : m.mails.get q with
  | none => left; simp [MailManager.DeleteMail, hq]
  | some qm =>
    right
    exact ⟨qm, rfl, by simp [MailManager.DeleteMail, hq]⟩

theorem claimed_step (m : MailManager) (c : MailCall) (p mailID : String)
    (h : Claimed m p mailID) : Claimed (stepMail m c) p mailID := by
  obtain ⟨pm, hp, hall⟩ := h
  cases c with
  | GetMailList q page pageSize env =>
    simp only [stepMail, getMailList_state]
    cases hq : m.mails.get q with
    | some _ => exact ⟨pm, hp, hall⟩
    | none =>
      have hpq : p ≠ q := by
        intro e
        rw [e, hq] at hp
        cases hp
      refine ⟨pm, ?_, hall⟩
      show (m.mails.set q _).get p = some pm
      rw [GoMap.get_set_ne _ _ hpq]
      exact hp
  | GetMailDetail q i now => exact ⟨pm, hp, hall⟩
  | MarkAsRead q i =>
    simp only [stepMail]
    rcases markAsRead_cases m q i with hst | ⟨qm, mail, hq, hi, hst⟩
    · rw [hst]
      exact ⟨pm, hp, hall⟩
    · rw [hst]
      by_cases hpq : p = q
      · subst hpq
        rw [hp] at hq
        cases hq
        refine ⟨_, GoMap.get_set_same _ _ _, ?_⟩
        intro x hx
        by_cases hid : mailID = i
        · subst hid
          rw [GoMap.get_set_same] at hx
          rw [← Option.some.inj hx]
          exact hall mail hi
        · rw [GoMap.get_set_ne _ _ hid] at hx
          exact hall x hx
      · refine ⟨pm, ?_, hall⟩
        show (m.mails.set q _).get p = some pm
        rw [GoMap.get_set_ne _ _ hpq]
        exact hp
  | ReceiveAttachment q i now =>
    simp only [stepMail]
    rcases receive_cases m q i now with ⟨_, hst, _⟩ | ⟨qm, mail, hq, hi, _, _, _, hst⟩
    · rw [hst]
      exact ⟨pm, hp, hall⟩
    · rw [hst]
      by_cases hpq : p = q
      · subst hpq
        rw [hp] at hq
        cases hq
        refine ⟨_, GoMap.get_set_same _ _ _, ?_⟩
        intro x hx
        by_cases hid : mailID = i
        · subst hid
          rw [GoMap.get_set_same] at hx
          rw [← Option.some.inj hx]
        · rw [GoMap.get_set_ne _ _ hid] at hx
          exact hall x hx
      · refine ⟨pm, ?_, hall⟩
        show (m.mails.set q _).get p = some pm
        rw [GoMap.get_set_ne _ _ hpq]
        exact hp
  | DeleteMail q ids =>
    simp only [stepMail]
    rcases deleteMail_cases m q ids with hst | ⟨qm, hq, hst⟩
    · rw [hst]
      exact ⟨pm, hp, hall⟩
    · rw [hst]
      by_cases hpq : p = q
      · subst hpq
        rw [hp] at hq
        cases hq
        refine ⟨_, GoMap.get_set_same _ _ _, ?_⟩
        intro x hx
        exact hall x (foldl_delete_get ids pm mailID x hx)
      · refine ⟨pm, ?_, hall⟩
        show (m.mails.set q _).get p = some pm
        rw [GoMap.get_set_ne _ _ hpq]
        exact hp

theorem claimed_no_receive (m : MailManager) (c : MailCall) (p mailID : String)
    (h : Claimed m p mailID) : isSuccessfulReceive m p mailID c = false := by
  cases c with
  | ReceiveAttachment q i now =>
    cases hb : isSuccessfulReceive m p mailID (.ReceiveAttachment q i now) with
    | false => rfl
    | true =>
      exfalso
      simp only [isSuccessfulReceive, Bool.and_eq_true, decide_eq_true_eq] at hb
      obtain ⟨⟨hq, hi⟩, hok⟩ := hb
      subst hq
      subst hi
      obtain ⟨pm, hp, hall⟩ := h
      rcases receive_cases m q i now with ⟨⟨err, he⟩, _, _⟩ | ⟨qm, mail, hq, hi, _, hr, _, _⟩
      · rw [he] at hok
        cases hok
      · rw [hp] at hq
        cases hq
        rw [hall mail hi] at hr
        cases hr
  | GetMailList q page pageSize env => rfl
  | GetMailDetail q i now => rfl
  | MarkAsRead q i => rfl
  | DeleteMail q ids => rfl

theorem receive_claimed (m : MailManager) (c : MailCall) (p mailID : String)
    (hb : isSuccessfulReceive m p mailID c = true) : Claimed (stepMail m c) p mailID := by
  cases c with
  | ReceiveAttachment q i now =>
    simp only [isSuccessfulReceive, Bool.and_eq_true, decide_eq_true_eq] at hb
    obtain ⟨⟨hq, hi⟩, hok⟩ := hb
    subst hq
    subst hi
    simp only [stepMail]
    rcases receive_cases m q i now with ⟨⟨err, he⟩, _, _⟩ | ⟨qm, mail, hq, hi, _, _, _, hst⟩
    · rw [he] at hok
      cases hok
    · rw [hst]
      refine ⟨_, GoMap.get_set_same _ _ _, ?_⟩
      intro x hx
      rw [GoMap.get_set_same] at hx
      rw [← Option.some.inj hx]
  | GetMailList q page pageSize env => simp [isSuccessfulReceive] at hb
  | GetMailDetail q i now => simp [isSuccessfulReceive] at hb
  | MarkAsRead q i => simp [isSuccessfulReceive] at hb
  | DeleteMail q ids => simp [isSuccessfulReceive] at hb

theorem successfulReceives_claimed (p mailID : String) (calls : List MailCall) :
    ∀ (m : MailManager), Claimed m p mailID → successfulReceives p mailID m calls = 0 := by
  induction calls with
  | nil => intro m _; rfl
  | cons c cs ih =>
    intro m h
    simp only [successfulReceives]
    rw [claimed_no_receive m c p mailID h, ih _ (claimed_step m c p mailID h)]
    rfl

theorem successfulReceives_bound (p mailID : String) (calls : List MailCall) :
    ∀ (m : MailManager), successfulReceives p mailID m calls ≤ 1 := by
  induction calls with
  | nil => intro m; exact Nat.zero_le _
  | cons c cs ih =>
    intro m
    simp only [successfulReceives]
    cases hb : isSuccessfulReceive m p mailID c with
    | false =>
      simp only [Bool.false_eq_true, if_false, Nat.zero_add]
      exact ih _
    | true =>
      rw [successfulReceives_claimed p mailID cs _ (receive_claimed m c p mailID hb)]
      simp

/-- C36: `ReceiveAttachment(player, mail)` returns attachments exactly when the
player has a mail map holding the mail, the mail is not expired
(`ExpireTime >= now`, the test of `GetMailDetail`), its `IsReceived` is false
and it has at least one attachment; it then returns the mail's attachments and
sets `IsReceived` in that mail and nothing else, and on an error the state is
unchanged. Over every sequence of `GetMailList`, `GetMailDetail`, `MarkAsRead`,
`ReceiveAttachment` and `DeleteMail` calls from every state, the attachments of
a given mail of a given player are returned at most once. -/
theorem receiveAttachment_once (m : MailManager) (playerID mailID : String) (now : Int)
    (calls : List MailCall) :
    ((∃ attachments, (m.ReceiveAttachment playerID mailID now).1 = .ok attachments) ↔
      ∃ playerMails mail, m.mails.get playerID = some playerMails ∧
        playerMails.get mailID = some mail ∧ ¬ mail.ExpireTime < now ∧
        mail.IsReceived = false ∧ mail.Attachments ≠ []) ∧
    (∀ playerMails mail, m.mails.get playerID = some playerMails →
      playerMails.get mailID = some mail → ¬ mail.ExpireTime < now →
      mail.IsReceived = false → mail.Attachments ≠ [] →
      m.ReceiveAttachment playerID mailID now =
        (.ok mail.Attachments,
         { mails := m.mails.set playerID
             (playerMails.set mailID { mail with IsReceived := true }) })) ∧
    ((∀ attachments, (m.ReceiveAttachment playerID mailID now).1 ≠ .ok attachments) →
      (m.ReceiveAttachment playerID mailID now).2 = m) ∧
    successfulReceives playerID mailID m calls ≤ 1 := by
  refine ⟨?_, ?_, ?_, successfulReceives_bound playerID mailID calls m⟩
  · rcases receive_cases m playerID mailID now with
      ⟨⟨err, he⟩, _, hno⟩ | ⟨pm, mail, hp, hi, he, hr, ha, hst⟩
    · constructor
      · rintro ⟨a, h⟩
        rw [he] at h
        cases h
      · intro h
        exact absurd h hno
    · constructor
      · intro _
        exact ⟨pm, mail, hp, hi, he, hr, ha⟩
      · intro _
        exact ⟨mail.Attachments, by rw [hst]⟩
  · intro pm mail hp hi he hr ha
    rcases receive_cases m playerID mailID now with
      ⟨_, _, hno⟩ | ⟨pm2, mail2, hp2, hi2, _, _, _, hst⟩
    · exact absurd ⟨pm, mail, hp, hi, he, hr, ha⟩ hno
    · rw [hp] at hp2
      cases hp2
      rw [hi] at hi2
      cases hi2
      exact hst
  · intro hno
    rcases receive_cases m playerID mailID now with
      ⟨_, hst, _⟩ | ⟨pm2, mail2, _, _, _, _, _, hst⟩
    · exact hst
    · exact absurd (by rw [hst]) (hno mail2.Attachments)

end GhServer

namespace GhServer

/-! ## Pagination of the mail list and of the ranking list -/

theorem wrapInt64_id (x : Int) (h1 : -(2 : Int) ^ 63 ≤ x) (h2 : x < (2 : Int) ^ 63) :
    wrapInt64 x = x := by
  unfold wrapInt64
  omega

theorem pageBounds (page pageSize : Int) (hpage : 1 ≤ page) (hrange : page < (2 : Int) ^ 63)
    (hsize : 0 ≤ pageSize) (hfit : (page - 1) * pageSize + pageSize < (2 : Int) ^ 63) :
    wrapInt64 (wrapInt64 (page - 1) * pageSize) = (page - 1) * pageSize ∧
    wrapInt64 (wrapInt64 (wrapInt64 (page - 1) * pageSize) + pageSize) =
      (page - 1) * pageSize + pageSize ∧
    0 ≤ (page - 1) * pageSize := by
  have hprod : 0 ≤ (page - 1) * pageSize := Int.mul_nonneg (by omega) hsize
  have h1 : wrapInt64 (page - 1) = page - 1 := wrapInt64_id _ (by omega) (by omega)
  have h2 : wrapInt64 ((page - 1) * pageSize) = (page - 1) * pageSize :=
    wrapInt64_id _ (by omega) (by omega)
  rw [h1, h2]
  exact ⟨rfl, wrapInt64_id _ (by omega) (by omega), hprod⟩

theorem getMailList_fst (m : MailManager) (playerID : String) (page pageSize : Int)
    (env : MailEnv) :
    (m.GetMailList playerID page pageSize env).1 =
      if (((m.GetMailList playerID page pageSize env).2.validMails playerID env).length : Int)
          < wrapInt64 (wrapInt64 (page - 1) * pageSize) then
        some ([],
          (((m.GetMailList playerID page pageSize env).2.validMails playerID env).length : Int))
      else
        (sliceOf ((m.GetMailList playerID page pageSize env).2.validMails playerID env)
          (wrapInt64 (wrapInt64 (page - 1) * pageSize))
          (if (((m.GetMailList playerID page pageSize env).2.validMails playerID env).length
                : Int) < wrapInt64 (wrapInt64 (wrapInt64 (page - 1) * pageSize) + pageSize)
            then
              (((m.GetMailList playerID page pageSize env).2.validMails playerID env).length
                : Int)
            else wrapInt64 (wrapInt64 (wrapInt64 (page - 1) * pageSize) + pageSize))).map
          (fun s => (s,
            (((m.GetMailList playerID page pageSize env).2.validMails playerID env).length
              : Int))) := by
  unfold MailManager.GetMailList
  dsimp only
  split_ifs <;> rfl

theorem page_of_list {α : Type} (valid : List α) (start pageSize : Int) (hstart : 0 ≤ start)
    (hsize : 0 ≤ pageSize) :
    (if (valid.length : Int) < start then some (([] : List α), (valid.length : Int))
     else
      (sliceOf valid start
        (if (valid.length : Int) < start + pageSize then (valid.length : Int)
         else start + pageSize)).map (fun s => (s, (valid.length : Int)))) =
      some ((valid.drop start.toNat).take pageSize.toNat, (valid.length : Int)) := by
  by_cases h1 : (valid.length : Int) < start
  · rw [if_pos h1]
    have : valid.drop start.toNat = [] := List.drop_eq_nil_of_le (by omega)
    rw [this, List.take_nil]
  · rw [if_neg h1]
    by_cases h2 : (valid.length : Int) < start + pageSize
    · rw [if_pos h2]
      unfold sliceOf
      rw [if_pos ⟨hstart, by omega, Int.le_refl _⟩]
      simp only [Option.map_some']
      have hl : (valid.drop start.toNat).length = ((valid.length : Int) - start).toNat := by
        rw [List.length_drop]
        omega
      rw [List.take_of_length_le (by omega), List.take_of_length_le (by omega)]
    · rw [if_neg h2]
      unfold sliceOf
      rw [if_pos ⟨hstart, by omega, by omega⟩]
      simp only [Option.map_some']
      have : start + pageSize - start = pageSize := by omega
      rw [this]

/-- For `page >= 1` and `pageSize >= 0` whose product fits a Go `int`,
`GetMailList` returns the `pageSize` valid mails from offset `(page - 1) *
pageSize` on (fewer when the list ends) and the number of valid mails. -/
theorem getMailList_page (m : MailManager) (playerID : String) (page pageSize : Int)
    (env : MailEnv) (hpage : 1 ≤ page) (hrange : page < (2 : Int) ^ 63)
    (hsize : 0 ≤ pageSize) (hfit : (page - 1) * pageSize + pageSize < (2 : Int) ^ 63) :
    (m.GetMailList playerID page pageSize env).1 =
      some ((((m.GetMailList playerID page pageSize env).2.validMails playerID env).drop
          ((page - 1) * pageSize).toNat).take pageSize.toNat,
        (((m.GetMailList playerID page pageSize env).2.validMails playerID env).length : Int))
      := by
  obtain ⟨e1, e2, h0⟩ := pageBounds page pageSize hpage hrange hsize hfit
  rw [getMailList_fst, e2, e1]
  exact page_of_list _ _ _ h0 hsize

end GhServer

namespace GhServer

theorem pageLoop_negative (items : List Ptr) (stop total i : Int) (result : List Ptr)
    (h1 : i < stop) (h2 : i < total) (h3 : i < 0) :
    pageLoop items stop total i result = none := by
  rw [pageLoop]
  have h4 : ¬ (0 ≤ i ∧ i < (items.length : Int)) := by omega
  rw [if_pos ⟨h1, h2⟩, if_neg h4]

theorem pageLoop_spec (items : List Ptr) (stop : Int) (n : Nat) :
    ∀ (i : Int) (result : List Ptr), 0 ≤ i → i ≤ stop → stop ≤ (items.length : Int) →
      n = (stop - i).toNat →
      pageLoop items stop (items.length : Int) i result =
        some (result ++ (items.drop i.toNat).take n) := by
  induction n with
  | zero =>
    intro i result h0 h1 h2 hn
    rw [pageLoop]
    have h3 : ¬ (i < stop ∧ i < (items.length : Int)) := by omega
    rw [if_neg h3]
    simp
  | succ n ih =>
    intro i result h0 h1 h2 hn
    rw [pageLoop]
    have h3 : i < stop ∧ i < (items.length : Int) := by omega
    have h4 : 0 ≤ i ∧ i < (items.length : Int) := by omega
    rw [if_pos h3, if_pos h4, ih (i + 1) _ (by omega) (by omega) h2 (by omega)]
    have hlt : i.toNat < items.length := by omega
    have hi : (i + 1).toNat = i.toNat + 1 := by omega
    have hd : items.drop i.toNat = items[i.toNat] :: items.drop (i.toNat + 1) :=
      List.drop_eq_getElem_cons hlt
    have hg : items.getD i.toNat 0 = items[i.toNat] := by
      rw [List.getD_eq_getElem?_getD, List.getElem?_eq_getElem hlt]
      rfl
    rw [hi, hd, hg, List.take_succ_cons, List.append_assoc]
    rfl

/-- For `page >= 1` and `pageSize >= 0` whose product fits a Go `int`,
`GetRankingList` returns the `pageSize` items from offset `(page - 1) *
pageSize` on (fewer when the list ends) and the length of the list. -/
theorem getRankingList_page (m : RankingManager) (rankingType : Int)
    (rankingList : RankingList) (page pageSize : Int)
    (hget : m.rankings.get rankingType = some rankingList)
    (hpage : 1 ≤ page) (hrange : page < (2 : Int) ^ 63)
    (hsize : 0 ≤ pageSize) (hfit : (page - 1) * pageSize + pageSize < (2 : Int) ^ 63) :
    m.GetRankingList rankingType page pageSize =
      some ((rankingList.Items.drop ((page - 1) * pageSize).toNat).take pageSize.toNat,
        (rankingList.Items.length : Int)) := by
  obtain ⟨e1, e2, h0⟩ := pageBounds page pageSize hpage hrange hsize hfit
  unfold RankingManager.GetRankingList
  rw [hget]
  dsimp only
  rw [e2, e1]
  by_cases h1 : (rankingList.Items.length : Int) < (page - 1) * pageSize
  · have h2 : (rankingList.Items.length : Int) < (page - 1) * pageSize + pageSize := by omega
    rw [if_pos h1, if_pos h2,
      pageLoop_spec rankingList.Items _ 0 _ [] (by omega) (Int.le_refl _) (Int.le_refl _)
        (by omega)]
    have : rankingList.Items.drop ((page - 1) * pageSize).toNat = [] :=
      List.drop_eq_nil_of_le (by omega)
    simp [this]
  · rw [if_neg h1]
    by_cases h2 : (rankingList.Items.length : Int) < (page - 1) * pageSize + pageSize
    · rw [if_pos h2,
        pageLoop_spec rankingList.Items _
          ((rankingList.Items.length : Int) - (page - 1) * pageSize).toNat _ []
          h0 (by omega) (Int.le_refl _) rfl]
      have hl : (rankingList.Items.drop ((page - 1) * pageSize).toNat).length =
          ((rankingList.Items.length : Int) - (page - 1) * pageSize).toNat := by
        rw [List.length_drop]
        omega
      rw [List.take_of_length_le (by omega), List.take_of_length_le (by omega)]
      simp
    · rw [if_neg h2,
        pageLoop_spec rankingList.Items _ pageSize.toNat _ [] h0 (by omega) (by omega)
          (by omega)]
      simp

set_option maxRecDepth 100000 in
theorem levelRanking_present :
    ((NewRankingManager 0).rankings.get 1).map (fun rl => rl.Items) =
      some [0, 1, 2, 3, 4, 5, 6, 7, 8, 9] := by
  decide

set_option maxRecDepth 100000 in
theorem mailPageZero_trace :
    (NewMailManager.GetMailList "p" 0 10 sampleMailEnv).1 = none ∧
    (NewMailManager.GetMailList "p" 1 (-1) sampleMailEnv).1 = none ∧
    (NewMailManager.GetMailList "p" 1 2 sampleMailEnv).1.map
      (fun r => (r.1.map Mail.ID, r.2)) = some (["1", "2"], 3) := by
  decide

theorem rankingPageZero_trace : (NewRankingManager 0).GetRankingList 1 0 10 = none := by
  cases hget : (NewRankingManager 0).rankings.get 1 with
  | none =>
    have h := levelRanking_present
    rw [hget] at h
    cases h
  | some rl =>
    have h := levelRanking_present
    rw [hget] at h
    have hitems : rl.Items = [0, 1, 2, 3, 4, 5, 6, 7, 8, 9] := Option.some.inj h
    unfold RankingManager.GetRankingList
    rw [hget]
    dsimp only
    rw [hitems]
    have e1 : wrapInt64 (wrapInt64 (0 - 1) * 10) = -10 := by decide
    have e2 : wrapInt64 (-10 + 10) = 0 := by decide
    rw [e1, e2]
    have e3 : ¬ ((([0, 1, 2, 3, 4, 5, 6, 7, 8, 9] : List Ptr).length : Int) < -10) := by decide
    have e4 : ¬ ((([0, 1, 2, 3, 4, 5, 6, 7, 8, 9] : List Ptr).length : Int) < 0) := by decide
    rw [if_neg e3, if_neg e4, pageLoop_negative _ _ _ _ _ (by decide) (by decide) (by decide)]
    rfl

/-- C37: with `page = 0` and `pageSize = 10` (the zero value of an unset
`page` field), `MailManager.GetMailList` on the fresh manager ends in the
run-time panic of the slice expression `validMails[-10:0]`, and
`RankingManager.GetRankingList` on the fresh manager ends in the run-time panic
of the index expression `rankingList.Items[-10]`; `GetMailList` also panics for
`page = 1`, `pageSize = -1` (`validMails[0:-1]`). -/
theorem pagination_page_zero_panics :
    (NewMailManager.GetMailList "p" 0 10 sampleMailEnv).1 = none ∧
    (NewMailManager.GetMailList "p" 1 (-1) sampleMailEnv).1 = none ∧
    (NewRankingManager 0).GetRankingList 1 0 10 = none :=
  ⟨mailPageZero_trace.1, mailPageZero_trace.2.1, rankingPageZero_trace⟩

end GhServer

namespace GhServer

/-! ## Concurrent logins -/

theorem stepConcurrent_check_create (c : ConcurrentServer)
    (hp : ∀ i, c.pending.get i = none) (id : Nat) (req : LoginRequest) (env : LoginEnv) :
    (stepConcurrent (stepConcurrent c (.check id req env)) (.create id)).server =
      step c.server (Call.Login req env) ∧
    ∀ i, (stepConcurrent (stepConcurrent c (.check id req env)) (.create id)).pending.get i
      = none := by
  by_cases hv : req.Account = "" ∨ req.Password = ""
  · simp [stepConcurrent, step, LoginServer.loginCheck, LoginServer.Login, hv, hp]
  · by_cases hc : 100 ≤ c.server.playerManager.GetOnlineCount.val
    · simp [stepConcurrent, step, LoginServer.loginCheck, LoginServer.Login, hv, hc, hp]
    · simp only [stepConcurrent, step, LoginServer.loginCheck, LoginServer.Login, hv, hc,
        if_false, GoMap.get_set_same, LoginServer.loginCreate]
      refine ⟨trivial, ?_⟩
      intro i
      by_cases hi : i = id
      · subst hi
        exact GoMap.get_delete_same _ _
      · rw [GoMap.get_delete_ne _ hi, GoMap.get_set_ne _ _ hi]
        exact hp i

theorem runConcurrent_criticalSections (logins : List (Nat × LoginRequest × LoginEnv)) :
    ∀ (c : ConcurrentServer), (∀ i, c.pending.get i = none) →
      (runConcurrent c (criticalSections logins)).server =
        run c.server (logins.map (fun l => Call.Login l.2.1 l.2.2)) ∧
      ∀ i, (runConcurrent c (criticalSections logins)).pending.get i = none := by
  induction logins with
  | nil =>
    intro c hp
    exact ⟨rfl, hp⟩
  | cons l rest ih =>
    intro c hp
    obtain ⟨id, req, env⟩ := l
    obtain ⟨h1, h2⟩ := stepConcurrent_check_create c hp id req env
    have h3 := ih (stepConcurrent (stepConcurrent c (.check id req env)) (.create id)) h2
    rw [h1] at h3
    exact h3

set_option maxRecDepth 100000 in
theorem raceSchedule_state :
    (run NewLoginServer fill99Calls).playerManager.GetOnlineCount.val = 99 ∧
    (runConcurrent { server := run NewLoginServer fill99Calls, pending := GoMap.empty }
      (raceSchedule.take 2)).server.playerManager.GetOnlineCount.val = 99 ∧
    (runConcurrent { server := run NewLoginServer fill99Calls, pending := GoMap.empty }
      (raceSchedule.take 2)).server.queueManager.queue = [] ∧
    (runConcurrent { server := run NewLoginServer fill99Calls, pending := GoMap.empty }
      raceSchedule).server.playerManager.GetOnlineCount.val = 101 ∧
    (runConcurrent { server := run NewLoginServer fill99Calls, pending := GoMap.empty }
      raceSchedule).server.playerManager.IsOnline "a" = true ∧
    (runConcurrent { server := run NewLoginServer fill99Calls, pending := GoMap.empty }
      raceSchedule).server.playerManager.IsOnline "c" = true ∧
    (runConcurrent { server := run NewLoginServer fill99Calls, pending := GoMap.empty }
      (criticalSections serialLogins)).server.playerManager.GetOnlineCount.val = 100 := by
  decide

/-- C24, as stated, fails: after the logins of `u0`, ..., `u98` the online
count is 99. Two concurrent `Login` calls, of `a` and of `c`, both execute the
test `GetOnlineCount() >= 100` before either creates its Session: both find
99, neither is queued, both call `AddPlayer`, and the online count is 101. -/
theorem concurrent_logins_exceed_capacity :
    (run NewLoginServer fill99Calls).playerManager.GetOnlineCount.val = 99 ∧
    (runConcurrent { server := run NewLoginServer fill99Calls, pending := GoMap.empty }
      (raceSchedule.take 2)).server.playerManager.GetOnlineCount.val = 99 ∧
    (runConcurrent { server := run NewLoginServer fill99Calls, pending := GoMap.empty }
      (raceSchedule.take 2)).server.queueManager.queue = [] ∧
    (runConcurrent { server := run NewLoginServer fill99Calls, pending := GoMap.empty }
      raceSchedule).server.playerManager.GetOnlineCount.val = 101 ∧
    (runConcurrent { server := run NewLoginServer fill99Calls, pending := GoMap.empty }
      raceSchedule).server.playerManager.IsOnline "a" = true ∧
    (runConcurrent { server := run NewLoginServer fill99Calls, pending := GoMap.empty }
      raceSchedule).server.playerManager.IsOnline "c" = true ∧
    (runConcurrent { server := run NewLoginServer fill99Calls, pending := GoMap.empty }
      (criticalSections serialLogins)).server.playerManager.GetOnlineCount.val = 100 :=
  raceSchedule_state

/-- C24, amended: `Login` takes no lock, so its capacity test and its Session
creation are two steps that other calls can come between. In every schedule
that runs the two steps of each `Login` call back to back, from any state the
service reaches by sequential calls, the result is that of the sequential
calls and the online count is at most 100. -/
theorem serial_logins_within_capacity (calls : List Call)
    (logins : List (Nat × LoginRequest × LoginEnv)) :
    (runConcurrent { server := run NewLoginServer calls, pending := GoMap.empty }
      (criticalSections logins)).server =
      run NewLoginServer (calls ++ logins.map (fun l => Call.Login l.2.1 l.2.2)) ∧
    (runConcurrent { server := run NewLoginServer calls, pending := GoMap.empty }
      (criticalSections logins)).server.playerManager.GetOnlineCount.val ≤ 100 := by
  have h := (runConcurrent_criticalSections logins
    { server := run NewLoginServer calls, pending := GoMap.empty } (fun _ => rfl)).1
  rw [h, ← run_append]
  exact ⟨rfl, (countInv_run _ NewLoginServer countInv_new).2⟩

end GhServer

namespace GhServer

/-! ## The shop: a purchase that succeeds does not pay the buyer -/

theorem wrapInt64_le_self (x : Int) (h : 0 ≤ x) : wrapInt64 x ≤ x := by
  unfold wrapInt64
  omega

theorem buyItem_state (f32mul : Int → Float32 → Int) (m : ShopManager) (p : String)
    (itemID count : Int) (env : ShopEnv) :
    ((∃ msg, (m.BuyItem f32mul p itemID count env).1 = .error msg) ∧
      (m.BuyItem f32mul p itemID count env).2 = m.initPlayer p) ∨
    ∃ (k : Int) (i : Nat) (t : ShopItem) (total : Int) (cur : PlayerCurrency),
      findItem (m.initPlayer p).shopItems itemID env.order = some (k, i, t) ∧
      ¬ (0 < t.Stock ∧ t.Stock < count) ∧
      total = wrapInt64 ((if t.IsDiscount = true ∧ env.now < t.ExpireTime then
        f32mul t.OriginalPrice t.DiscountRate else t.CurrentPrice) * count) ∧
      ((t.CurrencyType = 1 ∧ ¬ ((m.initPlayer p).currencyOf p).Coins < total ∧
          cur = { Coins := wrapInt64 (((m.initPlayer p).currencyOf p).Coins - total),
                  Gems := ((m.initPlayer p).currencyOf p).Gems }) ∨
       (t.CurrencyType ≠ 1 ∧ ¬ ((m.initPlayer p).currencyOf p).Gems < total ∧
          cur = { Coins := ((m.initPlayer p).currencyOf p).Coins,
                  Gems := wrapInt64 (((m.initPlayer p).currencyOf p).Gems - total) })) ∧
      m.BuyItem f32mul p itemID count env =
        ShopManager.deliver
          { shopItems := (m.initPlayer p).shopItems,
            playerBuys := (m.initPlayer p).playerBuys,
            playerCurrency := (m.initPlayer p).playerCurrency.set p cur }
          p itemID count env k i t total := by
  cases hf : findItem (m.initPlayer p).shopItems itemID env.order with
  | none => left; simp [ShopManager.BuyItem, hf]
  | some r =>
    obtain ⟨k, i, t⟩ := r
    by_cases h1 : 0 < t.ExpireTime ∧ t.ExpireTime < env.now
    · left; simp [ShopManager.BuyItem, hf, h1]
    · by_cases h2 : 0 < t.Stock ∧ t.Stock < count
      · left; simp [ShopManager.BuyItem, hf, h1, h2]
      · by_cases h3 : 0 < t.MaxBuyCount ∧
            t.MaxBuyCount < wrapInt64 ((m.initPlayer p).boughtCount p itemID + count)
        · left; simp [ShopManager.BuyItem, hf, h1, h2, h3]
        · by_cases h4 : t.CurrencyType = 1
          · by_cases h5 : ((m.initPlayer p).currencyOf p).Coins <
                wrapInt64 ((if t.IsDiscount = true ∧ env.now < t.ExpireTime then
                  f32mul t.OriginalPrice t.DiscountRate else t.CurrentPrice) * count)
            · left
              simp only [ShopManager.BuyItem, hf, h1, h2, h3, h4, h5, if_false, if_true]
              exact ⟨⟨_, rfl⟩, trivial⟩
            · right
              refine ⟨k, i, t,
                wrapInt64 ((if t.IsDiscount = true ∧ env.now < t.ExpireTime then
                  f32mul t.OriginalPrice t.DiscountRate else t.CurrentPrice) * count),
                { Coins := wrapInt64 (((m.initPlayer p).currencyOf p).Coins -
                    wrapInt64 ((if t.IsDiscount = true ∧ env.now < t.ExpireTime then
                      f32mul t.OriginalPrice t.DiscountRate else t.CurrentPrice) * count)),
                  Gems := ((m.initPlayer p).currencyOf p).Gems },
                rfl, h2, rfl, Or.inl ⟨h4, h5, rfl⟩, ?_⟩
              simp only [ShopManager.BuyItem, hf, h1, h2, h3, h4, h5, if_false, if_true]
          · by_cases h5 : ((m.initPlayer p).currencyOf p).Gems <
                wrapInt64 ((if t.IsDiscount = true ∧ env.now < t.ExpireTime then
                  f32mul t.OriginalPrice t.DiscountRate else t.CurrentPrice) * count)
            · left
              simp only [ShopManager.BuyItem, hf, h1, h2, h3, h4, h5, if_false, if_true]
              exact ⟨⟨_, rfl⟩, trivial⟩
            · right
              refine ⟨k, i, t,
                wrapInt64 ((if t.IsDiscount = true ∧ env.now < t.ExpireTime then
                  f32mul t.OriginalPrice t.DiscountRate else t.CurrentPrice) * count),
                { Coins := ((m.initPlayer p).currencyOf p).Coins,
                  Gems := wrapInt64 (((m.initPlayer p).currencyOf p).Gems -
                    wrapInt64 ((if t.IsDiscount = true ∧ env.now < t.ExpireTime then
                      f32mul t.OriginalPrice t.DiscountRate else t.CurrentPrice) * count)) },
                rfl, h2, rfl, Or.inr ⟨h4, h5, rfl⟩, ?_⟩
              simp only [ShopManager.BuyItem, hf, h1, h2, h3, h4, h5, if_false, if_true]

theorem initPlayer_currency_get (m : ShopManager) (p : String) :
    ∃ c, (m.initPlayer p).playerCurrency.get p = some c ∧ (m.initPlayer p).currencyOf p = c := by
  cases hc : m.playerCurrency.get p with
  | some c =>
    have h := initPlayer_currency_some m p p c hc
    exact ⟨c, h, by simp [ShopManager.currencyOf, h]⟩
  | none =>
    have h := initPlayer_currency_new m p hc
    exact ⟨_, h, by simp [ShopManager.currencyOf, h]⟩

theorem deliver_fields (m : ShopManager) (p : String) (itemID count : Int) (env : ShopEnv)
    (k : Int) (i : Nat) (t : ShopItem) (total : Int) (items : List ShopItem)
    (hk : m.shopItems.get k = some items) (hi : items[i]? = some t)
    (k2 : Int) (items2 : List ShopItem) (it2 : ShopItem)
    (h2 : (ShopManager.deliver m p itemID count env k i t total).2.shopItems.get k2
      = some items2) (hmem : it2 ∈ items2) :
    ∃ items0 it0, m.shopItems.get k2 = some items0 ∧ it0 ∈ items0 ∧
      it2.CurrentPrice = it0.CurrentPrice ∧ it2.OriginalPrice = it0.OriginalPrice ∧
      it2.IsDiscount = it0.IsDiscount ∧ it2.DiscountRate = it0.DiscountRate := by
  rw [deliver_shopItems] at h2
  by_cases hs : 0 < t.Stock
  · rw [if_pos hs] at h2
    by_cases hk2 : k2 = k
    · subst hk2
      rw [GoMap.get_set_same] at h2
      rw [hk] at h2
      have h3 := Option.some.inj h2
      rw [← h3] at hmem
      rcases List.mem_or_eq_of_mem_set hmem with hm | hm
      · exact ⟨items, it2, hk, hm, rfl, rfl, rfl, rfl⟩
      · rw [hm]
        exact ⟨items, t, hk, List.getElem?_mem hi, rfl, rfl, rfl, rfl⟩
    · rw [GoMap.get_set_ne _ _ hk2] at h2
      exact ⟨items2, it2, h2, hmem, rfl, rfl, rfl, rfl⟩
  · rw [if_neg hs] at h2
    exact ⟨items2, it2, h2, hmem, rfl, rfl, rfl, rfl⟩

theorem shopInv_new (now0 : Int) : ShopInv (NewShopManager now0) := by
  constructor
  · intro k items it hk hm
    have h1 := GoMap.lookup_mem hk
    have h2 : (it.OriginalPrice, it.CurrentPrice, it.IsDiscount, it.DiscountRate) ∈
        ((NewShopManager now0).shopItems.entries.map
          (fun e => e.2.map (fun it =>
            (it.OriginalPrice, it.CurrentPrice, it.IsDiscount, it.DiscountRate)))).flatten := by
      rw [List.mem_flatten]
      exact ⟨items.map (fun it =>
          (it.OriginalPrice, it.CurrentPrice, it.IsDiscount, it.DiscountRate)),
        List.mem_map.mpr ⟨(k, items), h1, rfl⟩, List.mem_map.mpr ⟨it, hm, rfl⟩⟩
    have h3 : ((NewShopManager now0).shopItems.entries.map
          (fun e => e.2.map (fun it =>
            (it.OriginalPrice, it.CurrentPrice, it.IsDiscount, it.DiscountRate)))).flatten =
        [(1000, 1000, false, ⟨10, -1⟩), (5000, 3500, true, ⟨7, -1⟩), (100, 80, true, ⟨8, -1⟩),
         (100, 100, false, ⟨10, -1⟩), (200, 200, false, ⟨10, -1⟩),
         (1000, 900, true, ⟨9, -1⟩)] := by
      rfl
    rw [h3] at h2
    simp only [List.mem_cons, List.mem_singleton, List.not_mem_nil, or_false,
      Prod.mk.injEq] at h2
    rcases h2 with h | h | h | h | h | h <;> obtain ⟨e1, e2, e3, e4⟩ := h <;>
      rw [e1, e2, e3, e4] <;> decide
  · intro q cur hq
    have h0 : (NewShopManager now0).playerCurrency.get q = none := rfl
    rw [h0] at hq
    cases hq

theorem shopInv_initPlayer (m : ShopManager) (p : String) (hinv : ShopInv m) :
    ShopInv (m.initPlayer p) := by
  obtain ⟨h1, h2⟩ := hinv
  constructor
  · intro k items it hk hm
    rw [initPlayer_shopItems] at hk
    exact h1 k items it hk hm
  · intro q cur hq
    by_cases hqp : q = p
    · subst hqp
      cases hc : m.playerCurrency.get q with
      | some c =>
        rw [initPlayer_currency_some m q q c hc] at hq
        rw [← Option.some.inj hq]
        exact h2 q c hc
      | none =>
        rw [initPlayer_currency_new m q hc] at hq
        rw [← Option.some.inj hq]
        decide
    · rw [initPlayer_currency_other m p q hqp] at hq
      exact h2 q cur hq

theorem shopInv_step (f32mul : Int → Float32 → Int) (m : ShopManager) (c : ShopCall)
    (hinv : ShopInv m) : ShopInv (stepShop f32mul m c) := by
  cases c with
  | GetShopList p shopType now =>
    simp only [stepShop, getShopList_state]
    exact shopInv_initPlayer m p hinv
  | BuyItem p itemID count env =>
    have hinv1 := shopInv_initPlayer m p hinv
    simp only [stepShop]
    rcases buyItem_state f32mul m p itemID count env with
      ⟨_, hst⟩ | ⟨k, i, t, total, cur, hf, _, _, hcur, hst⟩
    · rw [hst]
      exact hinv1
    · rw [hst]
      obtain ⟨items, hk, hi, hid⟩ := findItem_some _ _ _ _ _ _ hf
      obtain ⟨h1, h2⟩ := hinv1
      obtain ⟨c0, hc0, hc0eq⟩ := initPlayer_currency_get m p
      have hr := h2 p c0 hc0
      rw [← hc0eq] at hr
      have key := deliver_fields
        { shopItems := (m.initPlayer p).shopItems, playerBuys := (m.initPlayer p).playerBuys,
          playerCurrency := (m.initPlayer p).playerCurrency.set p cur }
        p itemID count env k i t total items hk hi
      constructor
      · intro k2 items2 it2 hk2 hm2
        obtain ⟨a0, b0, ha, hb, e1, e2, e3, e4⟩ := key k2 items2 it2 hk2 hm2
        rw [e1, e2, e3, e4]
        exact h1 k2 a0 b0 ha hb
      · intro q cur2 hq
        rw [deliver_playerCurrency] at hq
        by_cases hqp : q = p
        · subst hqp
          rw [GoMap.get_set_same] at hq
          rw [← Option.some.inj hq]
          rcases hcur with ⟨_, _, e⟩ | ⟨_, _, e⟩
          · rw [e]
            exact ⟨wrapInt64_range _, hr.2⟩
          · rw [e]
            exact ⟨hr.1, wrapInt64_range _⟩
        · rw [GoMap.get_set_ne _ _ hqp] at hq
          exact h2 q cur2 hq

theorem shopInv_run (f32mul : Int → Float32 → Int) (calls : List ShopCall) :
    ∀ (m : ShopManager), ShopInv m → ShopInv (runShop f32mul m calls) := by
  induction calls with
  | nil => intro m h; exact h
  | cons c cs ih => intro m h; exact ih (stepShop f32mul m c) (shopInv_step f32mul m c h)

end GhServer

namespace GhServer

theorem buyItem_ok_charged (f32mul : Int → Float32 → Int) (hsane : DiscountSane f32mul)
    (m : ShopManager) (hinv : ShopInv m) (p : String) (itemID count : Int) (env : ShopEnv)
    (boughtItems : List Item) (totalPrice currencyType : Int)
    (hok : (m.BuyItem f32mul p itemID count env).1 = .ok boughtItems totalPrice currencyType) :
    ∃ (k : Int) (i : Nat) (t t2 : ShopItem),
      findItem (m.initPlayer p).shopItems itemID env.order = some (k, i, t) ∧
      ((m.shopItems.get k).getD [])[i]? = some t ∧
      (((m.BuyItem f32mul p itemID count env).2.shopItems.get k).getD [])[i]? = some t2 ∧
      t.ItemID = itemID ∧ t2.ItemID = itemID ∧
      t2.Stock ≤ t.Stock ∧
      0 ≤ count ∧ 0 ≤ totalPrice ∧ currencyType = t.CurrencyType ∧
      ((m.BuyItem f32mul p itemID count env).2.currencyOf p).Coins
        ≤ ((m.initPlayer p).currencyOf p).Coins ∧
      ((m.BuyItem f32mul p itemID count env).2.currencyOf p).Gems
        ≤ ((m.initPlayer p).currencyOf p).Gems ∧
      (t.CurrencyType = 1 →
        0 ≤ ((m.BuyItem f32mul p itemID count env).2.currencyOf p).Coins) ∧
      (t.CurrencyType ≠ 1 →
        0 ≤ ((m.BuyItem f32mul p itemID count env).2.currencyOf p).Gems) := by
  rcases buyItem_state f32mul m p itemID count env with
    ⟨⟨msg, herr⟩, _⟩ | ⟨k, i, t, total, cur, hf, hstock, htotal, hcur, hst⟩
  · rw [herr] at hok
    cases hok
  · obtain ⟨items, hk, hi, hid⟩ := findItem_some _ _ _ _ _ _ hf
    obtain ⟨h1, h2⟩ := shopInv_initPlayer m p hinv
    obtain ⟨c0, hc0, hc0eq⟩ := initPlayer_currency_get m p
    have hr := h2 p c0 hc0
    rw [← hc0eq] at hr
    obtain ⟨hcp0, hcp1, hdisc⟩ := h1 k items t hk (List.getElem?_mem hi)
    -- the call did not panic, and returned the total and the currency type
    have hres := deliver_result
      { shopItems := (m.initPlayer p).shopItems, playerBuys := (m.initPlayer p).playerBuys,
        playerCurrency := (m.initPlayer p).playerCurrency.set p cur }
      p itemID count env k i t total
    have hnp : ¬ makeItemsPanics count := by
      intro hp
      rw [hst, hres.1 hp] at hok
      cases hok
    obtain ⟨b, _, hb⟩ := hres.2 hnp
    rw [hst, hb] at hok
    have htp : total = totalPrice := by
      injection hok
    have hct : t.CurrencyType = currencyType := by
      injection hok
    have hc0le : 0 ≤ count := by
      by_contra hneg
      exact hnp (Or.inl (by omega))
    have hcmax : 40 * count ≤ 2 ^ 48 := by
      by_contra hbig
      exact hnp (Or.inr (by
        show (2 : Int) ^ 48 < 40 * count
        omega))
    -- the unit price lies between 0 and 5000
    have hprice : 0 ≤ (if t.IsDiscount = true ∧ env.now < t.ExpireTime then
        f32mul t.OriginalPrice t.DiscountRate else t.CurrentPrice) ∧
        (if t.IsDiscount = true ∧ env.now < t.ExpireTime then
        f32mul t.OriginalPrice t.DiscountRate else t.CurrentPrice) ≤ 5000 := by
      split_ifs with hd
      · obtain ⟨s1, s2, s3⟩ := hsane
        rcases hdisc hd.1 with ⟨e1, e2⟩ | ⟨e1, e2⟩ | ⟨e1, e2⟩ <;> rw [e1, e2] <;>
          constructor <;> omega
      · exact ⟨hcp0, hcp1⟩
    generalize (if t.IsDiscount = true ∧ env.now < t.ExpireTime then
        f32mul t.OriginalPrice t.DiscountRate else t.CurrentPrice) = price at htotal hprice
    have hmul0 : 0 ≤ price * count := Int.mul_nonneg hprice.1 hc0le
    have hmul1 : price * count ≤ 5000 * count :=
      Int.mul_le_mul_of_nonneg_right hprice.2 hc0le
    have htot : total = price * count := by
      rw [htotal]
      exact wrapInt64_of_range _ (by omega) (by omega)
    have hstate : (m.BuyItem f32mul p itemID count env).2.currencyOf p = cur := by
      rw [hst]
      unfold ShopManager.currencyOf
      rw [deliver_playerCurrency]
      show (((m.initPlayer p).playerCurrency.set p cur).get p).getD _ = cur
      rw [GoMap.get_set_same]
      rfl
    have hitems : (m.shopItems.get k).getD [] = items := by
      rw [initPlayer_shopItems] at hk
      rw [hk]
      rfl
    have hilt : i < items.length := by
      by_contra hge
      rw [List.getElem?_eq_none (Nat.le_of_not_lt hge)] at hi
      cases hi
    have hshop : ∃ t2, (((m.BuyItem f32mul p itemID count env).2.shopItems.get k).getD [])[i]?
        = some t2 ∧ t2.ItemID = itemID ∧ t2.Stock ≤ t.Stock := by
      rw [hst, deliver_shopItems]
      by_cases hs : 0 < t.Stock
      · rw [if_pos hs]
        refine ⟨{ t with Stock := wrapInt64 (t.Stock - count) }, ?_, hid, ?_⟩
        · show ((((m.initPlayer p).shopItems.set k _).get k).getD [])[i]? = _
          rw [GoMap.get_set_same]
          show ((((m.initPlayer p).shopItems.get k).getD []).set i _)[i]? = _
          rw [hk]
          show (items.set i _)[i]? = _
          simp [hilt]
        · show wrapInt64 (t.Stock - count) ≤ t.Stock
          have hle : count ≤ t.Stock := by
            by_contra hgt
            exact hstock ⟨hs, by omega⟩
          have := wrapInt64_le_self (t.Stock - count) (by omega)
          omega
      · rw [if_neg hs]
        refine ⟨t, ?_, hid, le_refl _⟩
        show (((m.initPlayer p).shopItems.get k).getD [])[i]? = some t
        rw [hk]
        exact hi
    obtain ⟨t2, ht2, ht2id, ht2stock⟩ := hshop
    refine ⟨k, i, t, t2, hf, ?_, ht2, hid, ht2id, ht2stock, hc0le, ?_, hct.symm, ?_⟩
    · rw [hitems]
      exact hi
    · rw [← htp, htot]
      exact hmul0
    · rw [hstate]
      rcases hcur with ⟨hty, hle, e⟩ | ⟨hty, hle, e⟩
      · have hw : wrapInt64 (((m.initPlayer p).currencyOf p).Coins - total) =
            ((m.initPlayer p).currencyOf p).Coins - total :=
          wrapInt64_of_range _ (by omega) (by omega)
        rw [e]
        refine ⟨?_, le_refl _, ?_, ?_⟩
        · show wrapInt64 _ ≤ _
          rw [hw]
          omega
        · intro _
          show 0 ≤ wrapInt64 _
          rw [hw]
          omega
        · intro hne
          exact absurd hty hne
      · have hw : wrapInt64 (((m.initPlayer p).currencyOf p).Gems - total) =
            ((m.initPlayer p).currencyOf p).Gems - total :=
          wrapInt64_of_range _ (by omega) (by omega)
        rw [e]
        refine ⟨le_refl _, ?_, ?_, ?_⟩
        · show wrapInt64 _ ≤ _
          rw [hw]
          omega
        · intro h1
          exact absurd h1 hty
        · intro _
          show 0 ≤ wrapInt64 _
          rw [hw]
          omega

end GhServer

namespace GhServer

set_option maxRecDepth 100000 in
theorem secondPurchase_trace :
    DiscountSane sampleF32mul ∧
    ((runShop sampleF32mul (NewShopManager 0) firstPurchase).BuyItem sampleF32mul "p" 1001 2
      sampleShopEnv).1 =
      .ok [{ ID := "p_item_1001_1000000000", ItemID := 1001, Count := 1, CreateTime := 1,
             Attrs := GoMap.empty.set "source" "shop" },
           { ID := "p_item_1001_1000000001", ItemID := 1001, Count := 1, CreateTime := 1,
             Attrs := GoMap.empty.set "source" "shop" }] 200 1 ∧
    (runShop sampleF32mul (NewShopManager 0) firstPurchase).currencyOf "p"
      = { Coins := 9900, Gems := 1000 } ∧
    ((runShop sampleF32mul (NewShopManager 0) firstPurchase).BuyItem sampleF32mul "p" 1001 2
      sampleShopEnv).2.currencyOf "p" = { Coins := 9700, Gems := 1000 } ∧
    (((runShop sampleF32mul (NewShopManager 0) firstPurchase).shopItems.get 1).getD []).map
      (fun it => (it.ItemID, it.Stock)) = [(1001, 998), (1002, 999), (2001, 50)] ∧
    ((((runShop sampleF32mul (NewShopManager 0) firstPurchase).BuyItem sampleF32mul "p" 1001 2
      sampleShopEnv).2.shopItems.get 1).getD []).map
      (fun it => (it.ItemID, it.Stock)) = [(1001, 996), (1002, 999), (2001, 50)] := by
  unfold DiscountSane
  decide

/-- C32: in every state `m` reached from a fresh shop by `GetShopList` and
`BuyItem` calls, for every player, item id and count, when `BuyItem` succeeds
(returns the bought items, `totalPrice` and `currencyType`, neither an error
nor a panic): the count and the total price are not negative; the buyer's coins
and gems are not larger than before the purchase, and the balance in the
item's currency (coins for `CurrencyType` 1, gems otherwise) is not negative;
and the item found, which stands at index `i` of shop `k`, stands there with a
stock that is not larger than before. The balance before the purchase is the
one the prologue of the call finds or creates: the buyer's record when there
is one, otherwise the grant of 10000 coins and 1000 gems. The unit price of a
discounted item is the value of `int(float32(OriginalPrice) * DiscountRate)`,
assumed to lie between 0 and the original price. -/
theorem buyItem_never_pays (f32mul : Int → Float32 → Int) (hsane : DiscountSane f32mul)
    (now0 : Int) (calls : List ShopCall) (m : ShopManager)
    (hm : m = runShop f32mul (NewShopManager now0) calls)
    (p : String) (itemID count : Int) (env : ShopEnv)
    (boughtItems : List Item) (totalPrice currencyType : Int)
    (hok : (m.BuyItem f32mul p itemID count env).1 = .ok boughtItems totalPrice currencyType) :
    (∀ cur, m.playerCurrency.get p = some cur → (m.initPlayer p).currencyOf p = cur) ∧
    (m.playerCurrency.get p = none →
      (m.initPlayer p).currencyOf p = { Coins := 10000, Gems := 1000 }) ∧
    ∃ (k : Int) (i : Nat) (t t2 : ShopItem),
      findItem (m.initPlayer p).shopItems itemID env.order = some (k, i, t) ∧
      ((m.shopItems.get k).getD [])[i]? = some t ∧
      (((m.BuyItem f32mul p itemID count env).2.shopItems.get k).getD [])[i]? = some t2 ∧
      t.ItemID = itemID ∧ t2.ItemID = itemID ∧
      t2.Stock ≤ t.Stock ∧
      0 ≤ count ∧ 0 ≤ totalPrice ∧ currencyType = t.CurrencyType ∧
      ((m.BuyItem f32mul p itemID count env).2.currencyOf p).Coins
        ≤ ((m.initPlayer p).currencyOf p).Coins ∧
      ((m.BuyItem f32mul p itemID count env).2.currencyOf p).Gems
        ≤ ((m.initPlayer p).currencyOf p).Gems ∧
      (t.CurrencyType = 1 →
        0 ≤ ((m.BuyItem f32mul p itemID count env).2.currencyOf p).Coins) ∧
      (t.CurrencyType ≠ 1 →
        0 ≤ ((m.BuyItem f32mul p itemID count env).2.currencyOf p).Gems) := by
  have hinv : ShopInv m := by
    rw [hm]
    exact shopInv_run f32mul calls (NewShopManager now0) (shopInv_new now0)
  refine ⟨?_, ?_, buyItem_ok_charged f32mul hsane m hinv p itemID count env boughtItems
    totalPrice currencyType hok⟩
  · intro cur hcur
    unfold ShopManager.currencyOf
    rw [initPlayer_currency_some m p p cur hcur]
    rfl
  · intro hnone
    unfold ShopManager.currencyOf
    rw [initPlayer_currency_new m p hnone]
    rfl

/-- C32 at a concrete purchase: on a fresh shop player `p` buys one unit of
item 1001 (100 coins each, stock 999) and then two more. The second call
succeeds with total price 200; the coins go from 9900 to 9700 and the stock
from 998 to 996. -/
theorem buyItem_never_pays_witness :
    DiscountSane sampleF32mul ∧
    ((runShop sampleF32mul (NewShopManager 0) firstPurchase).BuyItem sampleF32mul "p" 1001 2
      sampleShopEnv).1 =
      .ok [{ ID := "p_item_1001_1000000000", ItemID := 1001, Count := 1, CreateTime := 1,
             Attrs := GoMap.empty.set "source" "shop" },
           { ID := "p_item_1001_1000000001", ItemID := 1001, Count := 1, CreateTime := 1,
             Attrs := GoMap.empty.set "source" "shop" }] 200 1 ∧
    (runShop sampleF32mul (NewShopManager 0) firstPurchase).currencyOf "p"
      = { Coins := 9900, Gems := 1000 } ∧
    ((runShop sampleF32mul (NewShopManager 0) firstPurchase).BuyItem sampleF32mul "p" 1001 2
      sampleShopEnv).2.currencyOf "p" = { Coins := 9700, Gems := 1000 } ∧
    (((runShop sampleF32mul (NewShopManager 0) firstPurchase).shopItems.get 1).getD []).map
      (fun it => (it.ItemID, it.Stock)) = [(1001, 998), (1002, 999), (2001, 50)] ∧
    ((((runShop sampleF32mul (NewShopManager 0) firstPurchase).BuyItem sampleF32mul "p" 1001 2
      sampleShopEnv).2.shopItems.get 1).getD []).map
      (fun it => (it.ItemID, it.Stock)) = [(1001, 996), (1002, 999), (2001, 50)] ∧
    ∃ (k : Int) (i : Nat) (t t2 : ShopItem),
      findItem ((runShop sampleF32mul (NewShopManager 0) firstPurchase).initPlayer "p").shopItems
        1001 sampleShopEnv.order = some (k, i, t) ∧
      (((runShop sampleF32mul (NewShopManager 0) firstPurchase).shopItems.get k).getD [])[i]?
        = some t ∧
      ((((runShop sampleF32mul (NewShopManager 0) firstPurchase).BuyItem sampleF32mul "p" 1001 2
        sampleShopEnv).2.shopItems.get k).getD [])[i]? = some t2 ∧
      t.ItemID = 1001 ∧ t2.ItemID = 1001 ∧
      t2.Stock ≤ t.Stock ∧
      (0 : Int) ≤ 2 ∧ (0 : Int) ≤ 200 ∧ (1 : Int) = t.CurrencyType ∧
      (((runShop sampleF32mul (NewShopManager 0) firstPurchase).BuyItem sampleF32mul "p" 1001 2
        sampleShopEnv).2.currencyOf "p").Coins
        ≤ (((runShop sampleF32mul (NewShopManager 0) firstPurchase).initPlayer "p").currencyOf
          "p").Coins ∧
      (((runShop sampleF32mul (NewShopManager 0) firstPurchase).BuyItem sampleF32mul "p" 1001 2
        sampleShopEnv).2.currencyOf "p").Gems
        ≤ (((runShop sampleF32mul (NewShopManager 0) firstPurchase).initPlayer "p").currencyOf
          "p").Gems ∧
      (t.CurrencyType = 1 →
        0 ≤ (((runShop sampleF32mul (NewShopManager 0) firstPurchase).BuyItem sampleF32mul "p"
          1001 2 sampleShopEnv).2.currencyOf "p").Coins) ∧
      (t.CurrencyType ≠ 1 →
        0 ≤ (((runShop sampleF32mul (NewShopManager 0) firstPurchase).BuyItem sampleF32mul "p"
          1001 2 sampleShopEnv).2.currencyOf "p").Gems) :=
  ⟨secondPurchase_trace.1, secondPurchase_trace.2.1, secondPurchase_trace.2.2.1, secondPurchase_trace.2.2.2.1,
    secondPurchase_trace.2.2.2.2.1, secondPurchase_trace.2.2.2.2.2,
    (buyItem_never_pays sampleF32mul secondPurchase_trace.1 0 firstPurchase
      (runShop sampleF32mul (NewShopManager 0) firstPurchase) rfl "p" 1001 2 sampleShopEnv
      _ 200 1 secondPurchase_trace.2.1).2.2⟩

end GhServer
